import Mathlib

/-! # The `gql` SQL builder: `dataset.go`

A shallow embedding of `src/dataset.go` and theorems about it.

Conventions of the embedding.

* A Go `string` is a `String`; Go compares strings byte by byte, which on text is the
  lexicographic order of the characters (`goStringLess`).
* A Go `interface{}` value is a `GoValue`: its dynamic kind together with its payload.
* A `reflect.Value` is an `Option GoValue`; `none` is the zero `reflect.Value` (kind `Invalid`).
* A Go `(string, error)` result is a `SqlResult`, a pair of the text and an optional error.
* A run-time panic is the `Except.error` of `Panics`.
* `me.adapter` is a handle; the adapter behind a handle is looked up in an `Env`.
* Error values are kept symbolic: a `GoError` records which constructor built it from which
  arguments, a `GoText` records how a run-time string was computed.
* A method that returns a Dataset gives the Dataset with the clauses it holds on return; a
  slice is the list of its elements. Only the section on the compounds in memory follows slice
  headers and backing arrays, for the one slice that the code appends to without a copy.
-/

namespace gql

/-! ## Go values -/

/-- The signed integer kinds of `reflect`. -/
inductive IntKind where
  | int | int8 | int16 | int32 | int64
deriving DecidableEq, Repr

/-- The unsigned integer kinds of `reflect` that `Literal` lists. -/
inductive UintKind where
  | uint | uint8 | uint16 | uint32 | uint64
deriving DecidableEq, Repr

/-- The floating point kinds of `reflect`. -/
inductive FloatKind where
  | float32 | float64
deriving DecidableEq, Repr

/-- Width in bits of an unsigned kind; `uint` is 64 bits wide on the platforms considered. -/
def UintKind.bits : UintKind → Nat
  | .uint => 64
  | .uint8 => 8
  | .uint16 => 16
  | .uint32 => 32
  | .uint64 => 64

/-- A `float64` as returned by `reflect.Value.Float()`, identified by its IEEE-754 bit pattern.
No arithmetic is done on it: the builder only hands it to the adapter. -/
structure GoFloat where
  bits : Nat
deriving DecidableEq, Repr

/-- A `time.Time`, identified by its instant in nanoseconds; only handed to the adapter. -/
structure GoTime where
  unixNano : Int
deriving DecidableEq, Repr

/-- A `reflect.StructField` as far as `dataset.go` reads it: the field name, whether the field
is exported (`PkgPath == ""`), the `db` tag (`Tag.Get("db")`) and the options of the `gql` tag
(`tags.TagOptions(Tag.Get("gql"))`). -/
structure StructField where
  Name : String
  exported : Bool
  db : String
  gql : List String
deriving DecidableEq, Repr

/-- A `reflect.Type`, as far as types are compared for identity. -/
inductive GoType where
  | iface
  | int (k : IntKind)
  | uint (k : UintKind)
  | float (k : FloatKind)
  | string
  | bool
  | bytes
  | slice (name : String)
  | time
  | expr (name : String)
  | struct (name : String) (fields : List StructField)
  | map (name : String)
  | ptr (elem : GoType)
  | other (name : String)
deriving DecidableEq, Repr

/-- The join types of the package (`inner_join`, ..., `cross_join`). -/
inductive JoinType where
  | inner_join | full_outer_join | right_outer_join | left_outer_join
  | full_join | right_join | left_join
  | natural_join | natural_left_join | natural_right_join | natural_full_join
  | cross_join
deriving DecidableEq, Repr

/-- The set operations a `CompoundExpression` can stand for. -/
inductive CompoundType where
  | union | unionAll | intersect | intersectAll
deriving DecidableEq, Repr

/-- The connective of an `ExpressionList`. -/
inductive ExpressionListType where
  | and | or
deriving DecidableEq, Repr

/-- The struct `joiningClause`, over the type `E` of expressions. `table` and `condition` are
interface values and may be nil (`none`). -/
structure joiningClauseOf (E : Type) where
  joinType : JoinType
  isConditioned : Bool
  table : Option E
  condition : Option E

/-- An `ExpressionList`: the connective and the expressions joined by it. -/
structure ExpressionListOf (E : Type) where
  operator : ExpressionListType
  expressions : List E

/-- The struct `clauses`, over the types `E` of expressions and `V` of `interface{}` values.
A `ColumnList` is the list of its columns; an interface-typed field that is nil is `none`.
`Limit` is an `interface{}` and `Compounds` a slice of `CompoundExpression`s. -/
structure clausesOf (E V : Type) where
  Select : Option (List V)
  SelectDistinct : Option (List V)
  From : Option (List V)
  Joins : List (joiningClauseOf E)
  Where : Option (ExpressionListOf E)
  Alias : Option E
  GroupBy : Option (List V)
  Having : Option (ExpressionListOf E)
  Order : Option (List V)
  Limit : V
  Offset : Nat
  Returning : Option (List V)
  Compounds : List E

/-- The struct `Dataset`. `adapter` is the handle of the adapter, `database` the handle of the
database collaborator (nil for a Dataset made by `From`). -/
structure DatasetOf (E V : Type) where
  adapter : Nat
  clauses : clausesOf E V
  database : Option Nat

mutual
/-- A Go `interface{}` value: dynamic kind and payload.

* `nil` is the nil interface.
* `uint k n` holds `n < 2 ^ k.bits`; `float k f` holds `f`, the `float64` that `Float()` returns.
* `bytes b` is a `[]byte`, held as the Go string with the same bytes; `slice` is any other slice.
* `expr e` is a struct that implements `Expression`; `time t` is a `time.Time`.
* `struct` is any other struct, with its fields in declaration order.
* `map` is a map with string keys; the list gives the entries in the order in which
  `MapKeys` returns them, and no key occurs twice.
* `ptr v` is a non-nil pointer to `v`, `nilPtr t` a nil pointer to a `t`.
* `valuer self dVal err` is the value `self` whose dynamic type also implements
  `driver.Valuer`; its `Value()` returns `(dVal, err)`, the error given by its text.
* `other` is a value of any kind not listed (array, chan, func, complex, ...). -/
inductive GoValue where
  | nil
  | int (k : IntKind) (n : Int)
  | uint (k : UintKind) (n : Nat)
  | float (k : FloatKind) (f : GoFloat)
  | string (s : String)
  | bool (b : Bool)
  | bytes (b : String)
  | slice (typ : String) (elems : List GoValue)
  | time (t : GoTime)
  | expr (e : Expression)
  | struct (typ : String) (fields : List (StructField × GoValue))
  | map (typ : String) (entries : List (String × GoValue))
  | ptr (elem : GoValue)
  | nilPtr (elem : GoType)
  | valuer (self : GoValue) (dVal : GoValue) (err : Option String)
  | other (typ : String)
/-- An `Expression`: one constructor per variant that `expressionSql` tells apart, and
`unknown` for any other implementation (named by its Go type). -/
inductive Expression where
  | dataset (d : DatasetOf Expression GoValue)
  | columnList (columns : List GoValue)
  | expressionList (l : ExpressionListOf Expression)
  | literal (text : String) (args : List GoValue)
  | identifier (name : String)
  | aliased (e : Expression) (name : Expression)
  | boolean (op : String) (lhs : Expression) (rhs : GoValue)
  | ordered (e : Expression) (direction : String)
  | update (col : Expression) (val : GoValue)
  | sqlFunction (name : String) (args : List GoValue)
  | cast (e : Expression) (typ : String)
  | compound (t : CompoundType) (rhs : DatasetOf Expression GoValue)
  | unknown (typ : String)
end

/-- The interface type `ColumnList`, as the list of its columns. -/
abbrev ColumnList := List GoValue
/-- The interface type `ExpressionList`. -/
abbrev ExpressionList := ExpressionListOf Expression
/-- The struct `joiningClause`. -/
abbrev joiningClause := joiningClauseOf Expression
/-- The slice type `joiningClauses`. -/
abbrev joiningClauses := List joiningClause
/-- The struct `clauses`. -/
abbrev clauses := clausesOf Expression GoValue
/-- The struct `Dataset`. -/
abbrev Dataset := DatasetOf Expression GoValue

/-- The struct `TruncateOptions`. -/
structure TruncateOptions where
  Cascade : Bool
  Restrict : Bool
  Identity : String
deriving DecidableEq, Repr

/-! ## Errors, results and panics -/

/-- An operand of a format string. -/
inductive FmtArg where
  | str (s : String)
  | num (n : Nat)
  | type (t : GoType)
  | value (v : GoValue)

mutual
/-- A string computed at run time, kept as the expression that computes it: a constant,
`fmt.Sprintf(format, args...)`, or `e.Error()`. -/
inductive GoText where
  | lit (s : String)
  | sprintf (format : String) (args : List FmtArg)
  | errorOf (e : GoError)
/-- A Go `error` value, named by how it was made: `foreign text` is an error made outside this
package (by an adapter or a `driver.Valuer`) whose `Error()` is `text`; `gql message args` is
`newGqlError(message, args...)`; `encode message` is `newEncodeError(message)`. -/
inductive GoError where
  | foreign (text : String)
  | gql (message : GoText) (args : List FmtArg)
  | encode (message : GoText)
end

/-- The helper `newGqlError(message, args...)`. -/
def newGqlError (message : GoText) (args : List FmtArg) : GoError := .gql message args

/-- The helper `newEncodeError(message)`. -/
def newEncodeError (message : GoText) : GoError := .encode message

/-- A Go `(string, error)` result. -/
abbrev SqlResult := String × Option GoError

/-- The run-time panics the embedded code can raise: an index out of range, a method of
`reflect.Value` called on the zero Value, `Interface()` called on a Value obtained from an
unexported struct field, and a method called on a nil interface value. -/
inductive Panic where
  | indexOutOfRange
  | zeroValue
  | unexportedField
  | nilDereference
deriving DecidableEq, Repr

/-- A computation that may panic. -/
abbrev Panics := Except Panic

/-! ## The adapter interface -/

/-- The `(string, error)` result of an operation of an adapter. An adapter is a collaborator
outside this file: an error it returns is not one made by the constructors of this package, and
is given by the text of its `Error()`. -/
abbrev AdapterResult := String × Option String

/-- The result of an adapter as the Go `(string, error)` pair it is. -/
def ofAdapter (r : AdapterResult) : SqlResult := (r.1, r.2.map GoError.foreign)

/-- The interface `Adapter`: the operations `dataset.go` calls, each a function of its
arguments. -/
structure Adapter where
  SelectSql : Option ColumnList → AdapterResult
  SelectDistinctSql : Option ColumnList → AdapterResult
  FromSql : Option ColumnList → AdapterResult
  JoinSql : joiningClauses → AdapterResult
  WhereSql : Option ExpressionList → AdapterResult
  GroupBySql : Option ColumnList → AdapterResult
  HavingSql : Option ExpressionList → AdapterResult
  CompoundsSql : List Expression → AdapterResult
  OrderSql : Option ColumnList → AdapterResult
  LimitSql : GoValue → AdapterResult
  OffsetSql : Nat → AdapterResult
  ReturningSql : Option ColumnList → AdapterResult
  DeleteBeginSql : AdapterResult
  InsertBeginSql : AdapterResult
  SourcesSql : Option ColumnList → AdapterResult
  DefaultValuesSql : AdapterResult
  InsertColumnsSql : Option ColumnList → AdapterResult
  InsertValuesSql : List (List GoValue) → AdapterResult
  UpdateBeginSql : AdapterResult
  UpdateExpressionsSql : List Expression → AdapterResult
  TruncateSql : Option ColumnList → TruncateOptions → AdapterResult
  LiteralNil : AdapterResult
  LiteralString : String → AdapterResult
  LiteralInt : Int → AdapterResult
  LiteralFloat : GoFloat → AdapterResult
  LiteralBool : Bool → AdapterResult
  LiteralTime : GoTime → AdapterResult
  SliceValueSql : GoValue → AdapterResult
  BuilderSql : Dataset → AdapterResult
  ColumnListSql : ColumnList → AdapterResult
  ExpressionListSql : ExpressionList → AdapterResult
  LiteralExpressionSql : Expression → AdapterResult
  QuoteIdentifier : Expression → AdapterResult
  AliasedExpressionSql : Expression → AdapterResult
  BooleanExpressionSql : Expression → AdapterResult
  OrderedExpressionSql : Expression → AdapterResult
  UpdateExpressionSql : Expression → AdapterResult
  SqlFunctionExpressionSql : Expression → AdapterResult
  CastExpressionSql : Expression → AdapterResult
  CompoundExpressionSql : Expression → AdapterResult

/-- The adapters in existence, by handle. -/
abbrev Env := Nat → Adapter

/-! ## Reflection -/

/-- The value with its method set forgotten: what `reflect` sees of a value whose type
implements `driver.Valuer`. -/
def underlying : GoValue → GoValue
  | .valuer self _ _ => underlying self
  | v => v

/-- The call `reflect.Indirect(reflect.ValueOf(val))`: the zero Value for a nil interface and
for a nil pointer, the pointee for a pointer (one level), the value itself otherwise. -/
def Indirect (val : GoValue) : Option GoValue :=
  match underlying val with
  | .nil => none
  | .nilPtr _ => none
  | .ptr elem => some (underlying elem)
  | v => some v

/-- The dynamic type of a value. -/
def typeOf : GoValue → GoType
  | .nil => .iface
  | .int k _ => .int k
  | .uint k _ => .uint k
  | .float k _ => .float k
  | .string _ => .string
  | .bool _ => .bool
  | .bytes _ => .bytes
  | .slice typ _ => .slice typ
  | .time _ => .time
  | .expr (.dataset _) => .expr "gql.Dataset"
  | .expr (.columnList _) => .expr "gql.ColumnList"
  | .expr (.expressionList _) => .expr "gql.ExpressionList"
  | .expr (.literal _ _) => .expr "gql.LiteralExpression"
  | .expr (.identifier _) => .expr "gql.IdentifierExpression"
  | .expr (.aliased _ _) => .expr "gql.AliasedExpression"
  | .expr (.boolean _ _ _) => .expr "gql.BooleanExpression"
  | .expr (.ordered _ _) => .expr "gql.OrderedExpression"
  | .expr (.update _ _) => .expr "gql.UpdateExpression"
  | .expr (.sqlFunction _ _) => .expr "gql.SqlFunctionExpression"
  | .expr (.cast _ _) => .expr "gql.CastExpression"
  | .expr (.compound _ _) => .expr "gql.CompoundExpression"
  | .expr (.unknown typ) => .expr typ
  | .struct typ fields => .struct typ (fields.map Prod.fst)
  | .map typ _ => .map typ
  | .ptr elem => .ptr (typeOf elem)
  | .nilPtr elem => .ptr elem
  | .valuer self _ _ => typeOf self
  | .other typ => .other typ

/-- The method `reflect.Value.Type()`: it panics on the zero Value. -/
def reflectType : Option GoValue → Panics GoType
  | none => .error .zeroValue
  | some v => .ok (typeOf v)

/-- The type switch `val.(driver.Valuer)`: the result `(dVal, err)` of `Value()` when the
dynamic type of `val` has that method. The method set of a pointer to a non-pointer type
includes the methods of that type. -/
def asValuer : GoValue → Option (GoValue × Option String)
  | .valuer _ dVal err => some (dVal, err)
  | .ptr (.valuer (.ptr _) _ _) => none
  | .ptr (.valuer (.nilPtr _) _ _) => none
  | .ptr (.valuer _ dVal err) => some (dVal, err)
  | _ => none

/-- The conversion `int64(u)` of a `uint64`: the value with the same 64 bits. -/
def toInt64 (u : Nat) : Int :=
  if u % 2 ^ 64 < 2 ^ 63 then ((u % 2 ^ 64 : Nat) : Int) else ((u % 2 ^ 64 : Nat) : Int) - 2 ^ 64

/-! ## Expression dispatch and the literal encoder -/

/-- The method `Dataset.expressionSql`. -/
def Dataset.expressionSql (env : Env) (me : Dataset) (expression : Expression) : SqlResult :=
  match expression with
  | .dataset d => ofAdapter ((env me.adapter).BuilderSql d)
  | .columnList c => ofAdapter ((env me.adapter).ColumnListSql c)
  | .expressionList l => ofAdapter ((env me.adapter).ExpressionListSql l)
  | .literal _ _ => ofAdapter ((env me.adapter).LiteralExpressionSql expression)
  | .identifier _ => ofAdapter ((env me.adapter).QuoteIdentifier expression)
  | .aliased _ _ => ofAdapter ((env me.adapter).AliasedExpressionSql expression)
  | .boolean _ _ _ => ofAdapter ((env me.adapter).BooleanExpressionSql expression)
  | .ordered _ _ => ofAdapter ((env me.adapter).OrderedExpressionSql expression)
  | .update _ _ => ofAdapter ((env me.adapter).UpdateExpressionSql expression)
  | .sqlFunction _ _ => ofAdapter ((env me.adapter).SqlFunctionExpressionSql expression)
  | .cast _ _ => ofAdapter ((env me.adapter).CastExpressionSql expression)
  | .compound _ _ => ofAdapter ((env me.adapter).CompoundExpressionSql expression)
  | .unknown _ =>
    ("", some (newGqlError (.lit "Unsupported expression type %T") [.value (.expr expression)]))

/-- The part of `Dataset.Literal` after the `driver.Valuer` switch: `v` is
`reflect.Indirect(reflect.ValueOf(val))` and the match is the switch on `v.Kind()`. -/
def Dataset.literalKind (env : Env) (me : Dataset) (val : GoValue) (v : Option GoValue) :
    SqlResult :=
  match v with
  | none => ofAdapter ((env me.adapter).LiteralNil)
  | some (.bytes b) =>
    match val with
    | .bytes b0 => ofAdapter ((env me.adapter).LiteralString b0)
    | _ => ofAdapter ((env me.adapter).SliceValueSql (.bytes b))
  | some (.slice typ elems) => ofAdapter ((env me.adapter).SliceValueSql (.slice typ elems))
  | some (.time t) => ofAdapter ((env me.adapter).LiteralTime t)
  | some (.expr e) => me.expressionSql env e
  | some (.struct typ fields) =>
    ("", some (newGqlError (.sprintf "Unable to encode value %+v" [.value (.struct typ fields)]) []))
  | some (.int _ n) => ofAdapter ((env me.adapter).LiteralInt n)
  | some (.uint .uint64 u) =>
    if u ≥ 2 ^ 63 then
      ("", some (newGqlError (.lit "uint64 values with high bit set are not supported") []))
    else ofAdapter ((env me.adapter).LiteralInt (toInt64 u))
  | some (.uint _ u) => ofAdapter ((env me.adapter).LiteralInt (toInt64 u))
  | some (.float _ f) => ofAdapter ((env me.adapter).LiteralFloat f)
  | some (.string s) => ofAdapter ((env me.adapter).LiteralString s)
  | some (.bool b) => ofAdapter ((env me.adapter).LiteralBool b)
  | some _ => ("", some (newEncodeError (.sprintf "Unable to encode value %+v" [.value val])))

/-- The method `Dataset.Literal`. -/
def Dataset.Literal (env : Env) (me : Dataset) : GoValue → SqlResult
  | .valuer _ dVal err =>
    match err with
    | some text => ("", some (newGqlError (.errorOf (.foreign text)) []))
    | none => Dataset.Literal env me dVal
  | .ptr (.valuer self dVal err) =>
    match asValuer (.ptr (.valuer self dVal err)) with
    | some (_, some text) => ("", some (newGqlError (.errorOf (.foreign text)) []))
    | some (_, none) => Dataset.Literal env me dVal
    | none => me.literalKind env (.ptr (.valuer self dVal err)) (Indirect (.ptr (.valuer self dVal err)))
  | val => me.literalKind env val (Indirect val)

/-! ## Statement assembly -/

/-- The call `strings.Join(elems, sep)`. -/
def stringsJoin (elems : List String) (sep : String) : String := sep.intercalate elems

/-- The method `Dataset.hasSources`. -/
def Dataset.hasSources (me : Dataset) : Bool :=
  match me.clauses.From with
  | none => false
  | some columns => decide (columns.length > 0)

/-- The method `Dataset.Sql`. -/
def Dataset.Sql (env : Env) (me : Dataset) : SqlResult :=
  let adapter := env me.adapter
  match (if me.clauses.SelectDistinct.isSome then adapter.SelectDistinctSql me.clauses.SelectDistinct
         else adapter.SelectSql me.clauses.Select) with
  | (_, some err) => ("", some (.foreign err))
  | (sql0, none) =>
  match adapter.FromSql me.clauses.From with
  | (_, some err) => ("", some (.foreign err))
  | (sql1, none) =>
  match adapter.JoinSql me.clauses.Joins with
  | (_, some err) => ("", some (.foreign err))
  | (sql2, none) =>
  match adapter.WhereSql me.clauses.Where with
  | (_, some err) => ("", some (.foreign err))
  | (sql3, none) =>
  match adapter.GroupBySql me.clauses.GroupBy with
  | (_, some err) => ("", some (.foreign err))
  | (sql4, none) =>
  match adapter.HavingSql me.clauses.Having with
  | (_, some err) => ("", some (newGqlError (.errorOf (.foreign err)) []))
  | (sql5, none) =>
  match adapter.CompoundsSql me.clauses.Compounds with
  | (_, some err) => ("", some (newGqlError (.errorOf (.foreign err)) []))
  | (sql6, none) =>
  match adapter.OrderSql me.clauses.Order with
  | (_, some err) => ("", some (newGqlError (.errorOf (.foreign err)) []))
  | (sql7, none) =>
  match adapter.LimitSql me.clauses.Limit with
  | (_, some err) => ("", some (newGqlError (.errorOf (.foreign err)) []))
  | (sql8, none) =>
  match adapter.OffsetSql me.clauses.Offset with
  | (_, some err) => ("", some (newGqlError (.errorOf (.foreign err)) []))
  | (sql9, none) =>
    (stringsJoin [sql0, sql1, sql2, sql3, sql4, sql5, sql6, sql7, sql8, sql9] "", none)

/-- The method `Dataset.DeleteSql`. -/
def Dataset.DeleteSql (env : Env) (me : Dataset) : SqlResult :=
  let adapter := env me.adapter
  if !me.hasSources then
    ("", some (newGqlError (.lit "No source found when generating delete sql") []))
  else
  match adapter.DeleteBeginSql with
  | (_, some err) => ("", some (.foreign err))
  | (sql0, none) =>
  match adapter.FromSql me.clauses.From with
  | (_, some err) => ("", some (.foreign err))
  | (sql1, none) =>
  match adapter.WhereSql me.clauses.Where with
  | (_, some err) => ("", some (.foreign err))
  | (sql2, none) =>
  match adapter.ReturningSql me.clauses.Returning with
  | (_, some err) => ("", some (newGqlError (.errorOf (.foreign err)) []))
  | (sql3, none) => (stringsJoin [sql0, sql1, sql2, sql3] "", none)

/-- The method `Dataset.TruncateWithOptsSql`. -/
def Dataset.TruncateWithOptsSql (env : Env) (me : Dataset) (opts : TruncateOptions) : SqlResult :=
  if !me.hasSources then
    ("", some (newGqlError (.lit "No source found when generating truncate sql") []))
  else ofAdapter ((env me.adapter).TruncateSql me.clauses.From opts)

/-- The method `Dataset.TruncateSql`; `TruncateOptions{}` is the zero value of the struct. -/
def Dataset.TruncateSql (env : Env) (me : Dataset) : SqlResult :=
  me.TruncateWithOptsSql env { Cascade := false, Restrict := false, Identity := "" }

/-- The method `Dataset.insertSql`; `cols` is nil (`none`) or a column list. -/
def Dataset.insertSql (env : Env) (me : Dataset) (cols : Option ColumnList)
    (values : List (List GoValue)) : SqlResult :=
  let adapter := env me.adapter
  match adapter.InsertBeginSql with
  | (_, some err) => ("", some (.foreign err))
  | (sql0, none) =>
  match adapter.SourcesSql me.clauses.From with
  | (_, some err) => ("", some (newGqlError (.errorOf (.foreign err)) []))
  | (sql1, none) =>
  match cols with
  | none =>
    match adapter.DefaultValuesSql with
    | (_, some err) => ("", some (newGqlError (.errorOf (.foreign err)) []))
    | (sql2, none) =>
    match adapter.ReturningSql me.clauses.Returning with
    | (_, some err) => ("", some (.foreign err))
    | (sql3, none) => (stringsJoin [sql0, sql1, sql2, sql3] "", none)
  | some columns =>
    match adapter.InsertColumnsSql (some columns) with
    | (_, some err) => ("", some (newGqlError (.errorOf (.foreign err)) []))
    | (sql2, none) =>
    match adapter.InsertValuesSql values with
    | (_, some err) => ("", some (newGqlError (.errorOf (.foreign err)) []))
    | (sql3, none) =>
    match adapter.ReturningSql me.clauses.Returning with
    | (_, some err) => ("", some (.foreign err))
    | (sql4, none) => (stringsJoin [sql0, sql1, sql2, sql3, sql4] "", none)

/-- The method `Dataset.insertFromSql`. -/
def Dataset.insertFromSql (env : Env) (me : Dataset) (other : Dataset) : SqlResult :=
  let adapter := env me.adapter
  match adapter.InsertBeginSql with
  | (_, some err) => ("", some (.foreign err))
  | (sql0, none) =>
  match adapter.SourcesSql me.clauses.From with
  | (_, some err) => ("", some (newGqlError (.errorOf (.foreign err)) []))
  | (sql1, none) =>
  match other.Sql env with
  | (_, some err) => ("", some err)
  | (sql2, none) =>
  match adapter.ReturningSql me.clauses.Returning with
  | (_, some err) => ("", some (.foreign err))
  | (sql3, none) => (stringsJoin [sql0, sql1, " " ++ sql2, sql3] "", none)

/-- The method `Dataset.updateSql`. -/
def Dataset.updateSql (env : Env) (me : Dataset) (updates : List Expression) : SqlResult :=
  let adapter := env me.adapter
  match adapter.UpdateBeginSql with
  | (_, some err) => ("", some (.foreign err))
  | (sql0, none) =>
  match adapter.SourcesSql me.clauses.From with
  | (_, some err) => ("", some (.foreign err))
  | (sql1, none) =>
  match adapter.UpdateExpressionsSql updates with
  | (_, some err) => ("", some (.foreign err))
  | (sql2, none) =>
  match adapter.WhereSql me.clauses.Where with
  | (_, some err) => ("", some (.foreign err))
  | (sql3, none) =>
  match adapter.ReturningSql me.clauses.Returning with
  | (_, some err) => ("", some (.foreign err))
  | (sql4, none) => (stringsJoin [sql0, sql1, sql2, sql3, sql4] "", none)

/-! ## Sorting of map keys -/

/-- Go's `<` on strings: byte-wise, that is lexicographic on the text. -/
def goStringLess (a b : String) : Bool := decide (a.data < b.data)

/-- The type `valueSlice`: a slice of `reflect.Value`s. Its elements are the keys of a map with
string keys, each held as the string that `String()` returns for it. -/
abbrev valueSlice := List String

/-- The method `valueSlice.Less`, on the elements at the two indices. -/
def valueSlice.Less (a b : String) : Bool := goStringLess a b

/-- The calls `sort.Sort(data)` and `sort.Strings(data)` for a `Less` that is `goStringLess`:
the elements rearranged so that none is `Less` than an earlier one (a slice of distinct strings
has one such arrangement). -/
def sortSort (data : List String) : List String :=
  data.insertionSort (fun a b => valueSlice.Less b a = false)

/-- The loop of `valueSlice.Equal` over `me`, with `other` already sorted: `other[i]` panics
when `other` is shorter than `me`. -/
def valueSlice.equalLoop : List String → List String → Panics Bool
  | [], _ => .ok true
  | _ :: _, [] => .error .indexOutOfRange
  | key :: me, o :: other => if o != key then .ok false else valueSlice.equalLoop me other

/-- The method `valueSlice.Equal`. The call `sort.Sort(other)` sorts the slice of the caller in
place: after the call the caller holds `sortSort other`. -/
def valueSlice.Equal (me other : valueSlice) : Panics Bool :=
  valueSlice.equalLoop me (sortSort other)

/-- The method `valueSlice.String`: every key in double quotes, the quoted keys sorted, joined
with commas, in square brackets. -/
def valueSlice.String (me : valueSlice) : String :=
  "[" ++ stringsJoin (sortSort (me.map (fun key => "\"" ++ key ++ "\""))) "," ++ "]"

/-! ## Row decomposition -/

/-- Modelled from the spec: the helper `cols(vals...)`, whose source is not provided, makes the
column list of the given items, in their order; it is never nil. -/
def cols (vals : List GoValue) : ColumnList := vals

/-- Modelled from the spec: the helper `I(name)`, whose source is not provided, makes the
identifier expression named `name`. -/
def I (name : String) : Expression := .identifier name

/-- Modelled from the spec: the method `Set(val)` of an identifier, whose source is not
provided, makes the update expression that sets the identifier to `val`. -/
def Expression.Set (col : Expression) (val : GoValue) : Expression := .update col val

/-- The method `Dataset.canInsertField`. -/
def Dataset.canInsertField (_me : Dataset) (field : StructField) : Bool :=
  !(field.gql.contains "skipinsert") && field.db != "" && field.db != "-"

/-- The method `Dataset.canUpdateField`. -/
def Dataset.canUpdateField (_me : Dataset) (field : StructField) : Bool :=
  !(field.gql.contains "skipupdate") && field.db != "" && field.db != "-"

/-- The call `MapKeys()` on a map. -/
def MapKeys (entries : List (String × GoValue)) : valueSlice := entries.map Prod.fst

/-- The call `MapIndex(key).Interface()` on a map: `MapIndex` gives the zero Value for a key
that is not in the map, on which `Interface()` panics. -/
def MapIndexInterface (entries : List (String × GoValue)) (key : String) : Panics GoValue :=
  match entries.lookup key with
  | some v => .ok v
  | none => .error .zeroValue

/-- The call `f.Interface()` on the Value of a struct field: it panics for an unexported
field. -/
def fieldInterface (t : StructField) (f : GoValue) : Panics GoValue :=
  if t.exported then .ok f else .error .unexportedField

/-- The fields that `NumField`, `Field(j)` and `Type().Field(j)` enumerate for a Value of kind
Struct, with their values; `none` for any other kind. The structs of `time.Time` and of the
expressions of this package carry no `db` tag: no field of theirs is eligible, and they are
given as having no fields. -/
def structFields : GoValue → Option (List (StructField × GoValue))
  | .struct _ fields => some fields
  | .time _ => some []
  | .expr _ => some []
  | _ => none

/-- The loop over the fields of a struct row in `getInsertColsAndVals`: the `db` tags
(`rowCols`) and the values (`rowVals`) of the fields that `canInsertField` accepts. -/
def Dataset.insertFieldsLoop (me : Dataset) :
    List (StructField × GoValue) → Panics (List GoValue × List GoValue)
  | [] => .ok ([], [])
  | (t, f) :: rest =>
    if me.canInsertField t then
      match fieldInterface t f with
      | .error p => .error p
      | .ok fv =>
        match Dataset.insertFieldsLoop me rest with
        | .error p => .error p
        | .ok (rowCols, rowVals) => .ok (GoValue.string t.db :: rowCols, fv :: rowVals)
    else Dataset.insertFieldsLoop me rest

/-- The loop `for j, key := range mapKeys` that fills `rowVals` for a map row. -/
def mapRowVals (entries : List (String × GoValue)) : List String → Panics (List GoValue)
  | [] => .ok []
  | key :: keys =>
    match MapIndexInterface entries key with
    | .error p => .error p
    | .ok v =>
      match mapRowVals entries keys with
      | .error p => .error p
      | .ok vs => .ok (v :: vs)

/-- The result of `getInsertColsAndVals`: `(columns, vals, err)`. -/
abbrev InsertColsAndVals := Option ColumnList × List (List GoValue) × Option GoError

/-- The loop `for i, row := range rows` of `getInsertColsAndVals`, from the state
`(columns, mapKeys, vals)` reached before `row`. The code switches on the kind of the first
row; as `row` has passed the type comparison, that is the kind of `row` itself. -/
def Dataset.insertRowsLoop (me : Dataset) (rowType : GoType) :
    List GoValue → Option ColumnList → valueSlice → List (List GoValue) →
    Panics InsertColsAndVals
  | [], columns, _, vals => .ok (columns, vals, none)
  | row :: rest, columns, mapKeys, vals =>
    match reflectType (Indirect row) with
    | .error p => .error p
    | .ok t =>
    if rowType != t then
      .ok (none, [], some (newGqlError (.lit "Rows must be all the same type expected %+v got %+v")
        [.type rowType, .type t]))
    else
    match Indirect row with
    | some (.map _ entries) =>
      let mapKeys1 := if columns.isNone then sortSort (MapKeys entries) else mapKeys
      let columns1 := if columns.isNone then some (cols (mapKeys1.map GoValue.string)) else columns
      let newMapKeys := MapKeys entries
      if newMapKeys.length != mapKeys1.length then
        .ok (none, [], some (newGqlError (.lit "Rows with different value length expected %d got %d")
          [.num mapKeys1.length, .num newMapKeys.length]))
      else
      match valueSlice.Equal mapKeys1 newMapKeys with
      | .error p => .error p
      | .ok false =>
        .ok (none, [], some (newGqlError (.lit "Rows with different keys expected %s got %s")
          [.str (valueSlice.String mapKeys1), .str (valueSlice.String (sortSort newMapKeys))]))
      | .ok true =>
      match mapRowVals entries mapKeys1 with
      | .error p => .error p
      | .ok rowVals => Dataset.insertRowsLoop me rowType rest columns1 mapKeys1 (vals ++ [rowVals])
    | some v =>
      match structFields v with
      | some fields =>
        match me.insertFieldsLoop fields with
        | .error p => .error p
        | .ok (rowCols, rowVals) =>
          let columns1 := if columns.isNone then some (cols rowCols) else columns
          Dataset.insertRowsLoop me rowType rest columns1 mapKeys (vals ++ [rowVals])
      | none =>
        .ok (none, [], some (newGqlError (.lit "Unsupported insert must be map or struct type %+v")
          [.value row]))
    | none => .error .zeroValue

/-- The method `Dataset.getInsertColsAndVals`; `rows[0]` panics when there is no row. -/
def Dataset.getInsertColsAndVals (me : Dataset) (rows : List GoValue) : Panics InsertColsAndVals :=
  match rows with
  | [] => .error .indexOutOfRange
  | row0 :: _ =>
    match reflectType (Indirect row0) with
    | .error p => .error p
    | .ok rowType => me.insertRowsLoop rowType rows none [] []

/-- The method `Dataset.InsertSql`. -/
def Dataset.InsertSql (env : Env) (me : Dataset) (rows : List GoValue) : Panics SqlResult :=
  if !me.hasSources then
    .ok ("", some (newGqlError (.lit "No source found when generating insert sql") []))
  else
  match rows with
  | [] => .ok (me.insertSql env none [])
  | [.expr (.dataset other)] => .ok (me.insertFromSql env other)
  | _ =>
    match me.getInsertColsAndVals rows with
    | .error p => .error p
    | .ok (_, _, some err) => .ok ("", some err)
    | .ok (columns, vals, none) => .ok (me.insertSql env columns vals)

/-- The loop over the fields of a struct in `UpdateSql`. -/
def Dataset.updateFieldsLoop (me : Dataset) :
    List (StructField × GoValue) → Panics (List Expression)
  | [] => .ok []
  | (t, f) :: rest =>
    if me.canUpdateField t then
      match fieldInterface t f with
      | .error p => .error p
      | .ok fv =>
        match Dataset.updateFieldsLoop me rest with
        | .error p => .error p
        | .ok updates => .ok ((I t.db).Set fv :: updates)
    else Dataset.updateFieldsLoop me rest

/-- The loop over the sorted keys of a map in `UpdateSql`. -/
def updateKeysLoop (entries : List (String × GoValue)) : List String → Panics (List Expression)
  | [] => .ok []
  | key :: keys =>
    match MapIndexInterface entries key with
    | .error p => .error p
    | .ok v =>
      match updateKeysLoop entries keys with
      | .error p => .error p
      | .ok updates => .ok ((I key).Set v :: updates)

/-- The method `Dataset.UpdateSql`. -/
def Dataset.UpdateSql (env : Env) (me : Dataset) (update : GoValue) : Panics SqlResult :=
  if !me.hasSources then
    .ok ("", some (newGqlError (.lit "No source found when generating update sql") []))
  else
  match Indirect update with
  | some (.map _ entries) =>
    match updateKeysLoop entries (sortSort (MapKeys entries)) with
    | .error p => .error p
    | .ok updates => .ok (me.updateSql env updates)
  | updateValue =>
    match updateValue.bind structFields with
    | some fields =>
      match me.updateFieldsLoop fields with
      | .error p => .error p
      | .ok updates => .ok (me.updateSql env updates)
    | none =>
      match reflectType updateValue with
      | .error p => .error p
      | .ok t =>
        .ok ("", some (newGqlError (.lit "Unsupported update interface type %+v") [.type t]))


/-! ## Cloning -/

mutual
/-- Modelled from the spec: the method `Clone()` of an expression other than a Dataset, whose
source is not provided, makes an independent deep copy: it clones the expressions it holds and
puts the clones in their places. For a Dataset the method is `Dataset.Clone` of the source,
which returns `me.copy()`. -/
def Expression.Clone : Expression → Panics Expression
  | .dataset d =>
    match Dataset.copy d with
    | .error p => .error p
    | .ok ret => .ok (.dataset ret)
  | .columnList columns =>
    match cloneColumns columns with
    | .error p => .error p
    | .ok cs => .ok (.columnList cs)
  | .expressionList l =>
    match cloneExpressionList l with
    | .error p => .error p
    | .ok l1 => .ok (.expressionList l1)
  | .literal text args =>
    match cloneColumns args with
    | .error p => .error p
    | .ok as => .ok (.literal text as)
  | .identifier name => .ok (.identifier name)
  | .aliased e name =>
    match Expression.Clone e with
    | .error p => .error p
    | .ok e1 =>
      match Expression.Clone name with
      | .error p => .error p
      | .ok name1 => .ok (.aliased e1 name1)
  | .boolean op lhs rhs =>
    match Expression.Clone lhs with
    | .error p => .error p
    | .ok lhs1 =>
      match cloneValue rhs with
      | .error p => .error p
      | .ok rhs1 => .ok (.boolean op lhs1 rhs1)
  | .ordered e direction =>
    match Expression.Clone e with
    | .error p => .error p
    | .ok e1 => .ok (.ordered e1 direction)
  | .update col val =>
    match Expression.Clone col with
    | .error p => .error p
    | .ok col1 =>
      match cloneValue val with
      | .error p => .error p
      | .ok val1 => .ok (.update col1 val1)
  | .sqlFunction name args =>
    match cloneColumns args with
    | .error p => .error p
    | .ok as => .ok (.sqlFunction name as)
  | .cast e typ =>
    match Expression.Clone e with
    | .error p => .error p
    | .ok e1 => .ok (.cast e1 typ)
  | .compound t rhs =>
    match Dataset.copy rhs with
    | .error p => .error p
    | .ok rhs1 => .ok (.compound t rhs1)
  | .unknown typ => .ok (.unknown typ)
/-- Modelled from the spec: the clone of a value held by an expression, as the `Clone()`
methods whose source is not provided make it: the `Clone()` of an expression, the value itself
otherwise. -/
def cloneValue : GoValue → Panics GoValue
  | .expr e =>
    match Expression.Clone e with
    | .error p => .error p
    | .ok e1 => .ok (.expr e1)
  | .nil => .ok .nil
  | .int k n => .ok (.int k n)
  | .uint k n => .ok (.uint k n)
  | .float k f => .ok (.float k f)
  | .string s => .ok (.string s)
  | .bool b => .ok (.bool b)
  | .bytes b => .ok (.bytes b)
  | .slice typ elems => .ok (.slice typ elems)
  | .time t => .ok (.time t)
  | .struct typ fields => .ok (.struct typ fields)
  | .map typ entries => .ok (.map typ entries)
  | .ptr elem => .ok (.ptr elem)
  | .nilPtr elem => .ok (.nilPtr elem)
  | .valuer self dVal err => .ok (.valuer self dVal err)
  | .other typ => .ok (.other typ)
/-- Modelled from the spec: the method `Clone()` of a `ColumnList`, whose source is not
provided: the clones of the columns, in order. -/
def cloneColumns : List GoValue → Panics (List GoValue)
  | [] => .ok []
  | c :: rest =>
    match cloneValue c with
    | .error p => .error p
    | .ok c1 =>
      match cloneColumns rest with
      | .error p => .error p
      | .ok rest1 => .ok (c1 :: rest1)
/-- Modelled from the spec: the clones of the expressions that an expression holds, in
order, as the `Clone()` methods whose source is not provided make them. -/
def cloneExpressions : List Expression → Panics (List Expression)
  | [] => .ok []
  | e :: rest =>
    match Expression.Clone e with
    | .error p => .error p
    | .ok e1 =>
      match cloneExpressions rest with
      | .error p => .error p
      | .ok rest1 => .ok (e1 :: rest1)
/-- Modelled from the spec: the method `Clone()` of an `ExpressionList`, whose source is not
provided: the list of the clones under the same operator. -/
def cloneExpressionList : ExpressionListOf Expression → Panics (ExpressionListOf Expression)
  | ⟨operator, expressions⟩ =>
    match cloneExpressions expressions with
    | .error p => .error p
    | .ok es => .ok ⟨operator, es⟩
/-- The guarded clone `if x != nil { ret.x = me.x.Clone().(ColumnList) }` of a column list
field of `clauses`. -/
def cloneColumnsField : Option (List GoValue) → Panics (Option (List GoValue))
  | none => .ok none
  | some columns =>
    match cloneColumns columns with
    | .error p => .error p
    | .ok cs => .ok (some cs)
/-- The guarded clone `if x != nil { ret.x = me.x.Clone().(ExpressionList) }` of an expression
list field of `clauses`. -/
def cloneExpressionListField :
    Option (ExpressionListOf Expression) → Panics (Option (ExpressionListOf Expression))
  | none => .ok none
  | some l =>
    match cloneExpressionList l with
    | .error p => .error p
    | .ok l1 => .ok (some l1)
/-- The guarded clone `if me.Alias != nil { ret.Alias = me.Alias.Clone().(IdentifierExpression) }`. -/
def cloneAliasField : Option Expression → Panics (Option Expression)
  | none => .ok none
  | some e =>
    match Expression.Clone e with
    | .error p => .error p
    | .ok e1 => .ok (some e1)
/-- The call `x.Clone()` on an interface value that is not guarded: on nil it panics. -/
def cloneUnguarded : Option Expression → Panics (Option Expression)
  | none => .error .nilDereference
  | some e =>
    match Expression.Clone e with
    | .error p => .error p
    | .ok e1 => .ok (some e1)
/-- The method `joiningClause.Clone`: it calls `me.table.Clone()` and
`me.condition.Clone().(JoinExpression)` without a test for nil. -/
def joiningClause.Clone : joiningClauseOf Expression → Panics (joiningClauseOf Expression)
  | ⟨joinType, isConditioned, table, condition⟩ =>
    match cloneUnguarded table with
    | .error p => .error p
    | .ok table1 =>
      match cloneUnguarded condition with
      | .error p => .error p
      | .ok condition1 => .ok ⟨joinType, isConditioned, table1, condition1⟩
/-- The method `joiningClauses.Clone`. -/
def joiningClauses.Clone : List (joiningClauseOf Expression) → Panics (List (joiningClauseOf Expression))
  | [] => .ok []
  | jc :: rest =>
    match joiningClause.Clone jc with
    | .error p => .error p
    | .ok jc1 =>
      match joiningClauses.Clone rest with
      | .error p => .error p
      | .ok rest1 => .ok (jc1 :: rest1)
/-- The method `clauses.Clone`. -/
def clauses.Clone : clausesOf Expression GoValue → Panics (clausesOf Expression GoValue)
  | ⟨Select, SelectDistinct, From, Joins, Where, Alias, GroupBy, Having, Order, Limit, Offset,
      Returning, Compounds⟩ =>
    match joiningClauses.Clone Joins with
    | .error p => .error p
    | .ok Joins1 =>
    match cloneColumnsField Select with
    | .error p => .error p
    | .ok Select1 =>
    match cloneColumnsField SelectDistinct with
    | .error p => .error p
    | .ok SelectDistinct1 =>
    match cloneColumnsField From with
    | .error p => .error p
    | .ok From1 =>
    match cloneColumnsField Returning with
    | .error p => .error p
    | .ok Returning1 =>
    match cloneAliasField Alias with
    | .error p => .error p
    | .ok Alias1 =>
    match cloneExpressionListField Where with
    | .error p => .error p
    | .ok Where1 =>
    match cloneColumnsField GroupBy with
    | .error p => .error p
    | .ok GroupBy1 =>
    match cloneExpressionListField Having with
    | .error p => .error p
    | .ok Having1 =>
    match cloneColumnsField Order with
    | .error p => .error p
    | .ok Order1 =>
    match cloneExpressions Compounds with
    | .error p => .error p
    | .ok Compounds1 =>
      .ok ⟨Select1, SelectDistinct1, From1, Joins1, Where1, Alias1, GroupBy1, Having1, Order1,
        Limit, Offset, Returning1, Compounds1⟩
/-- The method `Dataset.copy`. -/
def Dataset.copy : Dataset → Panics Dataset
  | ⟨adapter, clauses, database⟩ =>
    match clauses.Clone clauses with
    | .error p => .error p
    | .ok clauses1 => .ok ⟨adapter, clauses1, database⟩
end

/-- The method `Dataset.Clone`. -/
def Dataset.Clone (me : Dataset) : Panics Expression :=
  match me.copy with
  | .error p => .error p
  | .ok ret => .ok (.dataset ret)

/-- The method `Dataset.getClauses`. -/
def Dataset.getClauses (me : Dataset) : Panics clauses := clauses.Clone me.clauses

/-! ## Constructors of expressions -/

/-- Modelled from the spec: the helper `Star()`, whose source is not provided, makes the star
projection `*`, a literal expression. -/
def Star : Expression := .literal "*" []

/-- Modelled from the spec: the helper `Literal(text)`, whose source is not provided, makes the
literal expression with that text. -/
def Literal (text : String) : Expression := .literal text []

/-- Modelled from the spec: the helper `And(expressions...)`, whose source is not provided,
makes the conjunction of the expressions. -/
def And (expressions : List Expression) : ExpressionList :=
  { operator := .and, expressions := expressions }

/-- Modelled from the spec: the method `Append` of an `ExpressionList`, whose source is not
provided, makes the list with the expressions added at its end. -/
def ExpressionListOf.Append (l : ExpressionList) (expressions : List Expression) :
    ExpressionList :=
  { operator := l.operator, expressions := l.expressions ++ expressions }

/-- Modelled from the spec: the method `Columns` of a `ColumnList`, whose source is not
provided, gives the columns. -/
def Columns (l : ColumnList) : List GoValue := l

/-- Modelled from the spec: the method `Append` of a `ColumnList`, whose source is not
provided, makes the column list with the columns added at its end. -/
def ColumnListAppend (l : ColumnList) (columns : List GoValue) : ColumnList := l ++ columns

/-- Modelled from the spec: the helper `orderList(order...)`, whose source is not provided,
makes the column list of the ordered expressions; like `cols` it is never nil. -/
def orderList (order : List Expression) : ColumnList := order.map GoValue.expr

/-- Modelled from the spec: the helpers `Union(rhs)`, `UnionAll(rhs)`, `Intersect(rhs)` and
`IntersectAll(rhs)`, whose source is not provided, make the compound expression of the set
operation over the Dataset `rhs`. -/
def Compound (t : CompoundType) (rhs : Dataset) : Expression := .compound t rhs

/-- Modelled from the spec: the handle of the adapter that `newAdapter("", ret)` makes for the
default dialect. -/
def defaultAdapter : Nat := 0

/-- The table `conditioned_join_types`; a join type that is not a key has the zero value
`false`. -/
def conditioned_join_types : JoinType → Bool
  | .inner_join => true
  | .full_outer_join => true
  | .right_outer_join => true
  | .left_outer_join => true
  | .full_join => true
  | .right_join => true
  | .left_join => true
  | _ => false

/-- The zero value of the struct `clauses`. -/
def zeroClauses : clauses where
  Select := none
  SelectDistinct := none
  From := none
  Joins := []
  Where := none
  Alias := none
  GroupBy := none
  Having := none
  Order := none
  Limit := .nil
  Offset := 0
  Returning := none
  Compounds := []

/-! ## The builder -/

/-- The constructor `From(table...)` of the package. -/
def From (table : List GoValue) : Dataset :=
  { adapter := defaultAdapter
    clauses := { zeroClauses with Select := some (cols [.expr Star]), From := some (cols table) }
    database := none }

/-- The method `Dataset.As`. -/
def Dataset.As (me : Dataset) (name : String) : Panics Dataset :=
  match me.copy with
  | .error p => .error p
  | .ok ret => .ok { ret with clauses := { ret.clauses with Alias := some (I name) } }

/-- The text `fmt.Sprintf("t%d", numSources)`. -/
def sourceAlias (numSources : Nat) : String := "t" ++ Nat.repr numSources

/-- The loop `for _, source := range from` of `Dataset.From`, from the count `numSources`
reached before: the sources to put in the from-clause. -/
def fromSourcesLoop : List GoValue → Nat → Panics (List GoValue)
  | [], _ => .ok []
  | .expr (.dataset d) :: rest, numSources =>
    if d.clauses.Alias.isNone then
      match Dataset.As d (sourceAlias (numSources + 1)) with
      | .error p => .error p
      | .ok aliased =>
        match fromSourcesLoop rest (numSources + 1) with
        | .error p => .error p
        | .ok sources => .ok (.expr (.dataset aliased) :: sources)
    else
      match fromSourcesLoop rest numSources with
      | .error p => .error p
      | .ok sources => .ok (.expr (.dataset d) :: sources)
  | source :: rest, numSources =>
    match fromSourcesLoop rest numSources with
    | .error p => .error p
    | .ok sources => .ok (source :: sources)

/-- The method `Dataset.From`. -/
def Dataset.From (me : Dataset) (sources : List GoValue) : Panics Dataset :=
  match me.copy with
  | .error p => .error p
  | .ok ret =>
    match fromSourcesLoop sources 0 with
    | .error p => .error p
    | .ok sources1 => .ok { ret with clauses := { ret.clauses with From := some (cols sources1) } }

/-- The method `Dataset.FromSelf`. -/
def Dataset.FromSelf (me : Dataset) : Panics Dataset :=
  Dataset.From
    { adapter := me.adapter
      clauses := { zeroClauses with Select := some (cols [.expr Star]) }
      database := me.database }
    [.expr (.dataset me)]

/-- The method `Dataset.Returning`. -/
def Dataset.Returning (me : Dataset) (returning : List GoValue) : Panics Dataset :=
  match me.copy with
  | .error p => .error p
  | .ok ret => .ok { ret with clauses := { ret.clauses with Returning := some (cols returning) } }

/-- The method `Dataset.JoinTable`; `table` and `condition` are interface values and may be
nil. -/
def Dataset.JoinTable (me : Dataset) (joinType : JoinType) (table : Option Expression)
    (condition : Option Expression) : Panics Dataset :=
  match me.copy with
  | .error p => .error p
  | .ok ret =>
    .ok { ret with clauses := { ret.clauses with
      Joins := ret.clauses.Joins ++
        [{ joinType := joinType, isConditioned := conditioned_join_types joinType,
           table := table, condition := condition }] } }

/-- The method `Dataset.InnerJoin`. -/
def Dataset.InnerJoin (me : Dataset) (table condition : Option Expression) : Panics Dataset :=
  me.JoinTable .inner_join table condition

/-- The method `Dataset.Join`. -/
def Dataset.Join (me : Dataset) (table condition : Option Expression) : Panics Dataset :=
  me.InnerJoin table condition

/-- The method `Dataset.FullOuterJoin`. -/
def Dataset.FullOuterJoin (me : Dataset) (table condition : Option Expression) : Panics Dataset :=
  me.JoinTable .full_outer_join table condition

/-- The method `Dataset.RightOuterJoin`. -/
def Dataset.RightOuterJoin (me : Dataset) (table condition : Option Expression) : Panics Dataset :=
  me.JoinTable .right_outer_join table condition

/-- The method `Dataset.LeftOuterJoin`. -/
def Dataset.LeftOuterJoin (me : Dataset) (table condition : Option Expression) : Panics Dataset :=
  me.JoinTable .left_outer_join table condition

/-- The method `Dataset.FullJoin`. -/
def Dataset.FullJoin (me : Dataset) (table condition : Option Expression) : Panics Dataset :=
  me.JoinTable .full_join table condition

/-- The method `Dataset.RightJoin`. -/
def Dataset.RightJoin (me : Dataset) (table condition : Option Expression) : Panics Dataset :=
  me.JoinTable .right_join table condition

/-- The method `Dataset.LeftJoin`. -/
def Dataset.LeftJoin (me : Dataset) (table condition : Option Expression) : Panics Dataset :=
  me.JoinTable .left_join table condition

/-- The method `Dataset.NaturalJoin`. -/
def Dataset.NaturalJoin (me : Dataset) (table : Option Expression) : Panics Dataset :=
  me.JoinTable .natural_join table none

/-- The method `Dataset.NaturalLeftJoin`. -/
def Dataset.NaturalLeftJoin (me : Dataset) (table : Option Expression) : Panics Dataset :=
  me.JoinTable .natural_left_join table none

/-- The method `Dataset.NaturalRightJoin`. -/
def Dataset.NaturalRightJoin (me : Dataset) (table : Option Expression) : Panics Dataset :=
  me.JoinTable .natural_right_join table none

/-- The method `Dataset.NaturalFullJoin`. -/
def Dataset.NaturalFullJoin (me : Dataset) (table : Option Expression) : Panics Dataset :=
  me.JoinTable .natural_full_join table none

/-- The method `Dataset.CrossJoin`. -/
def Dataset.CrossJoin (me : Dataset) (table : Option Expression) : Panics Dataset :=
  me.JoinTable .cross_join table none

/-- The method `Dataset.Select`. -/
def Dataset.Select (me : Dataset) (selects : List GoValue) : Panics Dataset :=
  match me.copy with
  | .error p => .error p
  | .ok ret =>
    .ok { ret with clauses := { ret.clauses with
      SelectDistinct := none, Select := some (cols selects) } }

/-- The method `Dataset.SelectDistinct`. -/
def Dataset.SelectDistinct (me : Dataset) (selects : List GoValue) : Panics Dataset :=
  match me.copy with
  | .error p => .error p
  | .ok ret =>
    .ok { ret with clauses := { ret.clauses with
      Select := none, SelectDistinct := some (cols selects) } }

/-- The method `Dataset.ClearSelect`. -/
def Dataset.ClearSelect (me : Dataset) : Panics Dataset :=
  match me.copy with
  | .error p => .error p
  | .ok ret =>
    .ok { ret with clauses := { ret.clauses with
      Select := some (cols [.expr (gql.Literal "*")]), SelectDistinct := none } }

/-- The method `Dataset.SelectAppend`; with neither list set, `Append` is called on the nil
`Select`. -/
def Dataset.SelectAppend (me : Dataset) (selects : List GoValue) : Panics Dataset :=
  match me.copy with
  | .error p => .error p
  | .ok ret =>
    match ret.clauses.SelectDistinct with
    | some distinct =>
      .ok { ret with clauses := { ret.clauses with
        SelectDistinct := some (ColumnListAppend distinct (Columns (cols selects))) } }
    | none =>
      match ret.clauses.Select with
      | some select =>
        .ok { ret with clauses := { ret.clauses with
          Select := some (ColumnListAppend select (Columns (cols selects))) } }
      | none => .error .nilDereference

/-- The method `Dataset.Where`. -/
def Dataset.Where (me : Dataset) (expressions : List Expression) : Panics Dataset :=
  if expressions.length > 0 then
    match me.copy with
    | .error p => .error p
    | .ok ret =>
      match ret.clauses.Where with
      | none => .ok { ret with clauses := { ret.clauses with Where := some (And expressions) } }
      | some w =>
        .ok { ret with clauses := { ret.clauses with Where := some (w.Append expressions) } }
  else .ok me

/-- The method `Dataset.ClearWhere`. -/
def Dataset.ClearWhere (me : Dataset) : Panics Dataset :=
  match me.copy with
  | .error p => .error p
  | .ok ret => .ok { ret with clauses := { ret.clauses with Where := none } }

/-- The method `Dataset.GroupBy`. -/
def Dataset.GroupBy (me : Dataset) (groupBy : List GoValue) : Panics Dataset :=
  match me.copy with
  | .error p => .error p
  | .ok ret => .ok { ret with clauses := { ret.clauses with GroupBy := some (cols groupBy) } }

/-- The method `Dataset.Having`. -/
def Dataset.Having (me : Dataset) (expressions : List Expression) : Panics Dataset :=
  if expressions.length > 0 then
    match me.copy with
    | .error p => .error p
    | .ok ret =>
      match ret.clauses.Having with
      | none => .ok { ret with clauses := { ret.clauses with Having := some (And expressions) } }
      | some h =>
        .ok { ret with clauses := { ret.clauses with Having := some (h.Append expressions) } }
  else .ok me

/-- The method `Dataset.Order`. -/
def Dataset.Order (me : Dataset) (order : List Expression) : Panics Dataset :=
  match me.copy with
  | .error p => .error p
  | .ok ret => .ok { ret with clauses := { ret.clauses with Order := some (orderList order) } }

/-- The method `Dataset.OrderAppend`; its last statement `return me` is not reached. -/
def Dataset.OrderAppend (me : Dataset) (order : List Expression) : Panics Dataset :=
  match me.clauses.Order with
  | none => me.Order order
  | some _ =>
    match me.copy with
    | .error p => .error p
    | .ok ret =>
      match ret.clauses.Order with
      | some o =>
        .ok { ret with clauses := { ret.clauses with
          Order := some (ColumnListAppend o (Columns (orderList order))) } }
      | none => .error .nilDereference

/-- The method `Dataset.ClearOrder`. -/
def Dataset.ClearOrder (me : Dataset) : Panics Dataset :=
  match me.copy with
  | .error p => .error p
  | .ok ret => .ok { ret with clauses := { ret.clauses with Order := none } }

/-- The method `Dataset.Limit`; the limit is a `uint`. -/
def Dataset.Limit (me : Dataset) (limit : Nat) : Panics Dataset :=
  match me.copy with
  | .error p => .error p
  | .ok ret =>
    if limit > 0 then .ok { ret with clauses := { ret.clauses with Limit := .uint .uint limit } }
    else .ok { ret with clauses := { ret.clauses with Limit := .nil } }

/-- The method `Dataset.LimitAll`. -/
def Dataset.LimitAll (me : Dataset) : Panics Dataset :=
  match me.copy with
  | .error p => .error p
  | .ok ret => .ok { ret with clauses := { ret.clauses with Limit := .expr (gql.Literal "ALL") } }

/-- The method `Dataset.ClearLimit`. -/
def Dataset.ClearLimit (me : Dataset) : Panics Dataset := me.Limit 0

/-- The method `Dataset.Offset`. -/
def Dataset.Offset (me : Dataset) (offset : Nat) : Panics Dataset :=
  match me.copy with
  | .error p => .error p
  | .ok ret => .ok { ret with clauses := { ret.clauses with Offset := offset } }

/-- The method `Dataset.ClearOffset`. -/
def Dataset.ClearOffset (me : Dataset) : Panics Dataset := me.Offset 0

/-- Whether an `interface{}` value is nil. -/
def GoValue.isNil : GoValue → Bool
  | .nil => true
  | _ => false

/-- The method `Dataset.CompoundFromSelf`. -/
def Dataset.CompoundFromSelf (me : Dataset) : Panics Dataset :=
  if me.clauses.Order.isSome || !me.clauses.Limit.isNil then me.FromSelf else .ok me

/-- The methods `Dataset.Union`, `UnionAll`, `Intersect` and `IntersectAll`, which differ in
the set operation `t` only: the Dataset returned, with the compounds it holds on return. -/
def Dataset.compoundWith (me : Dataset) (t : CompoundType) (other : Dataset) : Panics Dataset :=
  match me.CompoundFromSelf with
  | .error p => .error p
  | .ok ret =>
    match other.CompoundFromSelf with
    | .error p => .error p
    | .ok rhs =>
      .ok { ret with clauses := { ret.clauses with
        Compounds := ret.clauses.Compounds ++ [Compound t rhs] } }

/-- The method `Dataset.Union`. -/
def Dataset.Union (me other : Dataset) : Panics Dataset := me.compoundWith .union other

/-- The method `Dataset.UnionAll`. -/
def Dataset.UnionAll (me other : Dataset) : Panics Dataset := me.compoundWith .unionAll other

/-- The method `Dataset.Intersect`. -/
def Dataset.Intersect (me other : Dataset) : Panics Dataset := me.compoundWith .intersect other

/-- The method `Dataset.IntersectAll`. -/
def Dataset.IntersectAll (me other : Dataset) : Panics Dataset :=
  me.compoundWith .intersectAll other

/-! ## The compounds of a Dataset in memory

The methods above give the Dataset a call returns, with the clauses it holds on return. The
field `clauses.Compounds` is a slice, and two Dataset values can hold slices over one backing
array; the definitions below follow the slice headers and the backing arrays through
`Dataset.Union` and its three sibling methods. -/

/-- The header of a slice `[]CompoundExpression`: its backing array, named by the index of the
array in the heap, its length and its capacity. -/
structure compoundsSlice where
  array : Nat
  len : Nat
  cap : Nat

/-- The nil slice. -/
def nilSlice : compoundsSlice := { array := 0, len := 0, cap := 0 }

/-- The backing arrays allocated so far, in the order of their allocation; a cell that no
`append` has written holds the nil interface (`none`). -/
abbrev Heap := List (List (Option Expression))

/-- The elements of a slice: the first `len` cells of its backing array. -/
def Heap.elements (h : Heap) (s : compoundsSlice) : List Expression :=
  ((h.getD s.array []).take s.len).reduceOption

/-- The capacity `append` gives the new backing array of a slice of capacity `cap` that is to
hold `needed` elements: `needed` when that is more than twice `cap`, twice `cap` otherwise (the
rule for capacities under 256; for the 16-byte elements of this slice and the capacities 1, 2
and 4 the allocator rounds nothing up). -/
def growCap (cap needed : Nat) : Nat := if needed > 2 * cap then needed else 2 * cap

/-- The builtin `append(s, x)`: with room left in the backing array, `x` is written into the
cell after the last element and the slice returned shares the array; without room, the
elements and `x` are put into a new array. -/
def goAppend (h : Heap) (s : compoundsSlice) (x : Expression) : compoundsSlice × Heap :=
  if s.len < s.cap then
    ({ array := s.array, len := s.len + 1, cap := s.cap },
      h.set s.array ((h.getD s.array []).set s.len (some x)))
  else
    ({ array := h.length, len := s.len + 1, cap := growCap s.cap (s.len + 1) },
      h ++ [(h.elements s).map some ++ [some x]
        ++ List.replicate (growCap s.cap (s.len + 1) - (s.len + 1)) none])

/-- A Dataset value as it lies in memory: its fields, with the slice header that is its field
`clauses.Compounds` (the list `fields.clauses.Compounds` is not used). -/
structure StoredDataset where
  fields : Dataset
  compounds : compoundsSlice

/-- The Dataset that a stored Dataset holds, its compounds read from the heap. -/
def StoredDataset.read (h : Heap) (d : StoredDataset) : Dataset :=
  { d.fields with clauses := { d.fields.clauses with Compounds := h.elements d.compounds } }

/-- A Dataset that a method other than the four below returns: its compounds are a slice of
its own (`clauses.Clone` makes a new array of as many cells as there are compounds, and none
for no compounds). -/
def StoredDataset.store (h : Heap) (d : Dataset) : StoredDataset × Heap :=
  match d.clauses.Compounds with
  | [] => ({ fields := d, compounds := nilSlice }, h)
  | compounds =>
    ({ fields := d
       compounds := { array := h.length, len := compounds.length, cap := compounds.length } },
      h ++ [compounds.map some])

/-- The method `Dataset.CompoundFromSelf` in memory: the Dataset `FromSelf` returns has no
compounds; a Dataset returned as it is keeps its slice header. -/
def StoredDataset.CompoundFromSelf (h : Heap) (me : StoredDataset) : Panics StoredDataset :=
  if me.fields.clauses.Order.isSome || !me.fields.clauses.Limit.isNil then
    match (me.read h).FromSelf with
    | .error p => .error p
    | .ok ret => .ok { fields := ret, compounds := nilSlice }
  else .ok me

/-- The methods `Dataset.Union`, `UnionAll`, `Intersect` and `IntersectAll` in memory, for the
set operation `t`; `other` is the Dataset passed, with the compounds it holds at the call. -/
def StoredDataset.compoundWith (h : Heap) (me : StoredDataset) (t : CompoundType)
    (other : Dataset) : Panics (StoredDataset × Heap) :=
  match me.CompoundFromSelf h with
  | .error p => .error p
  | .ok ret =>
    match other.CompoundFromSelf with
    | .error p => .error p
    | .ok rhs =>
      .ok ({ fields := ret.fields, compounds := (goAppend h ret.compounds (Compound t rhs)).1 },
        (goAppend h ret.compounds (Compound t rhs)).2)

/-- The method `Dataset.Union` in memory. -/
def StoredDataset.Union (h : Heap) (me : StoredDataset) (other : Dataset) :
    Panics (StoredDataset × Heap) :=
  me.compoundWith h .union other

/-- The Dataset `From(t).Union(From("x1")).Union(From("x2")).Union(From("x3"))` in memory,
from an empty heap. -/
def threeUnions (t : String) : Panics (StoredDataset × Heap) :=
  match StoredDataset.Union [] { fields := From [.string t], compounds := nilSlice }
      (From [.string "x1"]) with
  | .error p => .error p
  | .ok (d1, h1) =>
    match d1.Union h1 (From [.string "x2"]) with
    | .error p => .error p
    | .ok (d2, h2) => d2.Union h2 (From [.string "x3"])

/-! ## Sample collaborators -/

/-- Decimal text of an integer. -/
def intText (n : Int) : String :=
  if n < 0 then "-" ++ Nat.repr n.natAbs else Nat.repr n.toNat

/-- A sample adapter: every operation succeeds. -/
def sampleAdapter : Adapter where
  SelectSql := fun _ => ("SELECT *", none)
  SelectDistinctSql := fun _ => ("SELECT DISTINCT *", none)
  FromSql := fun _ => (" FROM t", none)
  JoinSql := fun _ => (" JOIN u", none)
  WhereSql := fun _ => (" WHERE a", none)
  GroupBySql := fun _ => (" GROUP BY b", none)
  HavingSql := fun _ => (" HAVING c", none)
  CompoundsSql := fun _ => (" UNION v", none)
  OrderSql := fun _ => (" ORDER BY d", none)
  LimitSql := fun _ => (" LIMIT 1", none)
  OffsetSql := fun _ => (" OFFSET 2", none)
  ReturningSql := fun _ => (" RETURNING e", none)
  DeleteBeginSql := ("DELETE", none)
  InsertBeginSql := ("INSERT INTO", none)
  SourcesSql := fun _ => (" t", none)
  DefaultValuesSql := (" DEFAULT VALUES", none)
  InsertColumnsSql := fun _ => (" (a, b)", none)
  InsertValuesSql := fun _ => (" VALUES (1, 2)", none)
  UpdateBeginSql := ("UPDATE", none)
  UpdateExpressionsSql := fun _ => (" SET a=1", none)
  TruncateSql := fun _ _ => ("TRUNCATE t", none)
  LiteralNil := ("NULL", none)
  LiteralString := fun s => ("'" ++ s ++ "'", none)
  LiteralInt := fun n => (intText n, none)
  LiteralFloat := fun _ => ("1.5", none)
  LiteralBool := fun b => (if b then "TRUE" else "FALSE", none)
  LiteralTime := fun _ => ("'2015-01-01'", none)
  SliceValueSql := fun _ => ("(1, 2)", none)
  BuilderSql := fun _ => ("(SELECT * FROM t)", none)
  ColumnListSql := fun _ => ("a, b", none)
  ExpressionListSql := fun _ => ("(a AND b)", none)
  LiteralExpressionSql := fun _ => ("*", none)
  QuoteIdentifier := fun _ => ("a", none)
  AliasedExpressionSql := fun _ => ("a AS b", none)
  BooleanExpressionSql := fun _ => ("a > 1", none)
  OrderedExpressionSql := fun _ => ("a ASC", none)
  UpdateExpressionSql := fun _ => ("a=1", none)
  SqlFunctionExpressionSql := fun _ => ("COUNT(*)", none)
  CastExpressionSql := fun _ => ("CAST(a AS int)", none)
  CompoundExpressionSql := fun _ => ("UNION (SELECT * FROM v)", none)

/-- A sample environment: every handle stands for `sampleAdapter`. -/
def sampleEnv : Env := fun _ => sampleAdapter

/-- The clauses of a sample Dataset: `SELECT *` over the one source `t`. -/
def sampleClauses : clauses where
  Select := some [.expr (.literal "*" [])]
  SelectDistinct := none
  From := some [.string "t"]
  Joins := []
  Where := none
  Alias := none
  GroupBy := none
  Having := none
  Order := none
  Limit := .nil
  Offset := 0
  Returning := none
  Compounds := []

/-- A sample Dataset with one source. -/
def sampleDataset : Dataset := { adapter := 0, clauses := sampleClauses, database := none }

/-- A sample Dataset without a source. -/
def noSourceDataset : Dataset :=
  { adapter := 0, clauses := { sampleClauses with From := none }, database := none }

/-! ## Notions used in the statements -/

/-- The projection fragment of `Sql()`: `SelectDistinctSql` of the select-distinct columns when
they are set, `SelectSql` of the select columns otherwise. -/
def Dataset.projectionSql (env : Env) (me : Dataset) : AdapterResult :=
  if me.clauses.SelectDistinct.isSome then (env me.adapter).SelectDistinctSql me.clauses.SelectDistinct
  else (env me.adapter).SelectSql me.clauses.Select

/-- The fragments `Sql()` renders, in assembly order. Each comes with a mark: `true` where the
code hands a failure on as `newGqlError(err.Error())`, `false` where it hands on `err`. -/
def Dataset.sqlFragments (env : Env) (me : Dataset) : List (SqlResult × Bool) :=
  [(ofAdapter (me.projectionSql env), false),
   (ofAdapter ((env me.adapter).FromSql me.clauses.From), false),
   (ofAdapter ((env me.adapter).JoinSql me.clauses.Joins), false),
   (ofAdapter ((env me.adapter).WhereSql me.clauses.Where), false),
   (ofAdapter ((env me.adapter).GroupBySql me.clauses.GroupBy), false),
   (ofAdapter ((env me.adapter).HavingSql me.clauses.Having), true),
   (ofAdapter ((env me.adapter).CompoundsSql me.clauses.Compounds), true),
   (ofAdapter ((env me.adapter).OrderSql me.clauses.Order), true),
   (ofAdapter ((env me.adapter).LimitSql me.clauses.Limit), true),
   (ofAdapter ((env me.adapter).OffsetSql me.clauses.Offset), true)]

/-- The fragments `DeleteSql()` renders, in assembly order, marked as in `sqlFragments`. -/
def Dataset.deleteFragments (env : Env) (me : Dataset) : List (SqlResult × Bool) :=
  [(ofAdapter (env me.adapter).DeleteBeginSql, false),
   (ofAdapter ((env me.adapter).FromSql me.clauses.From), false),
   (ofAdapter ((env me.adapter).WhereSql me.clauses.Where), false),
   (ofAdapter ((env me.adapter).ReturningSql me.clauses.Returning), true)]

/-- The fragments `insertSql(cols, values)` renders, in assembly order, marked as in
`sqlFragments`. -/
def Dataset.insertFragments (env : Env) (me : Dataset) (cols : Option ColumnList)
    (values : List (List GoValue)) : List (SqlResult × Bool) :=
  match cols with
  | none =>
    [(ofAdapter (env me.adapter).InsertBeginSql, false),
     (ofAdapter ((env me.adapter).SourcesSql me.clauses.From), true),
     (ofAdapter (env me.adapter).DefaultValuesSql, true),
     (ofAdapter ((env me.adapter).ReturningSql me.clauses.Returning), false)]
  | some columns =>
    [(ofAdapter (env me.adapter).InsertBeginSql, false),
     (ofAdapter ((env me.adapter).SourcesSql me.clauses.From), true),
     (ofAdapter ((env me.adapter).InsertColumnsSql (some columns)), true),
     (ofAdapter ((env me.adapter).InsertValuesSql values), true),
     (ofAdapter ((env me.adapter).ReturningSql me.clauses.Returning), false)]

/-- The fragments `insertFromSql(other)` renders, in assembly order, marked as in
`sqlFragments`; the third is the whole statement of `other`. -/
def Dataset.insertFromFragments (env : Env) (me : Dataset) (other : Dataset) :
    List (SqlResult × Bool) :=
  [(ofAdapter (env me.adapter).InsertBeginSql, false),
   (ofAdapter ((env me.adapter).SourcesSql me.clauses.From), true),
   (other.Sql env, false),
   (ofAdapter ((env me.adapter).ReturningSql me.clauses.Returning), false)]

/-- The fragments `updateSql(updates...)` renders, in assembly order, marked as in
`sqlFragments`. -/
def Dataset.updateFragments (env : Env) (me : Dataset) (updates : List Expression) :
    List (SqlResult × Bool) :=
  [(ofAdapter (env me.adapter).UpdateBeginSql, false),
   (ofAdapter ((env me.adapter).SourcesSql me.clauses.From), false),
   (ofAdapter ((env me.adapter).UpdateExpressionsSql updates), false),
   (ofAdapter ((env me.adapter).WhereSql me.clauses.Where), false),
   (ofAdapter ((env me.adapter).ReturningSql me.clauses.Returning), false)]

/-- The error value returned by the earliest failing fragment of a list, if one fails. -/
def earliestError : List (SqlResult × Bool) → Option GoError
  | [] => none
  | ((_, some err), _) :: _ => some err
  | ((_, none), _) :: rest => earliestError rest

/-- The error an assembler reports for a list of fragments: for the earliest failing fragment,
its error `err` where the mark is `false` and `newGqlError(err.Error())` where it is `true`. -/
def reportedError : List (SqlResult × Bool) → Option GoError
  | [] => none
  | ((_, some err), false) :: _ => some err
  | ((_, some err), true) :: _ => some (newGqlError (.errorOf err) [])
  | ((_, none), _) :: rest => reportedError rest

/-- A sample environment whose adapter fails in `HavingSql` with the error `boom`. -/
def havingFailsEnv : Env :=
  fun _ => { sampleAdapter with HavingSql := fun _ => ("", some "boom") }

/-- A sample environment whose adapter fails in every operation, with the error `boom`. -/
def failingEnv : Env := fun _ =>
  { SelectSql := fun _ => ("", some "boom")
    SelectDistinctSql := fun _ => ("", some "boom")
    FromSql := fun _ => ("", some "boom")
    JoinSql := fun _ => ("", some "boom")
    WhereSql := fun _ => ("", some "boom")
    GroupBySql := fun _ => ("", some "boom")
    HavingSql := fun _ => ("", some "boom")
    CompoundsSql := fun _ => ("", some "boom")
    OrderSql := fun _ => ("", some "boom")
    LimitSql := fun _ => ("", some "boom")
    OffsetSql := fun _ => ("", some "boom")
    ReturningSql := fun _ => ("", some "boom")
    DeleteBeginSql := ("", some "boom")
    InsertBeginSql := ("", some "boom")
    SourcesSql := fun _ => ("", some "boom")
    DefaultValuesSql := ("", some "boom")
    InsertColumnsSql := fun _ => ("", some "boom")
    InsertValuesSql := fun _ => ("", some "boom")
    UpdateBeginSql := ("", some "boom")
    UpdateExpressionsSql := fun _ => ("", some "boom")
    TruncateSql := fun _ _ => ("", some "boom")
    LiteralNil := ("", some "boom")
    LiteralString := fun _ => ("", some "boom")
    LiteralInt := fun _ => ("", some "boom")
    LiteralFloat := fun _ => ("", some "boom")
    LiteralBool := fun _ => ("", some "boom")
    LiteralTime := fun _ => ("", some "boom")
    SliceValueSql := fun _ => ("", some "boom")
    BuilderSql := fun _ => ("", some "boom")
    ColumnListSql := fun _ => ("", some "boom")
    ExpressionListSql := fun _ => ("", some "boom")
    LiteralExpressionSql := fun _ => ("", some "boom")
    QuoteIdentifier := fun _ => ("", some "boom")
    AliasedExpressionSql := fun _ => ("", some "boom")
    BooleanExpressionSql := fun _ => ("", some "boom")
    OrderedExpressionSql := fun _ => ("", some "boom")
    UpdateExpressionSql := fun _ => ("", some "boom")
    SqlFunctionExpressionSql := fun _ => ("", some "boom")
    CastExpressionSql := fun _ => ("", some "boom")
    CompoundExpressionSql := fun _ => ("", some "boom") }

/-- The value of a map row under a key (`nil` for a key the map does not have). -/
def mapValue (entries : List (String × GoValue)) (key : String) : GoValue :=
  (entries.lookup key).getD .nil

/-- The value tuple of a map row for a list of keys: the values under the keys, in the order
of the keys. -/
def mapTuple (keys : List String) (entries : List (String × GoValue)) : List GoValue :=
  keys.map (mapValue entries)

/-- Whether the keys of a map row pass the two comparisons with the keys `mapKeys` of the first
row: the same count, and the same sorted sequence. -/
def sameKeys (mapKeys : valueSlice) (entries : List (String × GoValue)) : Bool :=
  decide ((MapKeys entries).length = mapKeys.length) && decide (sortSort (MapKeys entries) = mapKeys)

/-- The error of `getInsertColsAndVals` for a map row whose keys `newMapKeys` differ from the
keys `mapKeys` of the first row: the one naming the two counts when the counts differ, the one
naming the two key sets otherwise. -/
def keyMismatchError (mapKeys newMapKeys : valueSlice) : GoError :=
  if newMapKeys.length != mapKeys.length then
    newGqlError (.lit "Rows with different value length expected %d got %d")
      [.num mapKeys.length, .num newMapKeys.length]
  else
    newGqlError (.lit "Rows with different keys expected %s got %s")
      [.str (valueSlice.String mapKeys), .str (valueSlice.String (sortSort newMapKeys))]

/-- Whether a field takes part in an INSERT, in the words of the specification: its `db` tag is
neither empty nor `-`, and its `gql` tag does not list `skipinsert`. -/
def StructField.insertable (f : StructField) : Bool :=
  decide (f.db ≠ "" ∧ f.db ≠ "-" ∧ "skipinsert" ∉ f.gql)

/-- The columns of a struct type for INSERT: the `db` tags of its insertable fields, in
declaration order. -/
def insertColumns (fields : List StructField) : List GoValue :=
  (fields.filter StructField.insertable).map (fun f => GoValue.string f.db)

/-- The value tuple of a struct row for INSERT: the values of its insertable fields, in
declaration order. -/
def insertTuple (fields : List (StructField × GoValue)) : List GoValue :=
  (fields.filter (fun p => p.1.insertable)).map Prod.snd

/-- The rendering of a key set in the words of the specification: a bracketed, comma-separated
list of the double-quoted keys, the quoted keys in sorted order. -/
def bracketedKeys (keys : List String) : String :=
  "[" ++ ",".intercalate (sortSort (keys.map (fun key => "\"" ++ key ++ "\""))) ++ "]"

/-- Two sample map rows of one type with the keys `a` and `b`, the first listing `b` first. -/
def sampleMapRows : List GoValue :=
  [.map "map[string]interface {}" [("b", .int .int 2), ("a", .int .int 1)],
   .map "map[string]interface {}" [("a", .int .int 3), ("b", .int .int 4)]]

/-- Two sample map rows of one type, the second without the key `b`. -/
def sampleMismatchedRows : List GoValue :=
  [.map "map[string]interface {}" [("a", .int .int 1), ("b", .int .int 2)],
   .map "map[string]interface {}" [("a", .int .int 3)]]

/-- Two sample map rows of one type with as many keys, the second with `c` for `b`. -/
def sampleRenamedRows : List GoValue :=
  [.map "map[string]interface {}" [("a", .int .int 1), ("b", .int .int 2)],
   .map "map[string]interface {}" [("a", .int .int 3), ("c", .int .int 4)]]

/-- Two sample map rows with the same key set and different map types. -/
def sampleMixedTypeRows : List GoValue :=
  [.map "map[string]int" [("a", .int .int 1)],
   .map "map[string]string" [("a", .string "x")]]

/-- The fields of a sample struct type `main.user`: `Id` is tagged `skipinsert`, `Secret` has
the `db` tag `-`, and the unexported `cache` has no `db` tag. -/
def sampleUserFields : List StructField :=
  [{ Name := "Id", exported := true, db := "id", gql := ["skipinsert"] },
   { Name := "Name", exported := true, db := "name", gql := [] },
   { Name := "Secret", exported := true, db := "-", gql := [] },
   { Name := "Age", exported := true, db := "age", gql := ["skipupdate"] },
   { Name := "cache", exported := false, db := "", gql := [] }]

/-- A sample row of type `main.user`. -/
def sampleUser (id : Int) (name : String) (age : Int) : List (StructField × GoValue) :=
  sampleUserFields.zip [.int .int64 id, .string name, .string "s", .int .int age, .nil]

/-- Two sample struct rows of type `main.user`, the second behind a pointer. -/
def sampleStructRows : List GoValue :=
  [.struct "main.user" (sampleUser 1 "ann" 30), .ptr (.struct "main.user" (sampleUser 2 "bob" 40))]

/-- A sample struct row whose only field is unexported and carries the `db` tag `id`. -/
def sampleUnexportedRow : GoValue :=
  .struct "main.item" [({ Name := "id", exported := false, db := "id", gql := [] }, .int .int 1)]

/-- Whether a field takes part in an UPDATE, in the words of the specification: its `db` tag is
neither empty nor `-`, and its `gql` tag does not list `skipupdate`. -/
def StructField.updatable (f : StructField) : Bool :=
  decide (f.db ≠ "" ∧ f.db ≠ "-" ∧ "skipupdate" ∉ f.gql)

/-- A sample map for an UPDATE, listing the key `b` first. -/
def sampleUpdateMap : GoValue :=
  .map "map[string]interface {}" [("b", .int .int 2), ("a", .int .int 1)]

/-- A sample row that is a map without keys. -/
def sampleEmptyMapRow : GoValue := .map "map[string]interface {}" []

/-- The sample Dataset `From("t")`. -/
def sampleFrom : Dataset := From [.string "t"]

/-- The sample Dataset `From("t").NaturalJoin(I("u"))`: its join clause has no condition. -/
def sampleNaturalJoin : Dataset :=
  { sampleFrom with
    clauses := { sampleFrom.clauses with
      Joins := [{ joinType := .natural_join, isConditioned := false, table := some (I "u"),
                  condition := none }] } }

/-- The sample Dataset `From("t").Order()`: its Order is set and has no column. -/
def sampleEmptyOrder : Dataset :=
  { sampleFrom with clauses := { sampleFrom.clauses with Order := some [] } }

/-- The Dataset with the alias `name` and its other clauses unchanged. -/
def Dataset.withAlias (d : Dataset) (name : String) : Dataset :=
  { d with clauses := { d.clauses with Alias := some (I name) } }

/-- The fresh Dataset that wraps the sources `sources`: the adapter and the database of `d`, the
star projection, the sources as from-clause, and no other clause set. -/
def Dataset.wrapping (d : Dataset) (sources : List GoValue) : Dataset :=
  { adapter := d.adapter
    clauses :=
      { Select := some [.expr Star]
        SelectDistinct := none
        From := some sources
        Joins := []
        Where := none
        Alias := none
        GroupBy := none
        Having := none
        Order := none
        Limit := .nil
        Offset := 0
        Returning := none
        Compounds := [] }
    database := d.database }

/-- The Dataset with the Order `order` and its other clauses unchanged. -/
def Dataset.withOrder (d : Dataset) (order : Option ColumnList) : Dataset :=
  { d with clauses := { d.clauses with Order := order } }

/-- The sample Dataset `From("t").Limit(3)`. -/
def sampleLimited : Dataset :=
  { sampleFrom with clauses := { sampleFrom.clauses with Limit := .uint .uint 3 } }

/-- The sample Dataset `From("t").Where(I("a"))`. -/
def sampleWhere : Dataset :=
  { sampleFrom with clauses := { sampleFrom.clauses with Where := some (And [I "a"]) } }

/-- Whether a source is a Dataset without an alias. -/
def GoValue.isUnaliasedDataset : GoValue → Bool
  | .expr (.dataset d) => d.clauses.Alias.isNone
  | _ => false

/-- The number of Datasets without an alias among the sources up to and with the one at index
`i`: for such a source at index `i`, its rank `k`, counted from 1. -/
def unaliasedUpTo (sources : List GoValue) (i : Nat) : Nat :=
  ((sources.take (i + 1)).filter GoValue.isUnaliasedDataset).length

/-- A source as `Dataset.From` is to pass it on, in the words of the specification: a Dataset
without an alias is given the alias `t<k>`, any other source is unchanged. -/
def aliasedSource (k : Nat) : GoValue → GoValue
  | .expr (.dataset d) =>
    if d.clauses.Alias.isNone then .expr (.dataset (Dataset.withAlias d ("t" ++ toString k)))
    else .expr (.dataset d)
  | source => source

/-- The number that a list of decimal digits, read after the number `a`, stands for. -/
def digitsValue (cs : List Char) (a : Nat) : Nat :=
  cs.foldl (fun a c => 10 * a + (c.toNat - 48)) a

/-- Three sample sources: `From("a")`, the table `b`, and `From("c")`. -/
def sampleSources : List GoValue :=
  [.expr (.dataset (From [.string "a"])), .string "b", .expr (.dataset (From [.string "c"]))]

/-- The Datasets reachable from the constructor `From` by the methods that return a Dataset:
every step is a call that returns. The join helpers are calls of `JoinTable`, `ClearLimit()` is
`Limit(0)`, `ClearOffset()` is `Offset(0)`, and `Union`, `UnionAll`, `Intersect` and
`IntersectAll` are `compoundWith` of their set operation. -/
inductive Reachable : Dataset → Prop
  | constructed (table : List GoValue) : Reachable (From table)
  | byCopy (d r : Dataset) : Reachable d → d.copy = .ok r → Reachable r
  | byAs (d r : Dataset) (name : String) : Reachable d → d.As name = .ok r → Reachable r
  | byFrom (d r : Dataset) (sources : List GoValue) :
    Reachable d → d.From sources = .ok r → Reachable r
  | byFromSelf (d r : Dataset) : Reachable d → d.FromSelf = .ok r → Reachable r
  | byReturning (d r : Dataset) (returning : List GoValue) :
    Reachable d → d.Returning returning = .ok r → Reachable r
  | byJoinTable (d r : Dataset) (joinType : JoinType) (table condition : Option Expression) :
    Reachable d → d.JoinTable joinType table condition = .ok r → Reachable r
  | bySelect (d r : Dataset) (selects : List GoValue) :
    Reachable d → d.Select selects = .ok r → Reachable r
  | bySelectDistinct (d r : Dataset) (selects : List GoValue) :
    Reachable d → d.SelectDistinct selects = .ok r → Reachable r
  | byClearSelect (d r : Dataset) : Reachable d → d.ClearSelect = .ok r → Reachable r
  | bySelectAppend (d r : Dataset) (selects : List GoValue) :
    Reachable d → d.SelectAppend selects = .ok r → Reachable r
  | byWhere (d r : Dataset) (expressions : List Expression) :
    Reachable d → d.Where expressions = .ok r → Reachable r
  | byClearWhere (d r : Dataset) : Reachable d → d.ClearWhere = .ok r → Reachable r
  | byGroupBy (d r : Dataset) (groupBy : List GoValue) :
    Reachable d → d.GroupBy groupBy = .ok r → Reachable r
  | byHaving (d r : Dataset) (expressions : List Expression) :
    Reachable d → d.Having expressions = .ok r → Reachable r
  | byOrder (d r : Dataset) (order : List Expression) :
    Reachable d → d.Order order = .ok r → Reachable r
  | byOrderAppend (d r : Dataset) (order : List Expression) :
    Reachable d → d.OrderAppend order = .ok r → Reachable r
  | byClearOrder (d r : Dataset) : Reachable d → d.ClearOrder = .ok r → Reachable r
  | byLimit (d r : Dataset) (limit : Nat) : Reachable d → d.Limit limit = .ok r → Reachable r
  | byLimitAll (d r : Dataset) : Reachable d → d.LimitAll = .ok r → Reachable r
  | byOffset (d r : Dataset) (offset : Nat) : Reachable d → d.Offset offset = .ok r → Reachable r
  | byCompoundFromSelf (d r : Dataset) : Reachable d → d.CompoundFromSelf = .ok r → Reachable r
  | byCompound (d r : Dataset) (t : CompoundType) (other : Dataset) :
    Reachable d → d.compoundWith t other = .ok r → Reachable r

/-- Exactly one of the select columns and the select-distinct columns is set. -/
def Dataset.oneProjection (d : Dataset) : Prop :=
  (d.clauses.Select.isSome = true ∧ d.clauses.SelectDistinct = none)
    ∨ (d.clauses.Select = none ∧ d.clauses.SelectDistinct.isSome = true)

/-- The sample Dataset `From("t").SelectDistinct("a")`. -/
def sampleDistinct : Dataset :=
  { sampleFrom with clauses := { sampleFrom.clauses with
      Select := none, SelectDistinct := some [.string "a"] } }

/-- The Dataset with the join clause `jc` added at the end of its joins and its other clauses
unchanged. -/
def Dataset.withJoin (d : Dataset) (jc : joiningClause) : Dataset :=
  { d with clauses := { d.clauses with Joins := d.clauses.Joins ++ [jc] } }

/-- The sample Dataset `From("t").Order(I("a").Asc())`. -/
def sampleOrdered : Dataset :=
  sampleFrom.withOrder (some [.expr (.ordered (I "a") "ASC")])

/-- The sample Dataset `From("t").Order(I("a").Asc()).NaturalJoin(I("u"))`: its Order is set
and its join clause has no condition. -/
def sampleOrderedJoin : Dataset :=
  sampleOrdered.withJoin ⟨.natural_join, false, some (I "u"), none⟩

/-! # Theorems -/

/-! ## The literal encoder -/

/-- C1 (the code at the failing input): on a platform where `uint` is 64 bits wide, `Literal`
of the `uint` value 2^63 does not fail: it returns the adapter's integer literal of the
negative number -9223372036854775808, whatever the adapter. The sibling path for `uint64`
rejects the same number. -/
theorem Literal_uint_high_bit_is_negative (env : Env) (me : Dataset) :
    me.Literal env (.uint .uint (2 ^ 63))
        = ofAdapter ((env me.adapter).LiteralInt (-9223372036854775808))
      ∧ me.Literal env (.uint .uint64 (2 ^ 63))
        = ("", some (newGqlError (.lit "uint64 values with high bit set are not supported") [])) :=
  ⟨rfl, rfl⟩

/-- C4: when every fragment renderer `Sql()` uses succeeds, `Sql()` returns, without error,
the ten fragments concatenated with no separator, in the order projection, from, joins, where,
group-by, having, compounds, order, limit, offset. -/
theorem Sql_is_concatenation (env : Env) (me : Dataset)
    (h0 : (me.projectionSql env).2 = none)
    (h1 : ((env me.adapter).FromSql me.clauses.From).2 = none)
    (h2 : ((env me.adapter).JoinSql me.clauses.Joins).2 = none)
    (h3 : ((env me.adapter).WhereSql me.clauses.Where).2 = none)
    (h4 : ((env me.adapter).GroupBySql me.clauses.GroupBy).2 = none)
    (h5 : ((env me.adapter).HavingSql me.clauses.Having).2 = none)
    (h6 : ((env me.adapter).CompoundsSql me.clauses.Compounds).2 = none)
    (h7 : ((env me.adapter).OrderSql me.clauses.Order).2 = none)
    (h8 : ((env me.adapter).LimitSql me.clauses.Limit).2 = none)
    (h9 : ((env me.adapter).OffsetSql me.clauses.Offset).2 = none) :
    me.Sql env =
      ((me.projectionSql env).1
        ++ ((env me.adapter).FromSql me.clauses.From).1
        ++ ((env me.adapter).JoinSql me.clauses.Joins).1
        ++ ((env me.adapter).WhereSql me.clauses.Where).1
        ++ ((env me.adapter).GroupBySql me.clauses.GroupBy).1
        ++ ((env me.adapter).HavingSql me.clauses.Having).1
        ++ ((env me.adapter).CompoundsSql me.clauses.Compounds).1
        ++ ((env me.adapter).OrderSql me.clauses.Order).1
        ++ ((env me.adapter).LimitSql me.clauses.Limit).1
        ++ ((env me.adapter).OffsetSql me.clauses.Offset).1, none) := by
  obtain ⟨s0, e0⟩ : ∃ s, me.projectionSql env = (s, none) := ⟨_, Prod.ext rfl h0⟩
  obtain ⟨s1, e1⟩ : ∃ s, (env me.adapter).FromSql me.clauses.From = (s, none) :=
    ⟨_, Prod.ext rfl h1⟩
  obtain ⟨s2, e2⟩ : ∃ s, (env me.adapter).JoinSql me.clauses.Joins = (s, none) :=
    ⟨_, Prod.ext rfl h2⟩
  obtain ⟨s3, e3⟩ : ∃ s, (env me.adapter).WhereSql me.clauses.Where = (s, none) :=
    ⟨_, Prod.ext rfl h3⟩
  obtain ⟨s4, e4⟩ : ∃ s, (env me.adapter).GroupBySql me.clauses.GroupBy = (s, none) :=
    ⟨_, Prod.ext rfl h4⟩
  obtain ⟨s5, e5⟩ : ∃ s, (env me.adapter).HavingSql me.clauses.Having = (s, none) :=
    ⟨_, Prod.ext rfl h5⟩
  obtain ⟨s6, e6⟩ : ∃ s, (env me.adapter).CompoundsSql me.clauses.Compounds = (s, none) :=
    ⟨_, Prod.ext rfl h6⟩
  obtain ⟨s7, e7⟩ : ∃ s, (env me.adapter).OrderSql me.clauses.Order = (s, none) :=
    ⟨_, Prod.ext rfl h7⟩
  obtain ⟨s8, e8⟩ : ∃ s, (env me.adapter).LimitSql me.clauses.Limit = (s, none) :=
    ⟨_, Prod.ext rfl h8⟩
  obtain ⟨s9, e9⟩ : ∃ s, (env me.adapter).OffsetSql me.clauses.Offset = (s, none) :=
    ⟨_, Prod.ext rfl h9⟩
  have e0' := e0
  unfold Dataset.projectionSql at e0'
  simp only [Dataset.Sql, e0, e0', e1, e2, e3, e4, e5, e6, e7, e8, e9]
  simp [stringsJoin, String.intercalate, String.intercalate.go]

/-- C4 (witness): the sample Dataset with the sample adapter. -/
theorem Sql_is_concatenation_witness :
    sampleDataset.Sql sampleEnv
      = ("SELECT * FROM t JOIN u WHERE a GROUP BY b HAVING c UNION v ORDER BY d LIMIT 1 OFFSET 2",
          none) :=
  (Sql_is_concatenation sampleEnv sampleDataset rfl rfl rfl rfl rfl rfl rfl rfl rfl rfl).trans rfl


/-- `Sql()` returns the empty string and the reported error of its fragments. -/
theorem Sql_reports (env : Env) (me : Dataset) (e : GoError)
    (h : reportedError (me.sqlFragments env) = some e) : me.Sql env = ("", some e) := by
  simp only [Dataset.sqlFragments, ofAdapter] at h
  have hp : me.projectionSql env
      = (if me.clauses.SelectDistinct.isSome then
          (env me.adapter).SelectDistinctSql me.clauses.SelectDistinct
        else (env me.adapter).SelectSql me.clauses.Select) := rfl
  simp only [Dataset.Sql, ← hp]
  rcases h0 : me.projectionSql env with ⟨s0, _ | err0⟩
  swap
  · simp [Dataset.Sql, h0, reportedError, newGqlError] at h ⊢
    exact h
  simp only [h0, Option.map_none'] at h
  simp only [reportedError] at h
  rcases h1 : (env me.adapter).FromSql me.clauses.From with ⟨s1, _ | err1⟩
  swap
  · simp [Dataset.Sql, h1, reportedError, newGqlError] at h ⊢
    exact h
  simp only [h1, Option.map_none'] at h
  simp only [reportedError] at h
  rcases h2 : (env me.adapter).JoinSql me.clauses.Joins with ⟨s2, _ | err2⟩
  swap
  · simp [Dataset.Sql, h2, reportedError, newGqlError] at h ⊢
    exact h
  simp only [h2, Option.map_none'] at h
  simp only [reportedError] at h
  rcases h3 : (env me.adapter).WhereSql me.clauses.Where with ⟨s3, _ | err3⟩
  swap
  · simp [Dataset.Sql, h3, reportedError, newGqlError] at h ⊢
    exact h
  simp only [h3, Option.map_none'] at h
  simp only [reportedError] at h
  rcases h4 : (env me.adapter).GroupBySql me.clauses.GroupBy with ⟨s4, _ | err4⟩
  swap
  · simp [Dataset.Sql, h4, reportedError, newGqlError] at h ⊢
    exact h
  simp only [h4, Option.map_none'] at h
  simp only [reportedError] at h
  rcases h5 : (env me.adapter).HavingSql me.clauses.Having with ⟨s5, _ | err5⟩
  swap
  · simp [Dataset.Sql, h5, reportedError, newGqlError] at h ⊢
    exact h
  simp only [h5, Option.map_none'] at h
  simp only [reportedError] at h
  rcases h6 : (env me.adapter).CompoundsSql me.clauses.Compounds with ⟨s6, _ | err6⟩
  swap
  · simp [Dataset.Sql, h6, reportedError, newGqlError] at h ⊢
    exact h
  simp only [h6, Option.map_none'] at h
  simp only [reportedError] at h
  rcases h7 : (env me.adapter).OrderSql me.clauses.Order with ⟨s7, _ | err7⟩
  swap
  · simp [Dataset.Sql, h7, reportedError, newGqlError] at h ⊢
    exact h
  simp only [h7, Option.map_none'] at h
  simp only [reportedError] at h
  rcases h8 : (env me.adapter).LimitSql me.clauses.Limit with ⟨s8, _ | err8⟩
  swap
  · simp [Dataset.Sql, h8, reportedError, newGqlError] at h ⊢
    exact h
  simp only [h8, Option.map_none'] at h
  simp only [reportedError] at h
  rcases h9 : (env me.adapter).OffsetSql me.clauses.Offset with ⟨s9, _ | err9⟩
  swap
  · simp [Dataset.Sql, h9, reportedError, newGqlError] at h ⊢
    exact h
  simp only [h9, Option.map_none'] at h
  simp only [reportedError] at h
  simp at h

/-- `DeleteSql()` on a Dataset with a source returns the empty string and the reported error of
its fragments. -/
theorem DeleteSql_reports (env : Env) (me : Dataset) (e : GoError) (hs : me.hasSources = true)
    (h : reportedError (me.deleteFragments env) = some e) : me.DeleteSql env = ("", some e) := by
  simp only [Dataset.deleteFragments, ofAdapter] at h
  simp only [Dataset.DeleteSql, hs]
  rcases h0 : (env me.adapter).DeleteBeginSql with ⟨s0, _ | err0⟩
  swap
  · simp [Dataset.DeleteSql, h0, reportedError, newGqlError] at h ⊢
    exact h
  simp only [h0, Option.map_none'] at h
  simp only [reportedError] at h
  rcases h1 : (env me.adapter).FromSql me.clauses.From with ⟨s1, _ | err1⟩
  swap
  · simp [Dataset.DeleteSql, h1, reportedError, newGqlError] at h ⊢
    exact h
  simp only [h1, Option.map_none'] at h
  simp only [reportedError] at h
  rcases h2 : (env me.adapter).WhereSql me.clauses.Where with ⟨s2, _ | err2⟩
  swap
  · simp [Dataset.DeleteSql, h2, reportedError, newGqlError] at h ⊢
    exact h
  simp only [h2, Option.map_none'] at h
  simp only [reportedError] at h
  rcases h3 : (env me.adapter).ReturningSql me.clauses.Returning with ⟨s3, _ | err3⟩
  swap
  · simp [Dataset.DeleteSql, h3, reportedError, newGqlError] at h ⊢
    exact h
  simp only [h3, Option.map_none'] at h
  simp only [reportedError] at h
  simp at h

/-- `insertSql` returns the empty string and the reported error of its fragments. -/
theorem insertSql_reports (env : Env) (me : Dataset) (cols : Option ColumnList)
    (values : List (List GoValue)) (e : GoError)
    (h : reportedError (me.insertFragments env cols values) = some e) :
    me.insertSql env cols values = ("", some e) := by
  cases cols with
  | none =>
    simp only [Dataset.insertFragments, ofAdapter] at h
    simp only [Dataset.insertSql]
    rcases h0 : (env me.adapter).InsertBeginSql with ⟨s0, _ | err0⟩
    swap
    · simp [Dataset.insertSql, h0, reportedError, newGqlError] at h ⊢
      exact h
    simp only [h0, Option.map_none'] at h
    simp only [reportedError] at h
    rcases h1 : (env me.adapter).SourcesSql me.clauses.From with ⟨s1, _ | err1⟩
    swap
    · simp [Dataset.insertSql, h1, reportedError, newGqlError] at h ⊢
      exact h
    simp only [h1, Option.map_none'] at h
    simp only [reportedError] at h
    rcases h2 : (env me.adapter).DefaultValuesSql with ⟨s2, _ | err2⟩
    swap
    · simp [Dataset.insertSql, h2, reportedError, newGqlError] at h ⊢
      exact h
    simp only [h2, Option.map_none'] at h
    simp only [reportedError] at h
    rcases h3 : (env me.adapter).ReturningSql me.clauses.Returning with ⟨s3, _ | err3⟩
    swap
    · simp [Dataset.insertSql, h3, reportedError, newGqlError] at h ⊢
      exact h
    simp only [h3, Option.map_none'] at h
    simp only [reportedError] at h
    simp at h
  | some columns =>
    simp only [Dataset.insertFragments, ofAdapter] at h
    simp only [Dataset.insertSql]
    rcases h0 : (env me.adapter).InsertBeginSql with ⟨s0, _ | err0⟩
    swap
    · simp [Dataset.insertSql, h0, reportedError, newGqlError] at h ⊢
      exact h
    simp only [h0, Option.map_none'] at h
    simp only [reportedError] at h
    rcases h1 : (env me.adapter).SourcesSql me.clauses.From with ⟨s1, _ | err1⟩
    swap
    · simp [Dataset.insertSql, h1, reportedError, newGqlError] at h ⊢
      exact h
    simp only [h1, Option.map_none'] at h
    simp only [reportedError] at h
    rcases h2 : (env me.adapter).InsertColumnsSql (some columns) with ⟨s2, _ | err2⟩
    swap
    · simp [Dataset.insertSql, h2, reportedError, newGqlError] at h ⊢
      exact h
    simp only [h2, Option.map_none'] at h
    simp only [reportedError] at h
    rcases h3 : (env me.adapter).InsertValuesSql values with ⟨s3, _ | err3⟩
    swap
    · simp [Dataset.insertSql, h3, reportedError, newGqlError] at h ⊢
      exact h
    simp only [h3, Option.map_none'] at h
    simp only [reportedError] at h
    rcases h4 : (env me.adapter).ReturningSql me.clauses.Returning with ⟨s4, _ | err4⟩
    swap
    · simp [Dataset.insertSql, h4, reportedError, newGqlError] at h ⊢
      exact h
    simp only [h4, Option.map_none'] at h
    simp only [reportedError] at h
    simp at h

/-- `updateSql` returns the empty string and the reported error of its fragments. -/
theorem updateSql_reports (env : Env) (me : Dataset) (updates : List Expression) (e : GoError)
    (h : reportedError (me.updateFragments env updates) = some e) :
    me.updateSql env updates = ("", some e) := by
  simp only [Dataset.updateFragments, ofAdapter] at h
  simp only [Dataset.updateSql]
  rcases h0 : (env me.adapter).UpdateBeginSql with ⟨s0, _ | err0⟩
  swap
  · simp [Dataset.updateSql, h0, reportedError, newGqlError] at h ⊢
    exact h
  simp only [h0, Option.map_none'] at h
  simp only [reportedError] at h
  rcases h1 : (env me.adapter).SourcesSql me.clauses.From with ⟨s1, _ | err1⟩
  swap
  · simp [Dataset.updateSql, h1, reportedError, newGqlError] at h ⊢
    exact h
  simp only [h1, Option.map_none'] at h
  simp only [reportedError] at h
  rcases h2 : (env me.adapter).UpdateExpressionsSql updates with ⟨s2, _ | err2⟩
  swap
  · simp [Dataset.updateSql, h2, reportedError, newGqlError] at h ⊢
    exact h
  simp only [h2, Option.map_none'] at h
  simp only [reportedError] at h
  rcases h3 : (env me.adapter).WhereSql me.clauses.Where with ⟨s3, _ | err3⟩
  swap
  · simp [Dataset.updateSql, h3, reportedError, newGqlError] at h ⊢
    exact h
  simp only [h3, Option.map_none'] at h
  simp only [reportedError] at h
  rcases h4 : (env me.adapter).ReturningSql me.clauses.Returning with ⟨s4, _ | err4⟩
  swap
  · simp [Dataset.updateSql, h4, reportedError, newGqlError] at h ⊢
    exact h
  simp only [h4, Option.map_none'] at h
  simp only [reportedError] at h
  simp at h


/-- `insertFromSql` returns the empty string and the reported error of its fragments. -/
theorem insertFromSql_reports (env : Env) (me other : Dataset) (e : GoError)
    (h : reportedError (me.insertFromFragments env other) = some e) :
    me.insertFromSql env other = ("", some e) := by
  simp only [Dataset.insertFromFragments, ofAdapter] at h
  simp only [Dataset.insertFromSql]
  rcases h0 : (env me.adapter).InsertBeginSql with ⟨s0, _ | err0⟩
  swap
  · simp [h0, reportedError] at h ⊢
    exact h
  simp only [h0, Option.map_none', reportedError] at h
  rcases h1 : (env me.adapter).SourcesSql me.clauses.From with ⟨s1, _ | err1⟩
  swap
  · simp [h1, reportedError, newGqlError] at h ⊢
    exact h
  simp only [h1, Option.map_none', reportedError] at h
  rcases h2 : other.Sql env with ⟨s2, _ | err2⟩
  swap
  · simp [h2, reportedError] at h ⊢
    exact h
  simp only [h2, reportedError] at h
  rcases h3 : (env me.adapter).ReturningSql me.clauses.Returning with ⟨s3, _ | err3⟩
  swap
  · simp [h3, reportedError] at h ⊢
    exact h
  simp [h3, reportedError] at h

/-- The error of `Sql()` is the reported error of its fragments (none when none fails). -/
theorem Sql_error (env : Env) (me : Dataset) :
    (me.Sql env).2 = reportedError (me.sqlFragments env) := by
  have hp : me.projectionSql env
      = (if me.clauses.SelectDistinct.isSome then
          (env me.adapter).SelectDistinctSql me.clauses.SelectDistinct
        else (env me.adapter).SelectSql me.clauses.Select) := rfl
  simp only [Dataset.Sql, ← hp, Dataset.sqlFragments, ofAdapter]
  rcases h0 : me.projectionSql env with ⟨s0, _ | err0⟩
  swap
  · simp [h0, reportedError, newGqlError]
  simp only [h0, Option.map_none', reportedError]
  rcases h1 : (env me.adapter).FromSql me.clauses.From with ⟨s1, _ | err1⟩
  swap
  · simp [h1, reportedError, newGqlError]
  simp only [h1, Option.map_none', reportedError]
  rcases h2 : (env me.adapter).JoinSql me.clauses.Joins with ⟨s2, _ | err2⟩
  swap
  · simp [h2, reportedError, newGqlError]
  simp only [h2, Option.map_none', reportedError]
  rcases h3 : (env me.adapter).WhereSql me.clauses.Where with ⟨s3, _ | err3⟩
  swap
  · simp [h3, reportedError, newGqlError]
  simp only [h3, Option.map_none', reportedError]
  rcases h4 : (env me.adapter).GroupBySql me.clauses.GroupBy with ⟨s4, _ | err4⟩
  swap
  · simp [h4, reportedError, newGqlError]
  simp only [h4, Option.map_none', reportedError]
  rcases h5 : (env me.adapter).HavingSql me.clauses.Having with ⟨s5, _ | err5⟩
  swap
  · simp [h5, reportedError, newGqlError]
  simp only [h5, Option.map_none', reportedError]
  rcases h6 : (env me.adapter).CompoundsSql me.clauses.Compounds with ⟨s6, _ | err6⟩
  swap
  · simp [h6, reportedError, newGqlError]
  simp only [h6, Option.map_none', reportedError]
  rcases h7 : (env me.adapter).OrderSql me.clauses.Order with ⟨s7, _ | err7⟩
  swap
  · simp [h7, reportedError, newGqlError]
  simp only [h7, Option.map_none', reportedError]
  rcases h8 : (env me.adapter).LimitSql me.clauses.Limit with ⟨s8, _ | err8⟩
  swap
  · simp [h8, reportedError, newGqlError]
  simp only [h8, Option.map_none', reportedError]
  rcases h9 : (env me.adapter).OffsetSql me.clauses.Offset with ⟨s9, _ | err9⟩
  swap
  · simp [h9, reportedError, newGqlError]
  simp only [h9, Option.map_none', reportedError]

/-- The error of `DeleteSql()` on a Dataset with a source is the reported error of its
fragments. -/
theorem DeleteSql_error (env : Env) (me : Dataset) (hs : me.hasSources = true) :
    (me.DeleteSql env).2 = reportedError (me.deleteFragments env) := by
  simp only [Dataset.DeleteSql, hs, Dataset.deleteFragments, ofAdapter]
  rcases h0 : (env me.adapter).DeleteBeginSql with ⟨s0, _ | err0⟩
  swap
  · simp [h0, reportedError, newGqlError]
  simp only [h0, Option.map_none', reportedError]
  rcases h1 : (env me.adapter).FromSql me.clauses.From with ⟨s1, _ | err1⟩
  swap
  · simp [h1, reportedError, newGqlError]
  simp only [h1, Option.map_none', reportedError]
  rcases h2 : (env me.adapter).WhereSql me.clauses.Where with ⟨s2, _ | err2⟩
  swap
  · simp [h2, reportedError, newGqlError]
  simp only [h2, Option.map_none', reportedError]
  rcases h3 : (env me.adapter).ReturningSql me.clauses.Returning with ⟨s3, _ | err3⟩
  swap
  · simp [h3, reportedError, newGqlError]
  simp only [h3, Option.map_none', reportedError]
  simp

/-- The error of `insertSql` is the reported error of its fragments. -/
theorem insertSql_error (env : Env) (me : Dataset) (cols : Option ColumnList)
    (values : List (List GoValue)) :
    (me.insertSql env cols values).2 = reportedError (me.insertFragments env cols values) := by
  cases cols with
  | none =>
    simp only [Dataset.insertSql, Dataset.insertFragments, ofAdapter]
    rcases h0 : (env me.adapter).InsertBeginSql with ⟨s0, _ | err0⟩
    swap
    · simp [h0, reportedError, newGqlError]
    simp only [h0, Option.map_none', reportedError]
    rcases h1 : (env me.adapter).SourcesSql me.clauses.From with ⟨s1, _ | err1⟩
    swap
    · simp [h1, reportedError, newGqlError]
    simp only [h1, Option.map_none', reportedError]
    rcases h2 : (env me.adapter).DefaultValuesSql with ⟨s2, _ | err2⟩
    swap
    · simp [h2, reportedError, newGqlError]
    simp only [h2, Option.map_none', reportedError]
    rcases h3 : (env me.adapter).ReturningSql me.clauses.Returning with ⟨s3, _ | err3⟩
    swap
    · simp [h3, reportedError, newGqlError]
    simp only [h3, Option.map_none', reportedError]
  | some columns =>
    simp only [Dataset.insertSql, Dataset.insertFragments, ofAdapter]
    rcases h0 : (env me.adapter).InsertBeginSql with ⟨s0, _ | err0⟩
    swap
    · simp [h0, reportedError, newGqlError]
    simp only [h0, Option.map_none', reportedError]
    rcases h1 : (env me.adapter).SourcesSql me.clauses.From with ⟨s1, _ | err1⟩
    swap
    · simp [h1, reportedError, newGqlError]
    simp only [h1, Option.map_none', reportedError]
    rcases h2 : (env me.adapter).InsertColumnsSql (some columns) with ⟨s2, _ | err2⟩
    swap
    · simp [h2, reportedError, newGqlError]
    simp only [h2, Option.map_none', reportedError]
    rcases h3 : (env me.adapter).InsertValuesSql values with ⟨s3, _ | err3⟩
    swap
    · simp [h3, reportedError, newGqlError]
    simp only [h3, Option.map_none', reportedError]
    rcases h4 : (env me.adapter).ReturningSql me.clauses.Returning with ⟨s4, _ | err4⟩
    swap
    · simp [h4, reportedError, newGqlError]
    simp only [h4, Option.map_none', reportedError]

/-- The error of `insertFromSql` is the reported error of its fragments. -/
theorem insertFromSql_error (env : Env) (me other : Dataset) :
    (me.insertFromSql env other).2 = reportedError (me.insertFromFragments env other) := by
  simp only [Dataset.insertFromSql, Dataset.insertFromFragments, ofAdapter]
  rcases h0 : (env me.adapter).InsertBeginSql with ⟨s0, _ | err0⟩
  swap
  · simp [h0, reportedError, newGqlError]
  simp only [h0, Option.map_none', reportedError]
  rcases h1 : (env me.adapter).SourcesSql me.clauses.From with ⟨s1, _ | err1⟩
  swap
  · simp [h1, reportedError, newGqlError]
  simp only [h1, Option.map_none', reportedError]
  rcases h2 : other.Sql env with ⟨s2, _ | err2⟩
  swap
  · simp [h2, reportedError, newGqlError]
  simp only [h2, Option.map_none', reportedError]
  rcases h3 : (env me.adapter).ReturningSql me.clauses.Returning with ⟨s3, _ | err3⟩
  swap
  · simp [h3, reportedError, newGqlError]
  simp only [h3, Option.map_none', reportedError]

/-- The error of `updateSql` is the reported error of its fragments. -/
theorem updateSql_error (env : Env) (me : Dataset) (updates : List Expression) :
    (me.updateSql env updates).2 = reportedError (me.updateFragments env updates) := by
  simp only [Dataset.updateSql, Dataset.updateFragments, ofAdapter]
  rcases h0 : (env me.adapter).UpdateBeginSql with ⟨s0, _ | err0⟩
  swap
  · simp [h0, reportedError, newGqlError]
  simp only [h0, Option.map_none', reportedError]
  rcases h1 : (env me.adapter).SourcesSql me.clauses.From with ⟨s1, _ | err1⟩
  swap
  · simp [h1, reportedError, newGqlError]
  simp only [h1, Option.map_none', reportedError]
  rcases h2 : (env me.adapter).UpdateExpressionsSql updates with ⟨s2, _ | err2⟩
  swap
  · simp [h2, reportedError, newGqlError]
  simp only [h2, Option.map_none', reportedError]
  rcases h3 : (env me.adapter).WhereSql me.clauses.Where with ⟨s3, _ | err3⟩
  swap
  · simp [h3, reportedError, newGqlError]
  simp only [h3, Option.map_none', reportedError]
  rcases h4 : (env me.adapter).ReturningSql me.clauses.Returning with ⟨s4, _ | err4⟩
  swap
  · simp [h4, reportedError, newGqlError]
  simp only [h4, Option.map_none', reportedError]


/-- C5 (counterexample): when `HavingSql` fails with the error `boom`, that error is the one of
the earliest failing fragment of `Sql()`, yet `Sql()` does not return it: the claim, that the
assembler returns exactly the error value of the earliest failing fragment, is false. -/
theorem Sql_error_verbatim_counterexample :
    ¬ (∀ (env : Env) (me : Dataset) (e : GoError),
        earliestError (me.sqlFragments env) = some e → me.Sql env = ("", some e)) := by
  intro h
  have h1 := h havingFailsEnv sampleDataset (.foreign "boom") rfl
  have h2 := congrArg Prod.snd h1
  rw [Sql_error] at h2
  exact absurd h2 (by simp [Dataset.sqlFragments, Dataset.projectionSql, ofAdapter, reportedError,
    havingFailsEnv, sampleAdapter, sampleDataset, sampleClauses, newGqlError])

/-- `InsertSql` of rows that are neither none nor a single Dataset, on a Dataset with a source,
assembles through `insertSql` the columns and values of the rows. -/
theorem InsertSql_of_rows (env : Env) (me : Dataset) (hs : me.hasSources = true)
    (rows : List GoValue) (columns : Option ColumnList) (vals : List (List GoValue))
    (hne : rows ≠ []) (hnd : ∀ other, rows ≠ [.expr (.dataset other)])
    (hrows : me.getInsertColsAndVals rows = .ok (columns, vals, none)) :
    me.InsertSql env rows = .ok (me.insertSql env columns vals) := by
  rcases rows with _ | ⟨r, _ | ⟨r2, rest⟩⟩
  · exact absurd rfl hne
  · cases r with
    | expr e =>
      cases e with
      | dataset other => exact absurd rfl (hnd other)
      | _ => simp [Dataset.InsertSql, hs, hrows]
    | _ => simp [Dataset.InsertSql, hs, hrows]
  · simp [Dataset.InsertSql, hs, hrows]

/-- A result of `UpdateSql` on a Dataset with a source is one of `updateSql`, or the error for
an unsupported kind. -/
theorem UpdateSql_of_source (env : Env) (me : Dataset) (hs : me.hasSources = true)
    (update : GoValue) (r : SqlResult) (hr : me.UpdateSql env update = .ok r) :
    (∃ updates, r = me.updateSql env updates)
      ∨ (∃ t, r = ("", some (newGqlError (.lit "Unsupported update interface type %+v")
          [.type t]))) := by
  unfold Dataset.UpdateSql at hr
  simp only [hs, Bool.not_true, Bool.false_eq_true, ↓reduceIte] at hr
  split at hr
  · split at hr
    · cases hr
    · cases hr
      exact Or.inl ⟨_, rfl⟩
  · split at hr
    · split at hr
      · cases hr
      · cases hr
        exact Or.inl ⟨_, rfl⟩
    · split at hr
      · cases hr
      · cases hr
        exact Or.inr ⟨_, rfl⟩

/-- C5 (amended): when a fragment renderer of a statement assembler fails, the assembler
returns the empty string and the error reported for the earliest failing fragment: that
fragment's error `err` itself for the projection, `FromSql`, `JoinSql`, `WhereSql` and
`GroupBySql` in `Sql()`, for `DeleteBeginSql`, `FromSql` and `WhereSql` in `DeleteSql()`, for
`InsertBeginSql`, `ReturningSql` and the sub-select in `InsertSql`, and for every fragment of
`UpdateSql`; the new error `newGqlError(err.Error())` for `HavingSql`, `CompoundsSql`,
`OrderSql`, `LimitSql` and `OffsetSql` in `Sql()`, for `ReturningSql` in `DeleteSql()` and for
`SourcesSql`, `DefaultValuesSql`, `InsertColumnsSql` and `InsertValuesSql` in `InsertSql`.
`InsertSql` and `UpdateSql` on a Dataset with a source assemble through `insertSql`,
`insertFromSql` and `updateSql`. -/
theorem assemblers_report_earliest_failure (env : Env) (me : Dataset) :
    (∀ e, reportedError (me.sqlFragments env) = some e → me.Sql env = ("", some e))
      ∧ (me.hasSources = true → ∀ e, reportedError (me.deleteFragments env) = some e →
          me.DeleteSql env = ("", some e))
      ∧ (∀ cols values e, reportedError (me.insertFragments env cols values) = some e →
          me.insertSql env cols values = ("", some e))
      ∧ (∀ other e, reportedError (me.insertFromFragments env other) = some e →
          me.insertFromSql env other = ("", some e))
      ∧ (∀ updates e, reportedError (me.updateFragments env updates) = some e →
          me.updateSql env updates = ("", some e))
      ∧ (me.hasSources = true → me.InsertSql env [] = .ok (me.insertSql env none []))
      ∧ (me.hasSources = true → ∀ other,
          me.InsertSql env [.expr (.dataset other)] = .ok (me.insertFromSql env other))
      ∧ (me.hasSources = true → ∀ rows columns vals, rows ≠ [] →
          (∀ other, rows ≠ [.expr (.dataset other)]) →
          me.getInsertColsAndVals rows = .ok (columns, vals, none) →
          me.InsertSql env rows = .ok (me.insertSql env columns vals))
      ∧ (me.hasSources = true → ∀ update r, me.UpdateSql env update = .ok r →
          (∃ updates, r = me.updateSql env updates)
            ∨ (∃ t, r = ("", some (newGqlError (.lit "Unsupported update interface type %+v")
                [.type t])))) := by
  refine ⟨Sql_reports env me, fun hs e => DeleteSql_reports env me e hs,
    insertSql_reports env me, insertFromSql_reports env me, updateSql_reports env me,
    ?_, ?_, ?_, ?_⟩
  · intro hs
    simp [Dataset.InsertSql, hs]
  · intro hs other
    simp [Dataset.InsertSql, hs]
  · intro hs rows columns vals hne hnd hrows
    exact InsertSql_of_rows env me hs rows columns vals hne hnd hrows
  · intro hs update r hr
    exact UpdateSql_of_source env me hs update r hr

/-- C5 (witness): with an adapter that fails in `HavingSql`, `Sql()` of the sample Dataset
returns the empty string and `newGqlError` of the text of that error. -/
theorem assemblers_report_earliest_failure_witness :
    sampleDataset.Sql havingFailsEnv
      = ("", some (newGqlError (.errorOf (.foreign "boom")) [])) :=
  (assemblers_report_earliest_failure havingFailsEnv sampleDataset).1 _ rfl


/-! ## The source check -/

/-- The reported error of fragments whose own errors are not `newGqlError` of a constant
message is not one either. -/
theorem reportedError_ne_constant (frags : List (SqlResult × Bool))
    (hf : ∀ f ∈ frags, ∀ err, f.1.2 = some err → ∀ msg, err ≠ .gql (.lit msg) [])
    (e : GoError) (h : reportedError frags = some e) (msg : String) :
    e ≠ .gql (.lit msg) [] := by
  induction frags with
  | nil => simp [reportedError] at h
  | cons f rest ih =>
    obtain ⟨⟨s, oe⟩, w⟩ := f
    cases oe with
    | none =>
      simp only [reportedError] at h
      exact ih (fun f hfm => hf f (List.mem_cons_of_mem _ hfm)) h
    | some err =>
      cases w with
      | false =>
        simp only [reportedError, Option.some.injEq] at h
        subst h
        exact hf _ (List.mem_cons_self _ _) err rfl msg
      | true =>
        simp only [reportedError, Option.some.injEq, newGqlError] at h
        subst h
        simp

/-- An error of an adapter is not `newGqlError` of a constant message. -/
theorem ofAdapter_ne_constant (r : AdapterResult) (err : GoError) (h : (ofAdapter r).2 = some err)
    (msg : String) : err ≠ .gql (.lit msg) [] := by
  obtain ⟨s, _ | t⟩ := r
  · simp [ofAdapter] at h
  · simp [ofAdapter] at h
    subst h
    simp

/-- An error of `Sql()` is not `newGqlError` of a constant message. -/
theorem Sql_ne_constant (env : Env) (me : Dataset) (e : GoError) (h : (me.Sql env).2 = some e)
    (msg : String) : e ≠ .gql (.lit msg) [] := by
  rw [Sql_error] at h
  refine reportedError_ne_constant _ ?_ e h msg
  intro f hf err herr
  simp only [Dataset.sqlFragments, List.mem_cons, List.mem_singleton, List.not_mem_nil,
    or_false] at hf
  rcases hf with rfl | rfl | rfl | rfl | rfl | rfl | rfl | rfl | rfl | rfl <;>
    exact ofAdapter_ne_constant _ err herr

/-- An error of `DeleteSql()` on a Dataset with a source is not `newGqlError` of a constant
message. -/
theorem DeleteSql_ne_constant (env : Env) (me : Dataset) (hs : me.hasSources = true)
    (e : GoError) (h : (me.DeleteSql env).2 = some e) (msg : String) :
    e ≠ .gql (.lit msg) [] := by
  rw [DeleteSql_error env me hs] at h
  refine reportedError_ne_constant _ ?_ e h msg
  intro f hf err herr
  simp only [Dataset.deleteFragments, List.mem_cons, List.mem_singleton, List.not_mem_nil,
    or_false] at hf
  rcases hf with rfl | rfl | rfl | rfl <;> exact ofAdapter_ne_constant _ err herr

/-- An error of `insertSql` is not `newGqlError` of a constant message. -/
theorem insertSql_ne_constant (env : Env) (me : Dataset) (cols : Option ColumnList)
    (values : List (List GoValue)) (e : GoError) (h : (me.insertSql env cols values).2 = some e)
    (msg : String) : e ≠ .gql (.lit msg) [] := by
  rw [insertSql_error] at h
  refine reportedError_ne_constant _ ?_ e h msg
  intro f hf err herr
  cases cols with
  | none =>
    simp only [Dataset.insertFragments, List.mem_cons, List.mem_singleton, List.not_mem_nil,
      or_false] at hf
    rcases hf with rfl | rfl | rfl | rfl <;> exact ofAdapter_ne_constant _ err herr
  | some columns =>
    simp only [Dataset.insertFragments, List.mem_cons, List.mem_singleton, List.not_mem_nil,
      or_false] at hf
    rcases hf with rfl | rfl | rfl | rfl | rfl <;> exact ofAdapter_ne_constant _ err herr

/-- An error of `insertFromSql` is not `newGqlError` of a constant message. -/
theorem insertFromSql_ne_constant (env : Env) (me other : Dataset) (e : GoError)
    (h : (me.insertFromSql env other).2 = some e) (msg : String) :
    e ≠ .gql (.lit msg) [] := by
  rw [insertFromSql_error] at h
  refine reportedError_ne_constant _ ?_ e h msg
  intro f hf err herr
  simp only [Dataset.insertFromFragments, List.mem_cons, List.mem_singleton, List.not_mem_nil,
    or_false] at hf
  rcases hf with rfl | rfl | rfl | rfl
  · exact ofAdapter_ne_constant _ err herr
  · exact ofAdapter_ne_constant _ err herr
  · exact Sql_ne_constant env other err herr
  · exact ofAdapter_ne_constant _ err herr

/-- An error of `updateSql` is not `newGqlError` of a constant message. -/
theorem updateSql_ne_constant (env : Env) (me : Dataset) (updates : List Expression)
    (e : GoError) (h : (me.updateSql env updates).2 = some e) (msg : String) :
    e ≠ .gql (.lit msg) [] := by
  rw [updateSql_error] at h
  refine reportedError_ne_constant _ ?_ e h msg
  intro f hf err herr
  simp only [Dataset.updateFragments, List.mem_cons, List.mem_singleton, List.not_mem_nil,
    or_false] at hf
  rcases hf with rfl | rfl | rfl | rfl | rfl <;> exact ofAdapter_ne_constant _ err herr


/-- An error of the row loop of `getInsertColsAndVals` is not `newGqlError` of a constant
message: each of its errors has operands. -/
theorem insertRowsLoop_ne_constant (me : Dataset) (rowType : GoType) (rows : List GoValue) :
    ∀ (columns : Option ColumnList) (mapKeys : valueSlice) (vals : List (List GoValue))
      (c : Option ColumnList) (v : List (List GoValue)) (e : GoError),
      me.insertRowsLoop rowType rows columns mapKeys vals = .ok (c, v, some e) →
      ∀ msg, e ≠ .gql (.lit msg) [] := by
  induction rows with
  | nil =>
    intro columns mapKeys vals c v e h
    simp [Dataset.insertRowsLoop] at h
  | cons row rest ih =>
    intro columns mapKeys vals c v e h msg
    simp only [Dataset.insertRowsLoop] at h
    repeat' (split at h)
    all_goals
      first
      | exact ih _ _ _ _ _ _ h msg
      | (cases h; simp [newGqlError])
      | cases h


/-- `hasSources` is false when the from-clause is unset or has no column. -/
theorem hasSources_false (me : Dataset)
    (h : me.clauses.From = none ∨ me.clauses.From = some []) : me.hasSources = false := by
  rcases h with h | h <;> simp [Dataset.hasSources, h]

/-- `hasSources` is true when the from-clause has a column. -/
theorem hasSources_true (me : Dataset) (h : ∃ c cs, me.clauses.From = some (c :: cs)) :
    me.hasSources = true := by
  obtain ⟨c, cs, h⟩ := h
  simp [Dataset.hasSources, h]

/-- An error of `InsertSql` on a Dataset with a source is not `newGqlError` of a constant
message. -/
theorem InsertSql_ne_constant (env : Env) (me : Dataset) (hs : me.hasSources = true)
    (rows : List GoValue) (s : String) (e : GoError)
    (h : me.InsertSql env rows = .ok (s, some e)) (msg : String) : e ≠ .gql (.lit msg) [] := by
  unfold Dataset.InsertSql at h
  simp only [hs, Bool.not_true, Bool.false_eq_true, ↓reduceIte] at h
  split at h
  · simp only [Except.ok.injEq] at h
    exact insertSql_ne_constant env me none [] e (by rw [h]) msg
  · simp only [Except.ok.injEq] at h
    exact insertFromSql_ne_constant env me _ e (by rw [h]) msg
  · split at h
    · cases h
    · rename_i heq
      simp only [Except.ok.injEq, Prod.mk.injEq, Option.some.injEq] at h
      obtain ⟨-, rfl⟩ := h
      unfold Dataset.getInsertColsAndVals at heq
      split at heq
      · cases heq
      · split at heq
        · cases heq
        · exact insertRowsLoop_ne_constant me _ _ _ _ _ _ _ _ heq msg
    · simp only [Except.ok.injEq] at h
      exact insertSql_ne_constant env me _ _ e (by rw [h]) msg

/-- An error of `UpdateSql` on a Dataset with a source is not `newGqlError` of a constant
message. -/
theorem UpdateSql_ne_constant (env : Env) (me : Dataset) (hs : me.hasSources = true)
    (update : GoValue) (s : String) (e : GoError)
    (h : me.UpdateSql env update = .ok (s, some e)) (msg : String) : e ≠ .gql (.lit msg) [] := by
  obtain ⟨updates, hr⟩ | ⟨t, hr⟩ := UpdateSql_of_source env me hs update _ h
  · exact updateSql_ne_constant env me updates e (by rw [← hr]) msg
  · simp only [Prod.mk.injEq, Option.some.injEq] at hr
    rw [hr.2]
    simp [newGqlError]

/-- C6: on a Dataset whose from-clause is unset or has no column, `InsertSql`, `UpdateSql`,
`DeleteSql`, `TruncateSql` and `TruncateWithOptsSql` return the empty string and their "No
source found" error, for every argument and every adapter; on a Dataset whose from-clause has a
column none of them returns such an error (nor any `newGqlError` of a constant message). -/
theorem no_source_error_iff_no_source (env : Env) (me : Dataset) :
    ((me.clauses.From = none ∨ me.clauses.From = some []) →
        (∀ rows, me.InsertSql env rows
          = .ok ("", some (newGqlError (.lit "No source found when generating insert sql") [])))
        ∧ (∀ update, me.UpdateSql env update
          = .ok ("", some (newGqlError (.lit "No source found when generating update sql") [])))
        ∧ me.DeleteSql env
          = ("", some (newGqlError (.lit "No source found when generating delete sql") []))
        ∧ me.TruncateSql env
          = ("", some (newGqlError (.lit "No source found when generating truncate sql") []))
        ∧ (∀ opts, me.TruncateWithOptsSql env opts
          = ("", some (newGqlError (.lit "No source found when generating truncate sql") []))))
      ∧ ((∃ c cs, me.clauses.From = some (c :: cs)) → ∀ msg s,
        (∀ rows, me.InsertSql env rows ≠ .ok (s, some (newGqlError (.lit msg) [])))
        ∧ (∀ update, me.UpdateSql env update ≠ .ok (s, some (newGqlError (.lit msg) [])))
        ∧ me.DeleteSql env ≠ (s, some (newGqlError (.lit msg) []))
        ∧ me.TruncateSql env ≠ (s, some (newGqlError (.lit msg) []))
        ∧ (∀ opts, me.TruncateWithOptsSql env opts ≠ (s, some (newGqlError (.lit msg) [])))) := by
  constructor
  · intro h
    have hs := hasSources_false me h
    refine ⟨fun rows => ?_, fun update => ?_, ?_, ?_, fun opts => ?_⟩ <;>
      simp [Dataset.InsertSql, Dataset.UpdateSql, Dataset.DeleteSql, Dataset.TruncateSql,
        Dataset.TruncateWithOptsSql, hs]
  · intro h msg s
    have hs := hasSources_true me h
    have htr : ∀ opts, me.TruncateWithOptsSql env opts ≠ (s, some (newGqlError (.lit msg) [])) := by
      intro opts heq
      have h2 := congrArg Prod.snd heq
      simp only [Dataset.TruncateWithOptsSql, hs, Bool.not_true, Bool.false_eq_true,
        ↓reduceIte] at h2
      exact ofAdapter_ne_constant _ _ h2 msg rfl
    refine ⟨fun rows heq => ?_, fun update heq => ?_, fun heq => ?_, htr _, htr⟩
    · exact InsertSql_ne_constant env me hs rows s _ heq msg rfl
    · exact UpdateSql_ne_constant env me hs update s _ heq msg rfl
    · exact DeleteSql_ne_constant env me hs _ (congrArg Prod.snd heq) msg rfl

/-- C6 (witness): the sample Dataset without a source, with an adapter whose every operation
fails, and the sample Dataset with a source. -/
theorem no_source_error_iff_no_source_witness :
    noSourceDataset.DeleteSql failingEnv
        = ("", some (newGqlError (.lit "No source found when generating delete sql") []))
      ∧ sampleDataset.DeleteSql failingEnv
        ≠ ("", some (newGqlError (.lit "No source found when generating delete sql") [])) :=
  ⟨((no_source_error_iff_no_source failingEnv noSourceDataset).1 (Or.inl rfl)).2.2.1,
    ((no_source_error_iff_no_source failingEnv sampleDataset).2 ⟨_, _, rfl⟩ _ _).2.2.1⟩


/-! ## Sorting -/

/-- The order `sortSort` sorts by is `≤` on strings. -/
theorem less_false_iff_le (a b : String) : valueSlice.Less b a = false ↔ a ≤ b := by
  simp only [valueSlice.Less, goStringLess, decide_eq_false_iff_not]
  rw [String.le_iff_toList_le]
  exact not_lt

/-- The call `sort.Sort` is the insertion sort by `≤`. -/
theorem sortSort_eq (data : List String) :
    sortSort data = data.insertionSort (fun a b => a ≤ b) := by
  unfold sortSort
  congr 1
  funext a b
  exact propext (less_false_iff_le a b)

/-- The call `sort.Sort` rearranges. -/
theorem sortSort_perm (data : List String) : (sortSort data).Perm data := by
  rw [sortSort_eq]
  exact List.perm_insertionSort _ _

/-- The call `sort.Sort` yields an ascending list. -/
theorem sortSort_sorted (data : List String) : (sortSort data).Sorted (fun a b => a ≤ b) := by
  rw [sortSort_eq]
  exact List.sorted_insertionSort _ _

/-- The call `sort.Sort` yields a strictly ascending list on distinct strings. -/
theorem sortSort_sorted_lt (data : List String) (h : data.Nodup) :
    (sortSort data).Sorted (fun a b => a < b) :=
  (sortSort_sorted data).lt_of_le ((sortSort_perm data).nodup_iff.2 h)

/-- The call `sort.Sort` does not depend on the order of its input. -/
theorem sortSort_of_perm (l₁ l₂ : List String) (h : l₁.Perm l₂) : sortSort l₁ = sortSort l₂ :=
  List.eq_of_perm_of_sorted ((sortSort_perm l₁).trans (h.trans (sortSort_perm l₂).symm))
    (sortSort_sorted l₁) (sortSort_sorted l₂)

/-- The loop of `Equal` over two slices of one length decides their equality. -/
theorem equalLoop_eq (me : List String) :
    ∀ other : List String, me.length = other.length →
      valueSlice.equalLoop me other = .ok (decide (other = me)) := by
  induction me with
  | nil =>
    intro other h
    cases other with
    | nil => simp [valueSlice.equalLoop]
    | cons o os => simp at h
  | cons key me ih =>
    intro other h
    cases other with
    | nil => simp at h
    | cons o os =>
      simp only [List.length_cons, add_left_inj] at h
      by_cases hk : o = key
      · subst hk
        simp [valueSlice.equalLoop, ih os h]
      · simp [valueSlice.equalLoop, hk]

/-- The method `Equal`, on slices of one length, decides whether the sorted other is `me`. -/
theorem Equal_eq (me other : valueSlice) (h : other.length = me.length) :
    valueSlice.Equal me other = .ok (decide (sortSort other = me)) := by
  unfold valueSlice.Equal
  exact equalLoop_eq me _ (by rw [(sortSort_perm other).length_eq, h])

/-! ## Row decomposition: map rows -/

/-- The values of a map row under keys it has. -/
theorem mapRowVals_eq (entries : List (String × GoValue)) (keys : List String)
    (h : ∀ k ∈ keys, k ∈ MapKeys entries) :
    mapRowVals entries keys = .ok (mapTuple keys entries) := by
  induction keys with
  | nil => rfl
  | cons k ks ih =>
    have hk : k ∈ MapKeys entries := h k (List.mem_cons_self _ _)
    have hsome : (entries.lookup k).isSome = true := by
      rw [List.lookup_isSome_iff]
      simp only [MapKeys, List.mem_map] at hk
      obtain ⟨p, hp, rfl⟩ := hk
      exact ⟨p, hp, by simp⟩
    obtain ⟨v, hv⟩ := Option.isSome_iff_exists.1 hsome
    have ih' := ih (fun k' hk' => h k' (List.mem_cons_of_mem _ hk'))
    simp [mapRowVals, MapIndexInterface, hv, ih', mapTuple, mapValue]


/-- One turn of the row loop on a map row, once the columns are set: the row is compared with
the keys of the first row and, when it passes, its tuple is appended. -/
theorem insertRowsLoop_map_step (me : Dataset) (typ : String) (row : GoValue)
    (rest : List GoValue) (entries : List (String × GoValue)) (C : ColumnList) (K : valueSlice)
    (vals : List (List GoValue)) (hrow : Indirect row = some (.map typ entries)) :
    me.insertRowsLoop (.map typ) (row :: rest) (some C) K vals =
      if sameKeys K entries then
        me.insertRowsLoop (.map typ) rest (some C) K (vals ++ [mapTuple K entries])
      else .ok (none, [], some (keyMismatchError K (MapKeys entries))) := by
  by_cases hlen : (MapKeys entries).length = K.length
  · by_cases hsort : sortSort (MapKeys entries) = K
    · have hmem : ∀ k ∈ K, k ∈ MapKeys entries := by
        intro k hk
        rw [← hsort] at hk
        exact (sortSort_perm _).mem_iff.1 hk
      simp [Dataset.insertRowsLoop, hrow, reflectType, typeOf, hlen, Equal_eq, hsort,
        mapRowVals_eq _ _ hmem, sameKeys]
    · simp [Dataset.insertRowsLoop, hrow, reflectType, typeOf, hlen, Equal_eq, hsort,
        sameKeys, keyMismatchError]
  · simp [Dataset.insertRowsLoop, hrow, reflectType, typeOf, hlen, sameKeys, keyMismatchError]

/-- The row loop on map rows of one type, once the columns are set: it fails with the error of
the first row whose keys differ, and yields one tuple per row when there is none. -/
theorem insertRowsLoop_maps (me : Dataset) (typ : String) (C : ColumnList) (K : valueSlice)
    (rows : List GoValue) (maps : List (List (String × GoValue)))
    (hrows : List.Forall₂ (fun row entries => Indirect row = some (.map typ entries)) rows maps) :
    ∀ vals, me.insertRowsLoop (.map typ) rows (some C) K vals =
      match maps.find? (fun entries => !sameKeys K entries) with
      | none => .ok (some C, vals ++ maps.map (mapTuple K), none)
      | some entries => .ok (none, [], some (keyMismatchError K (MapKeys entries))) := by
  induction hrows with
  | nil =>
    intro vals
    simp [Dataset.insertRowsLoop]
  | cons hrow _ ih =>
    intro vals
    rw [insertRowsLoop_map_step me typ _ _ _ C K vals hrow]
    rename_i row entries rest restMaps _
    by_cases hs : sameKeys K entries = true
    · simp [hs, ih, List.find?_cons]
    · simp [hs, List.find?_cons]

/-- The first turn of the row loop on a map row: it sets the columns to the sorted keys of the
row and appends the tuple of the row. -/
theorem insertRowsLoop_map_first (me : Dataset) (typ : String) (row : GoValue)
    (rest : List GoValue) (entries : List (String × GoValue))
    (hrow : Indirect row = some (.map typ entries)) :
    me.insertRowsLoop (.map typ) (row :: rest) none [] [] =
      me.insertRowsLoop (.map typ) rest
        (some (cols ((sortSort (MapKeys entries)).map GoValue.string)))
        (sortSort (MapKeys entries)) [mapTuple (sortSort (MapKeys entries)) entries] := by
  have hmem : ∀ k ∈ sortSort (MapKeys entries), k ∈ MapKeys entries :=
    fun k hk => (sortSort_perm _).mem_iff.1 hk
  have hlen : (MapKeys entries).length = (sortSort (MapKeys entries)).length :=
    (sortSort_perm _).length_eq.symm
  simp [Dataset.insertRowsLoop, hrow, reflectType, typeOf, Equal_eq, hlen.symm,
    mapRowVals_eq _ _ hmem]

/-- The method `getInsertColsAndVals` on map rows of one type: the columns are the sorted keys
of the first row; the call fails with the error of the first row whose keys differ from them,
and yields one tuple per row when there is none. -/
theorem getInsertColsAndVals_maps (me : Dataset) (typ : String) (row : GoValue)
    (rest : List GoValue) (entries : List (String × GoValue))
    (maps : List (List (String × GoValue)))
    (hrow : Indirect row = some (.map typ entries))
    (hrest : List.Forall₂ (fun row entries => Indirect row = some (.map typ entries)) rest maps) :
    me.getInsertColsAndVals (row :: rest) =
      match maps.find? (fun m => !sameKeys (sortSort (MapKeys entries)) m) with
      | none =>
        .ok (some (cols ((sortSort (MapKeys entries)).map GoValue.string)),
          (entries :: maps).map (mapTuple (sortSort (MapKeys entries))), none)
      | some m => .ok (none, [], some (keyMismatchError (sortSort (MapKeys entries)) (MapKeys m))) := by
  simp only [Dataset.getInsertColsAndVals, hrow, reflectType, typeOf]
  rw [insertRowsLoop_map_first me typ row rest entries hrow,
    insertRowsLoop_maps me typ _ _ rest maps hrest]
  cases maps.find? (fun m => !sameKeys (sortSort (MapKeys entries)) m) <;> simp


/-- In a map without repeated keys, the value found under a key is the one of its entry. -/
theorem lookup_of_mem (entries : List (String × GoValue)) (h : (MapKeys entries).Nodup)
    (k : String) (v : GoValue) (hm : (k, v) ∈ entries) : entries.lookup k = some v := by
  induction entries with
  | nil => simp at hm
  | cons p rest ih =>
    obtain ⟨k', v'⟩ := p
    simp only [MapKeys, List.map_cons, List.nodup_cons, List.mem_map, not_exists, not_and] at h
    rcases List.mem_cons.1 hm with heq | hrest
    · cases heq
      simp
    · have hne : k ≠ k' := by
        intro hkk
        exact h.1 (k, v) hrest hkk
      have hb : (k == k') = false := by simpa using hne
      rw [List.lookup_cons, hb]
      exact ih h.2 hrest

/-- A key of a map has an entry, whose value is the value of the map under the key. -/
theorem mem_mapValue (entries : List (String × GoValue)) (k : String)
    (hk : k ∈ MapKeys entries) : (k, mapValue entries k) ∈ entries := by
  induction entries with
  | nil => simp [MapKeys] at hk
  | cons p rest ih =>
    obtain ⟨k', v'⟩ := p
    by_cases hkk : k = k'
    · subst hkk
      simp [mapValue]
    · have hb : (k == k') = false := by simpa using hkk
      have hk' : k ∈ MapKeys rest := by
        simp only [MapKeys, List.map_cons, List.mem_cons] at hk
        rcases hk with h | h
        · exact absurd h hkk
        · exact h
      have := ih hk'
      simp only [mapValue, List.lookup_cons, hb] at this ⊢
      exact List.mem_cons_of_mem _ this

/-- The tuple of a map row holds, at each position, the value of the row under the key at that
position. -/
theorem mapTuple_forall₂ (keys : List String) (entries : List (String × GoValue))
    (h : ∀ k ∈ keys, k ∈ MapKeys entries) :
    List.Forall₂ (fun k v => (k, v) ∈ entries) keys (mapTuple keys entries) := by
  induction keys with
  | nil => exact List.Forall₂.nil
  | cons k ks ih =>
    exact List.Forall₂.cons (mem_mapValue entries k (h k (List.mem_cons_self _ _)))
      (ih (fun k' hk' => h k' (List.mem_cons_of_mem _ hk')))

/-- The value of a map under a key does not depend on the order of its entries. -/
theorem mapValue_of_perm (m₁ m₂ : List (String × GoValue)) (hp : m₁.Perm m₂)
    (hn : (MapKeys m₂).Nodup) (k : String) : mapValue m₁ k = mapValue m₂ k := by
  have hn1 : (MapKeys m₁).Nodup := ((hp.map Prod.fst).nodup_iff).2 hn
  by_cases hk : k ∈ MapKeys m₂
  · have h2 := mem_mapValue m₂ k hk
    have h1 : (k, mapValue m₂ k) ∈ m₁ := hp.mem_iff.2 h2
    simp only [mapValue, lookup_of_mem m₁ hn1 k _ h1, Option.getD_some]
  · have hk1 : k ∉ MapKeys m₁ := fun h => hk (((hp.map Prod.fst).mem_iff).1 h)
    have e1 : m₁.lookup k = none := by
      rw [List.lookup_eq_none_iff]
      intro p hp1
      have : p.1 ∈ MapKeys m₁ := List.mem_map_of_mem _ hp1
      have hne : k ≠ p.1 := fun h => hk1 (h ▸ this)
      simpa using hne
    have e2 : m₂.lookup k = none := by
      rw [List.lookup_eq_none_iff]
      intro p hp2
      have : p.1 ∈ MapKeys m₂ := List.mem_map_of_mem _ hp2
      have hne : k ≠ p.1 := fun h => hk (h ▸ this)
      simpa using hne
    simp [mapValue, e1, e2]

/-- A row passes the comparison of keys exactly when it has the keys of the first row. -/
theorem sameKeys_iff (keys : List String) (entries : List (String × GoValue))
    (hk : keys.Nodup) (hn : (MapKeys entries).Nodup) :
    sameKeys (sortSort keys) entries = true ↔ ∀ k, k ∈ MapKeys entries ↔ k ∈ keys := by
  constructor
  · intro h k
    simp only [sameKeys, Bool.and_eq_true, decide_eq_true_eq] at h
    have hp : (MapKeys entries).Perm keys :=
      (sortSort_perm _).symm.trans (h.2 ▸ sortSort_perm keys)
    exact hp.mem_iff
  · intro h
    have hp : (MapKeys entries).Perm keys := (List.perm_ext_iff_of_nodup hn hk).2 h
    simp only [sameKeys, Bool.and_eq_true, decide_eq_true_eq]
    exact ⟨hp.length_eq.trans (sortSort_perm keys).length_eq.symm, sortSort_of_perm _ _ hp⟩

/-- The first element of a list that satisfies a test, after a prefix that fails it. -/
theorem find?_after_failing {α : Type} (p : α → Bool) (pre : List α) (x : α) (post : List α)
    (hpre : ∀ y ∈ pre, p y = false) (hx : p x = true) :
    (pre ++ x :: post).find? p = some x := by
  induction pre with
  | nil => simp [List.find?_cons, hx]
  | cons y ys ih =>
    have hy : p y = false := hpre y (List.mem_cons_self _ _)
    simp only [List.cons_append, List.find?_cons, hy]
    exact ih (fun z hz => hpre z (List.mem_cons_of_mem _ hz))

/-- The method `String` of the sorted keys renders the key set. -/
theorem String_sortSort (keys : List String) :
    valueSlice.String (sortSort keys) = bracketedKeys keys := by
  unfold valueSlice.String bracketedKeys stringsJoin
  rw [sortSort_of_perm _ _ ((sortSort_perm keys).map _)]


/-- Each member of a list related member by member to another has its partner there. -/
theorem forall₂_perm_mem {α : Type} (l₁ l₂ : List (List α)) (h : List.Forall₂ List.Perm l₁ l₂)
    (x : List α) (hx : x ∈ l₁) : ∃ y ∈ l₂, x.Perm y := by
  induction h with
  | nil => simp at hx
  | cons hab _ ih =>
    rcases List.mem_cons.1 hx with rfl | hx'
    · exact ⟨_, List.mem_cons_self _ _, hab⟩
    · obtain ⟨y, hy, hp⟩ := ih hx'
      exact ⟨y, List.mem_cons_of_mem _ hy, hp⟩

/-- The tuples of map rows do not depend on the order of the entries of the rows. -/
theorem mapTuples_of_perm (K : List String) (ms₁ ms₂ : List (List (String × GoValue)))
    (hp : List.Forall₂ List.Perm ms₁ ms₂) (hn : ∀ m ∈ ms₂, (MapKeys m).Nodup) :
    ms₁.map (mapTuple K) = ms₂.map (mapTuple K) := by
  induction hp with
  | nil => rfl
  | cons h _ ih =>
    rename_i m₁ m₂ r₁ r₂ _
    have e : mapTuple K m₁ = mapTuple K m₂ := by
      unfold mapTuple
      exact List.map_congr_left
        (fun k _ => mapValue_of_perm m₁ m₂ h (hn m₂ (List.mem_cons_self _ _)) k)
    simp only [List.map_cons, e, ih (fun m hm => hn m (List.mem_cons_of_mem _ hm))]

/-- The method `getInsertColsAndVals` on map rows of one type that all have the keys of the
first row: the columns are the sorted keys, and there is one tuple per row. -/
theorem getInsertColsAndVals_maps_ok (me : Dataset) (typ : String) (row : GoValue)
    (rest : List GoValue) (entries : List (String × GoValue))
    (maps : List (List (String × GoValue)))
    (hrow : Indirect row = some (.map typ entries))
    (hrest : List.Forall₂ (fun row entries => Indirect row = some (.map typ entries)) rest maps)
    (hnodup : ∀ m ∈ entries :: maps, (MapKeys m).Nodup)
    (hsame : ∀ m ∈ maps, ∀ k, k ∈ MapKeys m ↔ k ∈ MapKeys entries) :
    me.getInsertColsAndVals (row :: rest) =
      .ok (some (cols ((sortSort (MapKeys entries)).map GoValue.string)),
        (entries :: maps).map (mapTuple (sortSort (MapKeys entries))), none) := by
  rw [getInsertColsAndVals_maps me typ row rest entries maps hrow hrest]
  have hnone : maps.find? (fun m => !sameKeys (sortSort (MapKeys entries)) m) = none := by
    rw [List.find?_eq_none]
    intro m hm
    have := (sameKeys_iff (MapKeys entries) m (hnodup _ (List.mem_cons_self _ _))
      (hnodup m (List.mem_cons_of_mem _ hm))).2 (hsame m hm)
    simp [this]
  rw [hnone]

/-- C7 (counterexample): two map rows with the same key set `a` whose map types differ;
row decomposition fails with the error for rows of different types. -/
theorem getInsertColsAndVals_mixed_types_counterexample :
    MapKeys [("a", GoValue.int .int 1)] = MapKeys [("a", GoValue.string "x")]
      ∧ sampleDataset.getInsertColsAndVals sampleMixedTypeRows
        = .ok (none, [], some (newGqlError
            (.lit "Rows must be all the same type expected %+v got %+v")
            [.type (.map "map[string]int"), .type (.map "map[string]string")])) :=
  ⟨rfl, rfl⟩

/-- C7 (amended): for map rows (or pointers to maps) of one map type with string keys that all
have the key set of the first row, `getInsertColsAndVals` succeeds; its columns are the keys in
strictly ascending order; it has one tuple per row, in row order, holding at each position the
row's value under the key at that position; and the result is the same for rows whose maps list
the same entries in another order. -/
theorem getInsertColsAndVals_sorted_keys (me : Dataset) (typ : String) (row : GoValue)
    (rest : List GoValue) (entries : List (String × GoValue))
    (maps : List (List (String × GoValue)))
    (hrow : Indirect row = some (.map typ entries))
    (hrest : List.Forall₂ (fun row entries => Indirect row = some (.map typ entries)) rest maps)
    (hnodup : ∀ m ∈ entries :: maps, (MapKeys m).Nodup)
    (hsame : ∀ m ∈ maps, ∀ k, k ∈ MapKeys m ↔ k ∈ MapKeys entries) :
    ∃ (keys : List String) (vals : List (List GoValue)),
      me.getInsertColsAndVals (row :: rest) = .ok (some (cols (keys.map GoValue.string)), vals, none)
        ∧ keys.Sorted (fun a b => a < b)
        ∧ (∀ k, k ∈ keys ↔ k ∈ MapKeys entries)
        ∧ List.Forall₂ (fun m tuple => List.Forall₂ (fun k v => (k, v) ∈ m) keys tuple)
            (entries :: maps) vals
        ∧ (∀ (row' : GoValue) (rest' : List GoValue) (entries' : List (String × GoValue))
            (maps' : List (List (String × GoValue))),
            Indirect row' = some (.map typ entries') →
            List.Forall₂ (fun row entries => Indirect row = some (.map typ entries)) rest' maps' →
            entries'.Perm entries → List.Forall₂ List.Perm maps' maps →
            me.getInsertColsAndVals (row' :: rest') = me.getInsertColsAndVals (row :: rest)) := by
  have hn0 : (MapKeys entries).Nodup := hnodup _ (List.mem_cons_self _ _)
  have hmemK : ∀ k, k ∈ sortSort (MapKeys entries) ↔ k ∈ MapKeys entries :=
    fun k => (sortSort_perm _).mem_iff
  refine ⟨sortSort (MapKeys entries), (entries :: maps).map (mapTuple (sortSort (MapKeys entries))),
    getInsertColsAndVals_maps_ok me typ row rest entries maps hrow hrest hnodup hsame,
    sortSort_sorted_lt _ hn0, hmemK, ?_, ?_⟩
  · rw [List.forall₂_map_right_iff]
    refine List.forall₂_same.2 ?_
    intro m hm
    apply mapTuple_forall₂
    intro k hk
    rcases List.mem_cons.1 hm with rfl | hm'
    · exact (hmemK k).1 hk
    · exact (hsame m hm' k).2 ((hmemK k).1 hk)
  · intro row' rest' entries' maps' hrow' hrest' hp hps
    have hkp : (MapKeys entries').Perm (MapKeys entries) := hp.map Prod.fst
    have hnodup' : ∀ m ∈ entries' :: maps', (MapKeys m).Nodup := by
      intro m hm
      rcases List.mem_cons.1 hm with rfl | hm'
      · exact hkp.nodup_iff.2 hn0
      · obtain ⟨m2, hm2, hpm⟩ := forall₂_perm_mem maps' maps hps m hm'
        exact ((hpm.map Prod.fst).nodup_iff).2 (hnodup m2 (List.mem_cons_of_mem _ hm2))
    have hsame' : ∀ m ∈ maps', ∀ k, k ∈ MapKeys m ↔ k ∈ MapKeys entries' := by
      intro m hm k
      obtain ⟨m2, hm2, hpm⟩ := forall₂_perm_mem maps' maps hps m hm
      have h1 : k ∈ MapKeys m ↔ k ∈ MapKeys m2 := (hpm.map Prod.fst).mem_iff
      have h2 : k ∈ MapKeys entries' ↔ k ∈ MapKeys entries := hkp.mem_iff
      rw [h1, h2]
      exact hsame m2 hm2 k
    rw [getInsertColsAndVals_maps_ok me typ row' rest' entries' maps' hrow' hrest' hnodup' hsame',
      getInsertColsAndVals_maps_ok me typ row rest entries maps hrow hrest hnodup hsame,
      sortSort_of_perm _ _ hkp]
    have := mapTuples_of_perm (sortSort (MapKeys entries)) (entries' :: maps') (entries :: maps)
      (List.Forall₂.cons hp hps) hnodup
    rw [this]


/-- C7 (witness): the rows `{"b":2,"a":1}` and `{"a":3,"b":4}` give the columns `(a, b)` and
the tuples `(1, 2)`, `(3, 4)`. -/
theorem getInsertColsAndVals_sorted_keys_witness :
    sampleDataset.getInsertColsAndVals sampleMapRows
        = .ok (some [.string "a", .string "b"],
            [[.int .int 1, .int .int 2], [.int .int 3, .int .int 4]], none)
      ∧ ∃ (keys : List String) (vals : List (List GoValue)),
          sampleDataset.getInsertColsAndVals sampleMapRows
            = .ok (some (cols (keys.map GoValue.string)), vals, none)
          ∧ keys.Sorted (fun a b => a < b) := by
  refine ⟨rfl, ?_⟩
  obtain ⟨keys, vals, h1, h2, -⟩ :=
    getInsertColsAndVals_sorted_keys sampleDataset "map[string]interface {}"
      (.map "map[string]interface {}" [("b", .int .int 2), ("a", .int .int 1)])
      [.map "map[string]interface {}" [("a", .int .int 3), ("b", .int .int 4)]]
      [("b", .int .int 2), ("a", .int .int 1)] [[("a", .int .int 3), ("b", .int .int 4)]]
      rfl (List.Forall₂.cons rfl List.Forall₂.nil)
      (by
        intro m hm
        simp only [List.mem_cons, List.mem_singleton, List.not_mem_nil, or_false] at hm
        rcases hm with rfl | rfl <;> simp [MapKeys])
      (by
        intro m hm k
        simp only [List.mem_singleton] at hm
        subst hm
        simp [MapKeys, or_comm])
  exact ⟨keys, vals, h1, h2⟩

/-! ## Row decomposition: rows with other keys -/

/-- C8: for map rows (or pointers to maps) of one map type with string keys,
`getInsertColsAndVals` returns, and its error is set if and only if some row has a key set
other than that of the first row, that is, another count of keys or another sorted sequence of
keys. -/
theorem getInsertColsAndVals_fails_iff (me : Dataset) (typ : String) (row : GoValue)
    (rest : List GoValue) (entries : List (String × GoValue))
    (maps : List (List (String × GoValue)))
    (hrow : Indirect row = some (.map typ entries))
    (hrest : List.Forall₂ (fun row entries => Indirect row = some (.map typ entries)) rest maps)
    (hnodup : ∀ m ∈ entries :: maps, (MapKeys m).Nodup) :
    ∃ (c : Option ColumnList) (v : List (List GoValue)) (err : Option GoError),
      me.getInsertColsAndVals (row :: rest) = .ok (c, v, err)
        ∧ (err.isSome = true ↔ ∃ m ∈ maps, ¬ (∀ k, k ∈ MapKeys m ↔ k ∈ MapKeys entries))
        ∧ (err.isSome = true ↔ ∃ m ∈ maps,
            (MapKeys m).length ≠ (MapKeys entries).length
              ∨ sortSort (MapKeys m) ≠ sortSort (MapKeys entries)) := by
  have hn0 : (MapKeys entries).Nodup := hnodup _ (List.mem_cons_self _ _)
  have hiff : ∀ m ∈ maps, (sameKeys (sortSort (MapKeys entries)) m = true
      ↔ ∀ k, k ∈ MapKeys m ↔ k ∈ MapKeys entries) :=
    fun m hm => sameKeys_iff (MapKeys entries) m hn0 (hnodup m (List.mem_cons_of_mem _ hm))
  have hiff2 : ∀ m, (sameKeys (sortSort (MapKeys entries)) m = true
      ↔ ¬ ((MapKeys m).length ≠ (MapKeys entries).length
          ∨ sortSort (MapKeys m) ≠ sortSort (MapKeys entries))) := by
    intro m
    simp only [sameKeys, Bool.and_eq_true, decide_eq_true_eq, (sortSort_perm (MapKeys entries)).length_eq]
    tauto
  rw [getInsertColsAndVals_maps me typ row rest entries maps hrow hrest]
  cases hfind : maps.find? (fun m => !sameKeys (sortSort (MapKeys entries)) m) with
  | none =>
    rw [List.find?_eq_none] at hfind
    refine ⟨_, _, none, rfl, ?_, ?_⟩
    · simp only [Option.isSome_none, Bool.false_eq_true, false_iff, not_exists, not_and, not_not]
      intro m hm
      exact (hiff m hm).1 (by simpa using hfind m hm)
    · simp only [Option.isSome_none, Bool.false_eq_true, false_iff, not_exists, not_and]
      intro m hm
      exact (hiff2 m).1 (by simpa using hfind m hm)
  | some m =>
    have hmem : m ∈ maps := List.mem_of_find?_eq_some hfind
    have hnot : sameKeys (sortSort (MapKeys entries)) m ≠ true := by
      have := List.find?_some hfind
      simpa using this
    refine ⟨_, _, some _, rfl, ?_, ?_⟩
    · simp only [Option.isSome_some, true_iff]
      exact ⟨m, hmem, fun h => hnot ((hiff m hmem).2 h)⟩
    · simp only [Option.isSome_some, true_iff]
      exact ⟨m, hmem, by
        by_contra hcon
        exact hnot ((hiff2 m).2 hcon)⟩

/-- C8 (witness): of two rows with the keys `a`, `b` the second lacks `b`, and the call fails;
of two rows with the same keys it does not. -/
theorem getInsertColsAndVals_fails_iff_witness :
    (∃ (c : Option ColumnList) (v : List (List GoValue)) (err : Option GoError),
      sampleDataset.getInsertColsAndVals sampleMismatchedRows = .ok (c, v, err)
        ∧ err.isSome = true)
      ∧ (∃ (c : Option ColumnList) (v : List (List GoValue)) (err : Option GoError),
      sampleDataset.getInsertColsAndVals sampleMapRows = .ok (c, v, err)
        ∧ err.isSome = false) := by
  constructor
  · obtain ⟨c, v, err, h, hiff, -⟩ :=
      getInsertColsAndVals_fails_iff sampleDataset "map[string]interface {}"
        (.map "map[string]interface {}" [("a", .int .int 1), ("b", .int .int 2)])
        [.map "map[string]interface {}" [("a", .int .int 3)]]
        [("a", .int .int 1), ("b", .int .int 2)] [[("a", .int .int 3)]]
        rfl (List.Forall₂.cons rfl List.Forall₂.nil)
        (by
          intro m hm
          simp only [List.mem_cons, List.mem_singleton, List.not_mem_nil, or_false] at hm
          rcases hm with rfl | rfl <;> simp [MapKeys])
    refine ⟨c, v, err, h, hiff.2 ⟨_, List.mem_singleton_self _, ?_⟩⟩
    intro hall
    have := (hall "b").2 (by simp [MapKeys])
    simp [MapKeys] at this
  · obtain ⟨c, v, err, h, hiff, -⟩ :=
      getInsertColsAndVals_fails_iff sampleDataset "map[string]interface {}"
        (.map "map[string]interface {}" [("b", .int .int 2), ("a", .int .int 1)])
        [.map "map[string]interface {}" [("a", .int .int 3), ("b", .int .int 4)]]
        [("b", .int .int 2), ("a", .int .int 1)] [[("a", .int .int 3), ("b", .int .int 4)]]
        rfl (List.Forall₂.cons rfl List.Forall₂.nil)
        (by
          intro m hm
          simp only [List.mem_cons, List.mem_singleton, List.not_mem_nil, or_false] at hm
          rcases hm with rfl | rfl <;> simp [MapKeys])
    refine ⟨c, v, err, h, ?_⟩
    cases herr : err.isSome with
    | false => rfl
    | true =>
      obtain ⟨m, hm, hne⟩ := hiff.1 herr
      simp only [List.mem_singleton] at hm
      subst hm
      exact absurd (fun k => by simp [MapKeys, or_comm]) hne


/-- C9 (counterexample): inserting `{"a":1,"b":2}` and `{"a":3}` fails with the error for rows
of different lengths, whose operands are the counts 2 and 1; it names neither the key set
`["a","b"]` nor the key set `["a"]`. -/
theorem InsertSql_key_count_counterexample :
    sampleDataset.InsertSql sampleEnv sampleMismatchedRows
        = .ok ("", some (newGqlError (.lit "Rows with different value length expected %d got %d")
            [.num 2, .num 1]))
      ∧ bracketedKeys ["a", "b"] = "[\"a\",\"b\"]" ∧ bracketedKeys ["a"] = "[\"a\"]" :=
  ⟨rfl, rfl, rfl⟩

/-- C9 (amended): when `InsertSql`, on a Dataset with a source, meets a map row whose key set
differs from that of the first row (the rows before it having that key set), it fails: with
the error naming the expected and the actual number of keys when the row has another number of
keys, and otherwise with the error naming the expected and the actual key set, each rendered
as a bracketed, comma-separated list of the double-quoted keys in sorted order. -/
theorem InsertSql_key_mismatch_error (env : Env) (me : Dataset) (typ : String) (row : GoValue)
    (rest : List GoValue) (entries : List (String × GoValue))
    (pre : List (List (String × GoValue))) (m : List (String × GoValue))
    (post : List (List (String × GoValue)))
    (hs : me.hasSources = true)
    (hrow : Indirect row = some (.map typ entries))
    (hrest : List.Forall₂ (fun row entries => Indirect row = some (.map typ entries)) rest
      (pre ++ m :: post))
    (hnodup : ∀ x ∈ entries :: (pre ++ m :: post), (MapKeys x).Nodup)
    (hpre : ∀ x ∈ pre, ∀ k, k ∈ MapKeys x ↔ k ∈ MapKeys entries)
    (hm : ¬ ∀ k, k ∈ MapKeys m ↔ k ∈ MapKeys entries) :
    ((MapKeys m).length ≠ (MapKeys entries).length →
        me.InsertSql env (row :: rest)
          = .ok ("", some (newGqlError (.lit "Rows with different value length expected %d got %d")
              [.num (MapKeys entries).length, .num (MapKeys m).length])))
      ∧ ((MapKeys m).length = (MapKeys entries).length →
        me.InsertSql env (row :: rest)
          = .ok ("", some (newGqlError (.lit "Rows with different keys expected %s got %s")
              [.str (bracketedKeys (MapKeys entries)), .str (bracketedKeys (MapKeys m))]))) := by
  have hn0 : (MapKeys entries).Nodup := hnodup _ (List.mem_cons_self _ _)
  have hfind : (pre ++ m :: post).find? (fun x => !sameKeys (sortSort (MapKeys entries)) x)
      = some m := by
    apply find?_after_failing
    · intro y hy
      have := (sameKeys_iff (MapKeys entries) y hn0
        (hnodup y (List.mem_cons_of_mem _ (List.mem_append_left _ hy)))).2 (hpre y hy)
      simp [this]
    · have hnm : (MapKeys m).Nodup :=
        hnodup m (List.mem_cons_of_mem _ (List.mem_append_right _ (List.mem_cons_self _ _)))
      have : sameKeys (sortSort (MapKeys entries)) m ≠ true :=
        fun h => hm ((sameKeys_iff (MapKeys entries) m hn0 hnm).1 h)
      simpa using this
  have hres := getInsertColsAndVals_maps me typ row rest entries (pre ++ m :: post) hrow hrest
  rw [hfind] at hres
  have hins : me.InsertSql env (row :: rest)
      = .ok ("", some (keyMismatchError (sortSort (MapKeys entries)) (MapKeys m))) := by
    cases rest with
    | nil =>
      have := hrest.length_eq
      simp at this
      omega
    | cons r rs => simp [Dataset.InsertSql, hs, hres]
  have hlenK : (sortSort (MapKeys entries)).length = (MapKeys entries).length :=
    (sortSort_perm _).length_eq
  constructor
  · intro hlen
    rw [hins]
    simp [keyMismatchError, hlenK, hlen]
  · intro hlen
    rw [hins]
    unfold keyMismatchError
    simp only [hlenK, hlen, bne_self_eq_false, Bool.false_eq_true, ↓reduceIte]
    rw [String_sortSort, String_sortSort]

/-- C9 (witness): the rows `{"a":1,"b":2}` and `{"a":3,"c":4}` fail with the error naming the
key sets `["a","b"]` and `["a","c"]`. -/
theorem InsertSql_key_mismatch_error_witness :
    sampleDataset.InsertSql sampleEnv sampleRenamedRows
      = .ok ("", some (newGqlError (.lit "Rows with different keys expected %s got %s")
          [.str "[\"a\",\"b\"]", .str "[\"a\",\"c\"]"])) :=
  ((InsertSql_key_mismatch_error sampleEnv sampleDataset "map[string]interface {}"
      (.map "map[string]interface {}" [("a", .int .int 1), ("b", .int .int 2)])
      [.map "map[string]interface {}" [("a", .int .int 3), ("c", .int .int 4)]]
      [("a", .int .int 1), ("b", .int .int 2)] [] [("a", .int .int 3), ("c", .int .int 4)] []
      rfl rfl (List.Forall₂.cons rfl List.Forall₂.nil)
      (by
        intro x hx
        simp only [List.nil_append, List.mem_cons, List.mem_singleton, List.not_mem_nil,
          or_false] at hx
        rcases hx with rfl | rfl <;> simp [MapKeys])
      (by intro x hx; simp at hx)
      (by
        intro hall
        have := (hall "c").1 (by simp [MapKeys])
        simp [MapKeys] at this)).2 rfl).trans rfl


/-! ## Row decomposition: struct rows -/

/-- The method `canInsertField` accepts the insertable fields. -/
theorem canInsertField_eq (me : Dataset) (f : StructField) :
    me.canInsertField f = f.insertable := by
  rw [Bool.eq_iff_iff]
  simp only [Dataset.canInsertField, StructField.insertable, Bool.and_eq_true, Bool.not_eq_true',
    bne_iff_ne, ne_eq, decide_eq_true_eq, List.contains_eq_any_beq, List.any_eq_false, beq_iff_eq]
  constructor
  · rintro ⟨⟨h1, h2⟩, h3⟩
    exact ⟨h2, h3, fun hmem => h1 _ hmem rfl⟩
  · rintro ⟨h2, h3, h1⟩
    exact ⟨⟨fun x hx heq => h1 (heq ▸ hx), h2⟩, h3⟩

/-- The loop over the fields of a struct row whose insertable fields are exported: the `db`
tags and the values of the insertable fields. -/
theorem insertFieldsLoop_eq (me : Dataset) (fields : List (StructField × GoValue))
    (hexp : ∀ p ∈ fields, p.1.insertable = true → p.1.exported = true) :
    me.insertFieldsLoop fields = .ok (insertColumns (fields.map Prod.fst), insertTuple fields) := by
  induction fields with
  | nil => rfl
  | cons p rest ih =>
    obtain ⟨t, f⟩ := p
    have ih' := ih (fun q hq => hexp q (List.mem_cons_of_mem _ hq))
    by_cases hins : t.insertable = true
    · have hex : t.exported = true := hexp (t, f) (List.mem_cons_self _ _) hins
      simp [Dataset.insertFieldsLoop, canInsertField_eq, hins, fieldInterface, hex, ih',
        insertColumns, insertTuple]
    · simp [Dataset.insertFieldsLoop, canInsertField_eq, hins, ih', insertColumns, insertTuple]

/-- The row loop on struct rows of one type whose insertable fields are exported, once the
columns are set: one tuple per row. -/
theorem insertRowsLoop_structs (me : Dataset) (typ : String) (decls : List StructField)
    (C : ColumnList) (K : valueSlice) (rows : List GoValue)
    (structs : List (List (StructField × GoValue)))
    (hrows : List.Forall₂ (fun row fields => Indirect row = some (.struct typ fields)) rows structs)
    (htype : ∀ fields ∈ structs, fields.map Prod.fst = decls)
    (hexp : ∀ f ∈ decls, f.insertable = true → f.exported = true) :
    ∀ vals, me.insertRowsLoop (.struct typ decls) rows (some C) K vals =
      .ok (some C, vals ++ structs.map insertTuple, none) := by
  induction hrows with
  | nil =>
    intro vals
    simp [Dataset.insertRowsLoop]
  | cons hrow _ ih =>
    intro vals
    rename_i row fields rest restStructs _
    have hty : fields.map Prod.fst = decls := htype fields (List.mem_cons_self _ _)
    have hloop := insertFieldsLoop_eq me fields (fun p hp hi =>
      hexp p.1 (hty ▸ List.mem_map_of_mem _ hp) hi)
    have ih' := ih (fun fs hfs => htype fs (List.mem_cons_of_mem _ hfs))
    simp [Dataset.insertRowsLoop, hrow, reflectType, typeOf, hty, structFields, hloop, ih']

/-- C10 (counterexample): a struct row whose field with the `db` tag `id` is unexported; row
decomposition returns no columns: reading the field through `Interface()` panics. -/
theorem getInsertColsAndVals_unexported_counterexample :
    sampleDataset.getInsertColsAndVals [sampleUnexportedRow] = .error .unexportedField :=
  rfl

/-- C10 (amended): for struct rows (or pointers to structs) of one type whose insertable fields
are all exported, `getInsertColsAndVals` returns as columns the `db` tags of the fields whose
`db` tag is neither empty nor `-` and whose `gql` tag does not list `skipinsert`, in
declaration order, and for each row, in row order, the values of those fields in that order;
every tuple has as many entries as there are columns. -/
theorem getInsertColsAndVals_structs (me : Dataset) (typ : String) (decls : List StructField)
    (row : GoValue) (rest : List GoValue) (fields : List (StructField × GoValue))
    (structs : List (List (StructField × GoValue)))
    (hrow : Indirect row = some (.struct typ fields))
    (hrest : List.Forall₂ (fun row fields => Indirect row = some (.struct typ fields)) rest structs)
    (htype : ∀ fs ∈ fields :: structs, fs.map Prod.fst = decls)
    (hexp : ∀ f ∈ decls, f.insertable = true → f.exported = true) :
    me.getInsertColsAndVals (row :: rest)
        = .ok (some (cols (insertColumns decls)), (fields :: structs).map insertTuple, none)
      ∧ insertColumns decls
        = (decls.filter (fun f => decide (f.db ≠ "" ∧ f.db ≠ "-" ∧ "skipinsert" ∉ f.gql))).map
            (fun f => GoValue.string f.db)
      ∧ (∀ fs ∈ fields :: structs, insertTuple fs
        = (fs.filter (fun p => decide (p.1.db ≠ "" ∧ p.1.db ≠ "-" ∧ "skipinsert" ∉ p.1.gql))).map
            Prod.snd)
      ∧ (∀ fs ∈ fields :: structs, (insertTuple fs).length = (insertColumns decls).length) := by
  have hty : fields.map Prod.fst = decls := htype fields (List.mem_cons_self _ _)
  have hloop := insertFieldsLoop_eq me fields (fun p hp hi =>
    hexp p.1 (hty ▸ List.mem_map_of_mem _ hp) hi)
  have hrestLoop := insertRowsLoop_structs me typ decls (cols (insertColumns decls)) [] rest
    structs hrest (fun fs hfs => htype fs (List.mem_cons_of_mem _ hfs)) hexp
  refine ⟨?_, rfl, fun _ _ => rfl, ?_⟩
  · simp [Dataset.getInsertColsAndVals, Dataset.insertRowsLoop, hrow, reflectType, typeOf, hty,
      structFields, hloop, hrestLoop]
  · intro fs hfs
    have h := htype fs hfs
    subst h
    simp only [insertTuple, insertColumns, List.length_map, List.filter_map]
    rfl

/-- C10 (witness): two rows of the sample type `main.user` give the columns `(name, age)` and
the tuples `(ann, 30)`, `(bob, 40)`. -/
theorem getInsertColsAndVals_structs_witness :
    sampleDataset.getInsertColsAndVals sampleStructRows
      = .ok (some [.string "name", .string "age"],
          [[.string "ann", .int .int 30], [.string "bob", .int .int 40]], none) :=
  ((getInsertColsAndVals_structs sampleDataset "main.user" sampleUserFields
      (.struct "main.user" (sampleUser 1 "ann" 30))
      [.ptr (.struct "main.user" (sampleUser 2 "bob" 40))]
      (sampleUser 1 "ann" 30) [sampleUser 2 "bob" 40]
      rfl (List.Forall₂.cons rfl List.Forall₂.nil)
      (by
        intro fs hfs
        simp only [List.mem_cons, List.mem_singleton, List.not_mem_nil, or_false] at hfs
        rcases hfs with rfl | rfl <;> rfl)
      (by
        intro f hf hi
        simp only [sampleUserFields, List.mem_cons, List.mem_singleton, List.not_mem_nil,
          or_false] at hf
        rcases hf with rfl | rfl | rfl | rfl | rfl
        · rfl
        · rfl
        · rfl
        · rfl
        · exact absurd hi (by decide))).1).trans rfl


/-! ## Cloning -/

set_option maxHeartbeats 4000000 in
mutual
/-- A clone that is returned is the expression cloned. -/
theorem cloneExpression_ok : ∀ (e r : Expression), e.Clone = .ok r → r = e
  | .dataset d, r, h => by
    simp only [Expression.Clone] at h
    cases h1 : Dataset.copy d with
    | error p =>
      simp only [h1] at h
      cases h
    | ok x1 =>
      have e1 := Dataset.copy_ok d x1 h1
      subst e1
      simp only [h1] at h
      simp only [Except.ok.injEq] at h
      exact h.symm
  | .columnList columns, r, h => by
    simp only [Expression.Clone] at h
    cases h1 : cloneColumns columns with
    | error p =>
      simp only [h1] at h
      cases h
    | ok x1 =>
      have e1 := cloneColumns_ok columns x1 h1
      subst e1
      simp only [h1] at h
      simp only [Except.ok.injEq] at h
      exact h.symm
  | .expressionList l, r, h => by
    simp only [Expression.Clone] at h
    cases h1 : cloneExpressionList l with
    | error p =>
      simp only [h1] at h
      cases h
    | ok x1 =>
      have e1 := cloneExpressionList_ok l x1 h1
      subst e1
      simp only [h1] at h
      simp only [Except.ok.injEq] at h
      exact h.symm
  | .literal text args, r, h => by
    simp only [Expression.Clone] at h
    cases h1 : cloneColumns args with
    | error p =>
      simp only [h1] at h
      cases h
    | ok x1 =>
      have e1 := cloneColumns_ok args x1 h1
      subst e1
      simp only [h1] at h
      simp only [Except.ok.injEq] at h
      exact h.symm
  | .identifier name, r, h => by
    simp only [Expression.Clone, Except.ok.injEq] at h
    exact h.symm
  | .aliased e name, r, h => by
    simp only [Expression.Clone] at h
    cases h1 : Expression.Clone e with
    | error p =>
      simp only [h1] at h
      cases h
    | ok x1 =>
      have e1 := cloneExpression_ok e x1 h1
      subst e1
      simp only [h1] at h
      cases h2 : Expression.Clone name with
      | error p =>
        simp only [h2] at h
        cases h
      | ok x2 =>
        have e2 := cloneExpression_ok name x2 h2
        subst e2
        simp only [h2] at h
        simp only [Except.ok.injEq] at h
        exact h.symm
  | .boolean op lhs rhs, r, h => by
    simp only [Expression.Clone] at h
    cases h1 : Expression.Clone lhs with
    | error p =>
      simp only [h1] at h
      cases h
    | ok x1 =>
      have e1 := cloneExpression_ok lhs x1 h1
      subst e1
      simp only [h1] at h
      cases h2 : cloneValue rhs with
      | error p =>
        simp only [h2] at h
        cases h
      | ok x2 =>
        have e2 := cloneValue_ok rhs x2 h2
        subst e2
        simp only [h2] at h
        simp only [Except.ok.injEq] at h
        exact h.symm
  | .ordered e direction, r, h => by
    simp only [Expression.Clone] at h
    cases h1 : Expression.Clone e with
    | error p =>
      simp only [h1] at h
      cases h
    | ok x1 =>
      have e1 := cloneExpression_ok e x1 h1
      subst e1
      simp only [h1] at h
      simp only [Except.ok.injEq] at h
      exact h.symm
  | .update col val, r, h => by
    simp only [Expression.Clone] at h
    cases h1 : Expression.Clone col with
    | error p =>
      simp only [h1] at h
      cases h
    | ok x1 =>
      have e1 := cloneExpression_ok col x1 h1
      subst e1
      simp only [h1] at h
      cases h2 : cloneValue val with
      | error p =>
        simp only [h2] at h
        cases h
      | ok x2 =>
        have e2 := cloneValue_ok val x2 h2
        subst e2
        simp only [h2] at h
        simp only [Except.ok.injEq] at h
        exact h.symm
  | .sqlFunction name args, r, h => by
    simp only [Expression.Clone] at h
    cases h1 : cloneColumns args with
    | error p =>
      simp only [h1] at h
      cases h
    | ok x1 =>
      have e1 := cloneColumns_ok args x1 h1
      subst e1
      simp only [h1] at h
      simp only [Except.ok.injEq] at h
      exact h.symm
  | .cast e typ, r, h => by
    simp only [Expression.Clone] at h
    cases h1 : Expression.Clone e with
    | error p =>
      simp only [h1] at h
      cases h
    | ok x1 =>
      have e1 := cloneExpression_ok e x1 h1
      subst e1
      simp only [h1] at h
      simp only [Except.ok.injEq] at h
      exact h.symm
  | .compound t rhs, r, h => by
    simp only [Expression.Clone] at h
    cases h1 : Dataset.copy rhs with
    | error p =>
      simp only [h1] at h
      cases h
    | ok x1 =>
      have e1 := Dataset.copy_ok rhs x1 h1
      subst e1
      simp only [h1] at h
      simp only [Except.ok.injEq] at h
      exact h.symm
  | .unknown typ, r, h => by
    simp only [Expression.Clone, Except.ok.injEq] at h
    exact h.symm
/-- A clone of a value that is returned is the value. -/
theorem cloneValue_ok : ∀ (v r : GoValue), cloneValue v = .ok r → r = v
  | .expr e, r, h => by
    simp only [cloneValue] at h
    cases h1 : Expression.Clone e with
    | error p =>
      simp only [h1] at h
      cases h
    | ok x1 =>
      have e1 := cloneExpression_ok e x1 h1
      subst e1
      simp only [h1] at h
      simp only [Except.ok.injEq] at h
      exact h.symm
  | .nil, r, h => by
    simp only [cloneValue, Except.ok.injEq] at h
    exact h.symm
  | .int k n, r, h => by
    simp only [cloneValue, Except.ok.injEq] at h
    exact h.symm
  | .uint k n, r, h => by
    simp only [cloneValue, Except.ok.injEq] at h
    exact h.symm
  | .float k f, r, h => by
    simp only [cloneValue, Except.ok.injEq] at h
    exact h.symm
  | .string s, r, h => by
    simp only [cloneValue, Except.ok.injEq] at h
    exact h.symm
  | .bool b, r, h => by
    simp only [cloneValue, Except.ok.injEq] at h
    exact h.symm
  | .bytes b, r, h => by
    simp only [cloneValue, Except.ok.injEq] at h
    exact h.symm
  | .slice typ elems, r, h => by
    simp only [cloneValue, Except.ok.injEq] at h
    exact h.symm
  | .time t, r, h => by
    simp only [cloneValue, Except.ok.injEq] at h
    exact h.symm
  | .struct typ fields, r, h => by
    simp only [cloneValue, Except.ok.injEq] at h
    exact h.symm
  | .map typ entries, r, h => by
    simp only [cloneValue, Except.ok.injEq] at h
    exact h.symm
  | .ptr elem, r, h => by
    simp only [cloneValue, Except.ok.injEq] at h
    exact h.symm
  | .nilPtr elem, r, h => by
    simp only [cloneValue, Except.ok.injEq] at h
    exact h.symm
  | .valuer self dVal err, r, h => by
    simp only [cloneValue, Except.ok.injEq] at h
    exact h.symm
  | .other typ, r, h => by
    simp only [cloneValue, Except.ok.injEq] at h
    exact h.symm
/-- The clones of columns that are returned are the columns. -/
theorem cloneColumns_ok : ∀ (l r : List GoValue), cloneColumns l = .ok r → r = l
  | [], r, h => by
    simp only [cloneColumns, Except.ok.injEq] at h
    exact h.symm
  | c :: rest, r, h => by
    simp only [cloneColumns] at h
    cases h1 : cloneValue c with
    | error p =>
      simp only [h1] at h
      cases h
    | ok x1 =>
      have e1 := cloneValue_ok c x1 h1
      subst e1
      simp only [h1] at h
      cases h2 : cloneColumns rest with
      | error p =>
        simp only [h2] at h
        cases h
      | ok x2 =>
        have e2 := cloneColumns_ok rest x2 h2
        subst e2
        simp only [h2] at h
        simp only [Except.ok.injEq] at h
        exact h.symm
/-- The clones of expressions that are returned are the expressions. -/
theorem cloneExpressions_ok : ∀ (l r : List Expression), cloneExpressions l = .ok r → r = l
  | [], r, h => by
    simp only [cloneExpressions, Except.ok.injEq] at h
    exact h.symm
  | e :: rest, r, h => by
    simp only [cloneExpressions] at h
    cases h1 : Expression.Clone e with
    | error p =>
      simp only [h1] at h
      cases h
    | ok x1 =>
      have e1 := cloneExpression_ok e x1 h1
      subst e1
      simp only [h1] at h
      cases h2 : cloneExpressions rest with
      | error p =>
        simp only [h2] at h
        cases h
      | ok x2 =>
        have e2 := cloneExpressions_ok rest x2 h2
        subst e2
        simp only [h2] at h
        simp only [Except.ok.injEq] at h
        exact h.symm
/-- A clone of an expression list that is returned is the expression list. -/
theorem cloneExpressionList_ok :
    ∀ (l r : ExpressionListOf Expression), cloneExpressionList l = .ok r → r = l
  | ⟨operator, expressions⟩, r, h => by
    simp only [cloneExpressionList] at h
    cases h1 : cloneExpressions expressions with
    | error p =>
      simp only [h1] at h
      cases h
    | ok x1 =>
      have e1 := cloneExpressions_ok expressions x1 h1
      subst e1
      simp only [h1] at h
      simp only [Except.ok.injEq] at h
      exact h.symm
/-- A clone of a column list field that is returned is the field. -/
theorem cloneColumnsField_ok :
    ∀ (l r : Option (List GoValue)), cloneColumnsField l = .ok r → r = l
  | none, r, h => by
    simp only [cloneColumnsField, Except.ok.injEq] at h
    exact h.symm
  | some columns, r, h => by
    simp only [cloneColumnsField] at h
    cases h1 : cloneColumns columns with
    | error p =>
      simp only [h1] at h
      cases h
    | ok x1 =>
      have e1 := cloneColumns_ok columns x1 h1
      subst e1
      simp only [h1] at h
      simp only [Except.ok.injEq] at h
      exact h.symm
/-- A clone of an expression list field that is returned is the field. -/
theorem cloneExpressionListField_ok :
    ∀ (l r : Option (ExpressionListOf Expression)), cloneExpressionListField l = .ok r → r = l
  | none, r, h => by
    simp only [cloneExpressionListField, Except.ok.injEq] at h
    exact h.symm
  | some l, r, h => by
    simp only [cloneExpressionListField] at h
    cases h1 : cloneExpressionList l with
    | error p =>
      simp only [h1] at h
      cases h
    | ok x1 =>
      have e1 := cloneExpressionList_ok l x1 h1
      subst e1
      simp only [h1] at h
      simp only [Except.ok.injEq] at h
      exact h.symm
/-- A clone of the alias field that is returned is the field. -/
theorem cloneAliasField_ok : ∀ (l r : Option Expression), cloneAliasField l = .ok r → r = l
  | none, r, h => by
    simp only [cloneAliasField, Except.ok.injEq] at h
    exact h.symm
  | some e, r, h => by
    simp only [cloneAliasField] at h
    cases h1 : Expression.Clone e with
    | error p =>
      simp only [h1] at h
      cases h
    | ok x1 =>
      have e1 := cloneExpression_ok e x1 h1
      subst e1
      simp only [h1] at h
      simp only [Except.ok.injEq] at h
      exact h.symm
/-- An unguarded clone that is returned is the value cloned. -/
theorem cloneUnguarded_ok : ∀ (l r : Option Expression), cloneUnguarded l = .ok r → r = l
  | none, r, h => by simp [cloneUnguarded] at h
  | some e, r, h => by
    simp only [cloneUnguarded] at h
    cases h1 : Expression.Clone e with
    | error p =>
      simp only [h1] at h
      cases h
    | ok x1 =>
      have e1 := cloneExpression_ok e x1 h1
      subst e1
      simp only [h1] at h
      simp only [Except.ok.injEq] at h
      exact h.symm
/-- A clone of a join clause that is returned is the join clause. -/
theorem cloneJoiningClause_ok :
    ∀ (jc r : joiningClauseOf Expression), joiningClause.Clone jc = .ok r → r = jc
  | ⟨joinType, isConditioned, table, condition⟩, r, h => by
    simp only [joiningClause.Clone] at h
    cases h1 : cloneUnguarded table with
    | error p =>
      simp only [h1] at h
      cases h
    | ok x1 =>
      have e1 := cloneUnguarded_ok table x1 h1
      subst e1
      simp only [h1] at h
      cases h2 : cloneUnguarded condition with
      | error p =>
        simp only [h2] at h
        cases h
      | ok x2 =>
        have e2 := cloneUnguarded_ok condition x2 h2
        subst e2
        simp only [h2] at h
        simp only [Except.ok.injEq] at h
        exact h.symm
/-- The clones of join clauses that are returned are the join clauses. -/
theorem cloneJoiningClauses_ok :
    ∀ (l r : List (joiningClauseOf Expression)), joiningClauses.Clone l = .ok r → r = l
  | [], r, h => by
    simp only [joiningClauses.Clone, Except.ok.injEq] at h
    exact h.symm
  | jc :: rest, r, h => by
    simp only [joiningClauses.Clone] at h
    cases h1 : joiningClause.Clone jc with
    | error p =>
      simp only [h1] at h
      cases h
    | ok x1 =>
      have e1 := cloneJoiningClause_ok jc x1 h1
      subst e1
      simp only [h1] at h
      cases h2 : joiningClauses.Clone rest with
      | error p =>
        simp only [h2] at h
        cases h
      | ok x2 =>
        have e2 := cloneJoiningClauses_ok rest x2 h2
        subst e2
        simp only [h2] at h
        simp only [Except.ok.injEq] at h
        exact h.symm
/-- A clone of clauses that is returned is the clauses. -/
theorem cloneClauses_ok :
    ∀ (c r : clausesOf Expression GoValue), clauses.Clone c = .ok r → r = c
  | ⟨Select, SelectDistinct, From, Joins, Where, Alias, GroupBy, Having, Order, Limit, Offset,
      Returning, Compounds⟩, r, h => by
    simp only [clauses.Clone] at h
    cases h1 : joiningClauses.Clone Joins with
    | error p =>
      simp only [h1] at h
      cases h
    | ok x1 =>
      have e1 := cloneJoiningClauses_ok Joins x1 h1
      subst e1
      simp only [h1] at h
      cases h2 : cloneColumnsField Select with
      | error p =>
        simp only [h2] at h
        cases h
      | ok x2 =>
        have e2 := cloneColumnsField_ok Select x2 h2
        subst e2
        simp only [h2] at h
        cases h3 : cloneColumnsField SelectDistinct with
        | error p =>
          simp only [h3] at h
          cases h
        | ok x3 =>
          have e3 := cloneColumnsField_ok SelectDistinct x3 h3
          subst e3
          simp only [h3] at h
          cases h4 : cloneColumnsField From with
          | error p =>
            simp only [h4] at h
            cases h
          | ok x4 =>
            have e4 := cloneColumnsField_ok From x4 h4
            subst e4
            simp only [h4] at h
            cases h5 : cloneColumnsField Returning with
            | error p =>
              simp only [h5] at h
              cases h
            | ok x5 =>
              have e5 := cloneColumnsField_ok Returning x5 h5
              subst e5
              simp only [h5] at h
              cases h6 : cloneAliasField Alias with
              | error p =>
                simp only [h6] at h
                cases h
              | ok x6 =>
                have e6 := cloneAliasField_ok Alias x6 h6
                subst e6
                simp only [h6] at h
                cases h7 : cloneExpressionListField Where with
                | error p =>
                  simp only [h7] at h
                  cases h
                | ok x7 =>
                  have e7 := cloneExpressionListField_ok Where x7 h7
                  subst e7
                  simp only [h7] at h
                  cases h8 : cloneColumnsField GroupBy with
                  | error p =>
                    simp only [h8] at h
                    cases h
                  | ok x8 =>
                    have e8 := cloneColumnsField_ok GroupBy x8 h8
                    subst e8
                    simp only [h8] at h
                    cases h9 : cloneExpressionListField Having with
                    | error p =>
                      simp only [h9] at h
                      cases h
                    | ok x9 =>
                      have e9 := cloneExpressionListField_ok Having x9 h9
                      subst e9
                      simp only [h9] at h
                      cases h10 : cloneColumnsField Order with
                      | error p =>
                        simp only [h10] at h
                        cases h
                      | ok x10 =>
                        have e10 := cloneColumnsField_ok Order x10 h10
                        subst e10
                        simp only [h10] at h
                        cases h11 : cloneExpressions Compounds with
                        | error p =>
                          simp only [h11] at h
                          cases h
                        | ok x11 =>
                          have e11 := cloneExpressions_ok Compounds x11 h11
                          subst e11
                          simp only [h11] at h
                          simp only [Except.ok.injEq] at h
                          exact h.symm
/-- A copy of a Dataset that is returned is the Dataset. -/
theorem Dataset.copy_ok : ∀ (d r : Dataset), Dataset.copy d = .ok r → r = d
  | ⟨adapter, cl, database⟩, r, h => by
    simp only [Dataset.copy] at h
    cases h1 : clauses.Clone cl with
    | error p =>
      simp only [h1] at h
      cases h
    | ok x1 =>
      have e1 := cloneClauses_ok cl x1 h1
      subst e1
      simp only [h1] at h
      simp only [Except.ok.injEq] at h
      exact h.symm
end

/-! ## Updates -/

/-- The method `canUpdateField` accepts the updatable fields. -/
theorem canUpdateField_eq (me : Dataset) (f : StructField) :
    me.canUpdateField f = f.updatable := by
  rw [Bool.eq_iff_iff]
  simp only [Dataset.canUpdateField, StructField.updatable, Bool.and_eq_true, Bool.not_eq_true',
    bne_iff_ne, ne_eq, decide_eq_true_eq, List.contains_eq_any_beq, List.any_eq_false, beq_iff_eq]
  constructor
  · rintro ⟨⟨h1, h2⟩, h3⟩
    exact ⟨h2, h3, fun hmem => h1 _ hmem rfl⟩
  · rintro ⟨h2, h3, h1⟩
    exact ⟨⟨fun x hx heq => h1 (heq ▸ hx), h2⟩, h3⟩

/-- The loop over keys the map has: one update per key, in the order of the keys, setting the
identifier named by the key to the value of the map under the key. -/
theorem updateKeysLoop_eq (entries : List (String × GoValue)) (keys : List String)
    (h : ∀ k ∈ keys, k ∈ MapKeys entries) :
    updateKeysLoop entries keys = .ok (keys.map (fun k => (I k).Set (mapValue entries k))) := by
  induction keys with
  | nil => rfl
  | cons k ks ih =>
    have hk : k ∈ MapKeys entries := h k (List.mem_cons_self _ _)
    have hsome : (entries.lookup k).isSome = true := by
      rw [List.lookup_isSome_iff]
      simp only [MapKeys, List.mem_map] at hk
      obtain ⟨p, hp, rfl⟩ := hk
      exact ⟨p, hp, by simp⟩
    obtain ⟨v, hv⟩ := Option.isSome_iff_exists.1 hsome
    have ih' := ih (fun k' hk' => h k' (List.mem_cons_of_mem _ hk'))
    simp [updateKeysLoop, MapIndexInterface, hv, ih', mapValue]

/-- The loop over the fields of a struct whose updatable fields are exported: one update per
updatable field, in declaration order, setting the identifier named by the `db` tag to the
value of the field. -/
theorem updateFieldsLoop_eq (me : Dataset) (fields : List (StructField × GoValue))
    (hexp : ∀ p ∈ fields, p.1.updatable = true → p.1.exported = true) :
    me.updateFieldsLoop fields
      = .ok ((fields.filter (fun p => p.1.updatable)).map (fun p => (I p.1.db).Set p.2)) := by
  induction fields with
  | nil => rfl
  | cons p rest ih =>
    obtain ⟨t, f⟩ := p
    have ih' := ih (fun q hq => hexp q (List.mem_cons_of_mem _ hq))
    by_cases hupd : t.updatable = true
    · have hex : t.exported = true := hexp (t, f) (List.mem_cons_self _ _) hupd
      simp [Dataset.updateFieldsLoop, canUpdateField_eq, hupd, fieldInterface, hex, ih']
    · simp [Dataset.updateFieldsLoop, canUpdateField_eq, hupd, ih']

/-- When its five fragment renderers succeed, `updateSql` returns their texts concatenated. -/
theorem updateSql_is_concatenation (env : Env) (me : Dataset) (updates : List Expression)
    (h0 : (env me.adapter).UpdateBeginSql.2 = none)
    (h1 : ((env me.adapter).SourcesSql me.clauses.From).2 = none)
    (h2 : ((env me.adapter).UpdateExpressionsSql updates).2 = none)
    (h3 : ((env me.adapter).WhereSql me.clauses.Where).2 = none)
    (h4 : ((env me.adapter).ReturningSql me.clauses.Returning).2 = none) :
    me.updateSql env updates =
      ((env me.adapter).UpdateBeginSql.1
        ++ ((env me.adapter).SourcesSql me.clauses.From).1
        ++ ((env me.adapter).UpdateExpressionsSql updates).1
        ++ ((env me.adapter).WhereSql me.clauses.Where).1
        ++ ((env me.adapter).ReturningSql me.clauses.Returning).1, none) := by
  obtain ⟨s0, e0⟩ : ∃ s, (env me.adapter).UpdateBeginSql = (s, none) := ⟨_, Prod.ext rfl h0⟩
  obtain ⟨s1, e1⟩ : ∃ s, (env me.adapter).SourcesSql me.clauses.From = (s, none) :=
    ⟨_, Prod.ext rfl h1⟩
  obtain ⟨s2, e2⟩ : ∃ s, (env me.adapter).UpdateExpressionsSql updates = (s, none) :=
    ⟨_, Prod.ext rfl h2⟩
  obtain ⟨s3, e3⟩ : ∃ s, (env me.adapter).WhereSql me.clauses.Where = (s, none) :=
    ⟨_, Prod.ext rfl h3⟩
  obtain ⟨s4, e4⟩ : ∃ s, (env me.adapter).ReturningSql me.clauses.Returning = (s, none) :=
    ⟨_, Prod.ext rfl h4⟩
  simp only [Dataset.updateSql, e0, e1, e2, e3, e4]
  simp [stringsJoin, String.intercalate, String.intercalate.go]

/-- C11 (counterexample): a struct whose field with the `db` tag `id` is unexported; `UpdateSql`
passes no update expression to the adapter: reading the field through `Interface()` panics. -/
theorem UpdateSql_unexported_counterexample :
    sampleDataset.hasSources = true
      ∧ sampleDataset.UpdateSql sampleEnv sampleUnexportedRow = .error .unexportedField :=
  ⟨rfl, rfl⟩

/-- C11 (amended): on a Dataset with a source, `UpdateSql(u)` for a map `u` with string keys
(or a pointer to one) assembles through `updateSql` one update expression per key, the keys in
strictly ascending order, each setting the identifier named by the key to the value of `u`
under the key; `UpdateSql(u)` for a struct `u` (or a pointer to one) whose fields with a `db`
tag that is neither empty nor `-` and without `skipupdate` in the `gql` tag are all exported
assembles one update expression per such field, in declaration order, each setting the
identifier named by the `db` tag to the value of the field; and `updateSql`, when its fragment
renderers succeed, returns without error the concatenation of `UpdateBeginSql`, `SourcesSql`
of the from-clause, `UpdateExpressionsSql` of those expressions, `WhereSql` of the where-clause
and `ReturningSql` of the returning-clause. -/
theorem UpdateSql_passes_updates (env : Env) (me : Dataset) (hs : me.hasSources = true) :
    (∀ (update : GoValue) (typ : String) (entries : List (String × GoValue)),
      Indirect update = some (.map typ entries) → (MapKeys entries).Nodup →
      ∃ keys : List String,
        keys.Sorted (fun a b => a < b)
          ∧ (∀ k, k ∈ keys ↔ k ∈ MapKeys entries)
          ∧ (∀ k ∈ keys, (k, mapValue entries k) ∈ entries)
          ∧ me.UpdateSql env update
            = .ok (me.updateSql env (keys.map (fun k => (I k).Set (mapValue entries k)))))
    ∧ (∀ (update : GoValue) (typ : String) (fields : List (StructField × GoValue)),
      Indirect update = some (.struct typ fields) →
      (∀ p ∈ fields, p.1.db ≠ "" ∧ p.1.db ≠ "-" ∧ "skipupdate" ∉ p.1.gql → p.1.exported = true) →
      me.UpdateSql env update
        = .ok (me.updateSql env
            ((fields.filter
                (fun p => decide (p.1.db ≠ "" ∧ p.1.db ≠ "-" ∧ "skipupdate" ∉ p.1.gql))).map
              (fun p => (I p.1.db).Set p.2))))
    ∧ (∀ updates : List Expression,
      (env me.adapter).UpdateBeginSql.2 = none →
      ((env me.adapter).SourcesSql me.clauses.From).2 = none →
      ((env me.adapter).UpdateExpressionsSql updates).2 = none →
      ((env me.adapter).WhereSql me.clauses.Where).2 = none →
      ((env me.adapter).ReturningSql me.clauses.Returning).2 = none →
      me.updateSql env updates =
        ((env me.adapter).UpdateBeginSql.1
          ++ ((env me.adapter).SourcesSql me.clauses.From).1
          ++ ((env me.adapter).UpdateExpressionsSql updates).1
          ++ ((env me.adapter).WhereSql me.clauses.Where).1
          ++ ((env me.adapter).ReturningSql me.clauses.Returning).1, none)) := by
  refine ⟨?_, ?_, fun updates h0 h1 h2 h3 h4 =>
    updateSql_is_concatenation env me updates h0 h1 h2 h3 h4⟩
  · intro update typ entries hu hn
    have hmemK : ∀ k, k ∈ sortSort (MapKeys entries) ↔ k ∈ MapKeys entries :=
      fun k => (sortSort_perm _).mem_iff
    refine ⟨sortSort (MapKeys entries), sortSort_sorted_lt _ hn, hmemK,
      fun k hk => mem_mapValue entries k ((hmemK k).1 hk), ?_⟩
    have hloop := updateKeysLoop_eq entries (sortSort (MapKeys entries))
      (fun k hk => (hmemK k).1 hk)
    simp [Dataset.UpdateSql, hs, hu, hloop]
  · intro update typ fields hu hexp
    have hloop := updateFieldsLoop_eq me fields (fun p hp hupd =>
      hexp p hp (by simpa [StructField.updatable] using hupd))
    simp only [Dataset.UpdateSql, hs, hu, Bool.not_true, Bool.false_eq_true, ↓reduceIte,
      Option.some_bind, structFields, hloop]
    rfl

/-- C11 (witness): on the sample Dataset, the map `{"b":2,"a":1}` gives the updates `a = 1`,
`b = 2` in that order, the sample struct gives the updates of `id` and `name`, and the
statement is the concatenation of the five fragments. -/
theorem UpdateSql_passes_updates_witness :
    sampleDataset.UpdateSql sampleEnv sampleUpdateMap
        = .ok (sampleDataset.updateSql sampleEnv
            [(I "a").Set (.int .int 1), (I "b").Set (.int .int 2)])
      ∧ sampleDataset.UpdateSql sampleEnv (.struct "main.user" (sampleUser 1 "ann" 30))
        = .ok (sampleDataset.updateSql sampleEnv
            [(I "id").Set (.int .int64 1), (I "name").Set (.string "ann")])
      ∧ sampleDataset.updateSql sampleEnv [(I "a").Set (.int .int 1), (I "b").Set (.int .int 2)]
        = ("UPDATE t SET a=1 WHERE a RETURNING e", none) := by
  have h := UpdateSql_passes_updates sampleEnv sampleDataset rfl
  refine ⟨rfl, ?_, ?_⟩
  · refine (h.2.1 (.struct "main.user" (sampleUser 1 "ann" 30)) "main.user"
      (sampleUser 1 "ann" 30) rfl ?_).trans rfl
    intro p hp hupd
    simp only [sampleUser, sampleUserFields, List.zip_cons_cons, List.zip_nil_right,
      List.mem_cons, List.mem_singleton, List.not_mem_nil, or_false] at hp
    rcases hp with rfl | rfl | rfl | rfl | rfl
    · rfl
    · rfl
    · rfl
    · rfl
    · exact absurd hupd.1 (by decide)
  · exact (h.2.2 _ rfl rfl rfl rfl rfl).trans rfl

/-! ## Inputs of an unsupported shape -/

/-- `InsertSql` of one row that is not a Dataset, on a Dataset with a source, decomposes the
row. -/
theorem InsertSql_single (env : Env) (me : Dataset) (hs : me.hasSources = true) (row : GoValue)
    (hnd : ∀ other, row ≠ .expr (.dataset other)) :
    me.InsertSql env [row] =
      match me.getInsertColsAndVals [row] with
      | .error p => .error p
      | .ok (_, _, some err) => .ok ("", some err)
      | .ok (columns, vals, none) => .ok (me.insertSql env columns vals) := by
  cases row with
  | expr e =>
    cases e with
    | dataset other => exact absurd rfl (hnd other)
    | _ => simp [Dataset.InsertSql, hs]
  | _ => simp [Dataset.InsertSql, hs]

/-- A value that `reflect.Indirect` maps to the zero Value is not a Dataset. -/
theorem ne_dataset_of_Indirect_none (input : GoValue) (h : Indirect input = none)
    (other : Dataset) : input ≠ .expr (.dataset other) := by
  intro heq
  subst heq
  simp [Indirect, underlying] at h

/-- A value that `reflect.Indirect` maps to a value that is no struct is not a Dataset. -/
theorem ne_dataset_of_structFields_none (input v : GoValue) (h : Indirect input = some v)
    (hv : structFields v = none) (other : Dataset) : input ≠ .expr (.dataset other) := by
  intro heq
  subst heq
  simp only [Indirect, underlying, Option.some.injEq] at h
  subst h
  simp [structFields] at hv

/-- C12: on a Dataset with a source, an input that is, behind at most one pointer, of a kind
other than map and struct (an integer, a string, a slice, ...) makes `UpdateSql` and
`InsertSql` return their unsupported-type errors and no text; but for an input that is the nil
interface or a nil pointer both calls panic and return nothing: the code asks the zero Value
for its `Type()`. -/
theorem unsupported_input_error_or_panic (env : Env) (me : Dataset) (hs : me.hasSources = true)
    (input : GoValue) :
    (∀ v, Indirect input = some v → (∀ typ entries, v ≠ .map typ entries) →
      structFields v = none →
      me.UpdateSql env input
          = .ok ("", some (newGqlError (.lit "Unsupported update interface type %+v")
              [.type (typeOf v)]))
        ∧ me.InsertSql env [input]
          = .ok ("", some (newGqlError (.lit "Unsupported insert must be map or struct type %+v")
              [.value input])))
    ∧ (Indirect input = none →
      me.UpdateSql env input = .error .zeroValue
        ∧ me.InsertSql env [input] = .error .zeroValue) := by
  constructor
  · intro v hv hmap hstruct
    constructor
    · cases v <;>
        first
        | exact absurd rfl (hmap _ _)
        | (simp [structFields] at hstruct; done)
        | simp [Dataset.UpdateSql, hs, hv, structFields, reflectType]
    · rw [InsertSql_single env me hs input (ne_dataset_of_structFields_none input v hv hstruct)]
      cases v <;>
        first
        | exact absurd rfl (hmap _ _)
        | (simp [structFields] at hstruct; done)
        | simp [Dataset.getInsertColsAndVals, Dataset.insertRowsLoop, hv, structFields,
            reflectType]
  · intro hnone
    constructor
    · simp [Dataset.UpdateSql, hs, hnone, reflectType]
    · rw [InsertSql_single env me hs input (ne_dataset_of_Indirect_none input hnone)]
      simp [Dataset.getInsertColsAndVals, hnone, reflectType]

/-- C12 (witness): on the sample Dataset the integer 5 gives the two errors, and the nil
interface and a nil pointer make both calls panic. -/
theorem unsupported_input_error_or_panic_witness :
    (sampleDataset.UpdateSql sampleEnv (.int .int 5)
        = .ok ("", some (newGqlError (.lit "Unsupported update interface type %+v")
            [.type (.int .int)]))
      ∧ sampleDataset.InsertSql sampleEnv [.int .int 5]
        = .ok ("", some (newGqlError (.lit "Unsupported insert must be map or struct type %+v")
            [.value (.int .int 5)])))
      ∧ (sampleDataset.UpdateSql sampleEnv .nil = .error .zeroValue
        ∧ sampleDataset.InsertSql sampleEnv [.nil] = .error .zeroValue)
      ∧ (sampleDataset.UpdateSql sampleEnv (.nilPtr .string) = .error .zeroValue
        ∧ sampleDataset.InsertSql sampleEnv [.nilPtr .string] = .error .zeroValue) :=
  ⟨(unsupported_input_error_or_panic sampleEnv sampleDataset rfl (.int .int 5)).1
      (.int .int 5) rfl (fun _ _ h => by cases h) rfl,
    (unsupported_input_error_or_panic sampleEnv sampleDataset rfl .nil).2 rfl,
    (unsupported_input_error_or_panic sampleEnv sampleDataset rfl (.nilPtr .string)).2 rfl⟩

/-! ## The two shapes of an INSERT -/

/-- When its fragment renderers succeed, `insertSql` without columns returns the texts of
`InsertBeginSql`, `SourcesSql`, `DefaultValuesSql` and `ReturningSql` concatenated. -/
theorem insertSql_default_values (env : Env) (me : Dataset) (values : List (List GoValue))
    (h0 : (env me.adapter).InsertBeginSql.2 = none)
    (h1 : ((env me.adapter).SourcesSql me.clauses.From).2 = none)
    (h2 : (env me.adapter).DefaultValuesSql.2 = none)
    (h3 : ((env me.adapter).ReturningSql me.clauses.Returning).2 = none) :
    me.insertSql env none values =
      ((env me.adapter).InsertBeginSql.1
        ++ ((env me.adapter).SourcesSql me.clauses.From).1
        ++ (env me.adapter).DefaultValuesSql.1
        ++ ((env me.adapter).ReturningSql me.clauses.Returning).1, none) := by
  obtain ⟨s0, e0⟩ : ∃ s, (env me.adapter).InsertBeginSql = (s, none) := ⟨_, Prod.ext rfl h0⟩
  obtain ⟨s1, e1⟩ : ∃ s, (env me.adapter).SourcesSql me.clauses.From = (s, none) :=
    ⟨_, Prod.ext rfl h1⟩
  obtain ⟨s2, e2⟩ : ∃ s, (env me.adapter).DefaultValuesSql = (s, none) := ⟨_, Prod.ext rfl h2⟩
  obtain ⟨s3, e3⟩ : ∃ s, (env me.adapter).ReturningSql me.clauses.Returning = (s, none) :=
    ⟨_, Prod.ext rfl h3⟩
  simp only [Dataset.insertSql, e0, e1, e2, e3]
  simp [stringsJoin, String.intercalate, String.intercalate.go]

/-- When its fragment renderers succeed, `insertSql` with columns returns the texts of
`InsertBeginSql`, `SourcesSql`, `InsertColumnsSql`, `InsertValuesSql` and `ReturningSql`
concatenated. -/
theorem insertSql_columns_values (env : Env) (me : Dataset) (columns : ColumnList)
    (values : List (List GoValue))
    (h0 : (env me.adapter).InsertBeginSql.2 = none)
    (h1 : ((env me.adapter).SourcesSql me.clauses.From).2 = none)
    (h2 : ((env me.adapter).InsertColumnsSql (some columns)).2 = none)
    (h3 : ((env me.adapter).InsertValuesSql values).2 = none)
    (h4 : ((env me.adapter).ReturningSql me.clauses.Returning).2 = none) :
    me.insertSql env (some columns) values =
      ((env me.adapter).InsertBeginSql.1
        ++ ((env me.adapter).SourcesSql me.clauses.From).1
        ++ ((env me.adapter).InsertColumnsSql (some columns)).1
        ++ ((env me.adapter).InsertValuesSql values).1
        ++ ((env me.adapter).ReturningSql me.clauses.Returning).1, none) := by
  obtain ⟨s0, e0⟩ : ∃ s, (env me.adapter).InsertBeginSql = (s, none) := ⟨_, Prod.ext rfl h0⟩
  obtain ⟨s1, e1⟩ : ∃ s, (env me.adapter).SourcesSql me.clauses.From = (s, none) :=
    ⟨_, Prod.ext rfl h1⟩
  obtain ⟨s2, e2⟩ : ∃ s, (env me.adapter).InsertColumnsSql (some columns) = (s, none) :=
    ⟨_, Prod.ext rfl h2⟩
  obtain ⟨s3, e3⟩ : ∃ s, (env me.adapter).InsertValuesSql values = (s, none) :=
    ⟨_, Prod.ext rfl h3⟩
  obtain ⟨s4, e4⟩ : ∃ s, (env me.adapter).ReturningSql me.clauses.Returning = (s, none) :=
    ⟨_, Prod.ext rfl h4⟩
  simp only [Dataset.insertSql, e0, e1, e2, e3, e4]
  simp [stringsJoin, String.intercalate, String.intercalate.go]

/-- Struct rows of one type whose insertable fields are exported decompose into the columns
of the type and one tuple per row. -/
theorem getInsertColsAndVals_structs_ok (me : Dataset) (typ : String) (decls : List StructField)
    (row : GoValue) (rest : List GoValue) (fields : List (StructField × GoValue))
    (structs : List (List (StructField × GoValue)))
    (hrow : Indirect row = some (.struct typ fields))
    (hrest : List.Forall₂ (fun row fields => Indirect row = some (.struct typ fields)) rest structs)
    (htype : ∀ fs ∈ fields :: structs, fs.map Prod.fst = decls)
    (hexp : ∀ f ∈ decls, f.insertable = true → f.exported = true) :
    me.getInsertColsAndVals (row :: rest)
      = .ok (some (cols (insertColumns decls)), (fields :: structs).map insertTuple, none) := by
  have hty : fields.map Prod.fst = decls := htype fields (List.mem_cons_self _ _)
  have hloop := insertFieldsLoop_eq me fields (fun p hp hi =>
    hexp p.1 (hty ▸ List.mem_map_of_mem _ hp) hi)
  have hrestLoop := insertRowsLoop_structs me typ decls (cols (insertColumns decls)) [] rest
    structs hrest (fun fs hfs => htype fs (List.mem_cons_of_mem _ hfs)) hexp
  simp [Dataset.getInsertColsAndVals, Dataset.insertRowsLoop, hrow, reflectType, typeOf, hty,
    structFields, hloop, hrestLoop]

/-- A row that `reflect.Indirect` maps to a map is not a Dataset. -/
theorem ne_dataset_of_map (row : GoValue) (typ : String) (entries : List (String × GoValue))
    (h : Indirect row = some (.map typ entries)) (other : Dataset) :
    row ≠ .expr (.dataset other) := by
  intro heq
  subst heq
  simp [Indirect, underlying] at h

/-- A row that `reflect.Indirect` maps to a struct with fields is not a Dataset. -/
theorem ne_dataset_of_struct (row : GoValue) (typ : String)
    (fields : List (StructField × GoValue))
    (h : Indirect row = some (.struct typ fields)) (other : Dataset) :
    row ≠ .expr (.dataset other) := by
  intro heq
  subst heq
  simp [Indirect, underlying] at h

/-- C20 (counterexample): on the sample Dataset, whose adapter succeeds in every fragment, a
single map row without keys yields zero columns, and `InsertSql` renders the columns and the
values, not the default values. -/
theorem InsertSql_zero_columns_counterexample :
    sampleDataset.getInsertColsAndVals [sampleEmptyMapRow] = .ok (some [], [[]], none)
      ∧ sampleDataset.InsertSql sampleEnv [sampleEmptyMapRow]
        = .ok ("INSERT INTO t (a, b) VALUES (1, 2) RETURNING e", none)
      ∧ (sampleEnv sampleDataset.adapter).InsertBeginSql.1
          ++ ((sampleEnv sampleDataset.adapter).SourcesSql sampleDataset.clauses.From).1
          ++ (sampleEnv sampleDataset.adapter).DefaultValuesSql.1
          ++ ((sampleEnv sampleDataset.adapter).ReturningSql sampleDataset.clauses.Returning).1
        = "INSERT INTO t DEFAULT VALUES RETURNING e"
      ∧ "INSERT INTO t (a, b) VALUES (1, 2) RETURNING e"
        ≠ "INSERT INTO t DEFAULT VALUES RETURNING e" :=
  ⟨rfl, rfl, rfl, by decide⟩

/-- C20 (amended): on a Dataset with a source whose adapter succeeds in `InsertBeginSql`,
`SourcesSql` and `ReturningSql`: `InsertSql` with zero rows returns the concatenation of
`InsertBeginSql`, `SourcesSql` of the from-clause, `DefaultValuesSql` and `ReturningSql` of
the returning-clause; `InsertSql` with one or more rows that are maps of one type with the
keys of the first, or structs of one type whose insertable fields are exported, returns the
concatenation of `InsertBeginSql`, `SourcesSql`, `InsertColumnsSql` of the columns of the
rows, `InsertValuesSql` of their value tuples and `ReturningSql`, whatever the number of
columns. -/
theorem InsertSql_default_values_or_columns (env : Env) (me : Dataset)
    (hs : me.hasSources = true)
    (h0 : (env me.adapter).InsertBeginSql.2 = none)
    (h1 : ((env me.adapter).SourcesSql me.clauses.From).2 = none)
    (hr : ((env me.adapter).ReturningSql me.clauses.Returning).2 = none) :
    ((env me.adapter).DefaultValuesSql.2 = none →
      me.InsertSql env [] =
        .ok ((env me.adapter).InsertBeginSql.1
          ++ ((env me.adapter).SourcesSql me.clauses.From).1
          ++ (env me.adapter).DefaultValuesSql.1
          ++ ((env me.adapter).ReturningSql me.clauses.Returning).1, none))
    ∧ (∀ (typ : String) (row : GoValue) (rest : List GoValue)
        (entries : List (String × GoValue)) (maps : List (List (String × GoValue)))
        (columns : ColumnList) (vals : List (List GoValue)),
      Indirect row = some (.map typ entries) →
      List.Forall₂ (fun row entries => Indirect row = some (.map typ entries)) rest maps →
      (∀ m ∈ entries :: maps, (MapKeys m).Nodup) →
      (∀ m ∈ maps, ∀ k, k ∈ MapKeys m ↔ k ∈ MapKeys entries) →
      columns = cols ((sortSort (MapKeys entries)).map GoValue.string) →
      vals = (entries :: maps).map (mapTuple (sortSort (MapKeys entries))) →
      ((env me.adapter).InsertColumnsSql (some columns)).2 = none →
      ((env me.adapter).InsertValuesSql vals).2 = none →
      me.InsertSql env (row :: rest) =
        .ok ((env me.adapter).InsertBeginSql.1
          ++ ((env me.adapter).SourcesSql me.clauses.From).1
          ++ ((env me.adapter).InsertColumnsSql (some columns)).1
          ++ ((env me.adapter).InsertValuesSql vals).1
          ++ ((env me.adapter).ReturningSql me.clauses.Returning).1, none))
    ∧ (∀ (typ : String) (decls : List StructField) (row : GoValue) (rest : List GoValue)
        (fields : List (StructField × GoValue)) (structs : List (List (StructField × GoValue)))
        (columns : ColumnList) (vals : List (List GoValue)),
      Indirect row = some (.struct typ fields) →
      List.Forall₂ (fun row fields => Indirect row = some (.struct typ fields)) rest structs →
      (∀ fs ∈ fields :: structs, fs.map Prod.fst = decls) →
      (∀ f ∈ decls, f.insertable = true → f.exported = true) →
      columns = cols (insertColumns decls) →
      vals = (fields :: structs).map insertTuple →
      ((env me.adapter).InsertColumnsSql (some columns)).2 = none →
      ((env me.adapter).InsertValuesSql vals).2 = none →
      me.InsertSql env (row :: rest) =
        .ok ((env me.adapter).InsertBeginSql.1
          ++ ((env me.adapter).SourcesSql me.clauses.From).1
          ++ ((env me.adapter).InsertColumnsSql (some columns)).1
          ++ ((env me.adapter).InsertValuesSql vals).1
          ++ ((env me.adapter).ReturningSql me.clauses.Returning).1, none)) := by
  refine ⟨?_, ?_, ?_⟩
  · intro h2
    simp only [Dataset.InsertSql, hs, Bool.not_true, Bool.false_eq_true, ↓reduceIte]
    rw [insertSql_default_values env me [] h0 h1 h2 hr]
  · intro typ row rest entries maps columns vals hrow hrest hnodup hsame hc hv h2 h3
    subst hc hv
    rw [InsertSql_of_rows env me hs (row :: rest) _ _ (List.cons_ne_nil _ _)
      (fun other heq => ne_dataset_of_map row typ entries hrow other (List.cons.inj heq).1)
      (getInsertColsAndVals_maps_ok me typ row rest entries maps hrow hrest hnodup hsame)]
    rw [insertSql_columns_values env me _ _ h0 h1 h2 h3 hr]
  · intro typ decls row rest fields structs columns vals hrow hrest htype hexp hc hv h2 h3
    subst hc hv
    rw [InsertSql_of_rows env me hs (row :: rest) _ _ (List.cons_ne_nil _ _)
      (fun other heq => ne_dataset_of_struct row typ fields hrow other (List.cons.inj heq).1)
      (getInsertColsAndVals_structs_ok me typ decls row rest fields structs hrow hrest htype
        hexp)]
    rw [insertSql_columns_values env me _ _ h0 h1 h2 h3 hr]

/-- C20 (witness): on the sample Dataset, no rows give the default values, and the two sample
map rows and the map without keys give the columns and the values. -/
theorem InsertSql_default_values_or_columns_witness :
    sampleDataset.InsertSql sampleEnv [] = .ok ("INSERT INTO t DEFAULT VALUES RETURNING e", none)
      ∧ sampleDataset.InsertSql sampleEnv sampleMapRows
        = .ok ("INSERT INTO t (a, b) VALUES (1, 2) RETURNING e", none)
      ∧ sampleDataset.InsertSql sampleEnv [sampleEmptyMapRow]
        = .ok ("INSERT INTO t (a, b) VALUES (1, 2) RETURNING e", none) := by
  have h := InsertSql_default_values_or_columns sampleEnv sampleDataset rfl rfl rfl rfl
  refine ⟨(h.1 rfl).trans rfl, ?_, ?_⟩
  · refine (h.2.1 "map[string]interface {}"
      (.map "map[string]interface {}" [("b", .int .int 2), ("a", .int .int 1)])
      [.map "map[string]interface {}" [("a", .int .int 3), ("b", .int .int 4)]]
      [("b", .int .int 2), ("a", .int .int 1)] [[("a", .int .int 3), ("b", .int .int 4)]]
      _ _ rfl (List.Forall₂.cons rfl List.Forall₂.nil) ?_ ?_ rfl rfl rfl rfl).trans rfl
    · intro m hm
      simp only [List.mem_cons, List.mem_singleton, List.not_mem_nil, or_false] at hm
      rcases hm with rfl | rfl <;> simp [MapKeys]
    · intro m hm k
      simp only [List.mem_singleton] at hm
      subst hm
      simp [MapKeys, or_comm]
  · refine (h.2.1 "map[string]interface {}" sampleEmptyMapRow [] [] [] _ _ rfl List.Forall₂.nil
      ?_ ?_ rfl rfl rfl rfl).trans rfl
    · intro m hm
      simp only [List.mem_singleton] at hm
      subst hm
      simp [MapKeys]
    · intro m hm
      simp at hm

/-! ## The builder -/

/-- A copy either is the Dataset copied, or panics. -/
theorem copy_cases (d : Dataset) : d.copy = .ok d ∨ ∃ p, d.copy = .error p := by
  cases h : d.copy with
  | error p => exact Or.inr ⟨p, rfl⟩
  | ok c => exact Or.inl (by rw [Dataset.copy_ok d c h])

/-- The method `As` on a Dataset whose copy completes. -/
theorem As_of_copy (d : Dataset) (name : String) (h : d.copy = .ok d) :
    d.As name = .ok (d.withAlias name) := by
  simp [Dataset.As, h, Dataset.withAlias]

/-- The method `As` panics as the copy does. -/
theorem As_of_panic (d : Dataset) (name : String) (p : Panic) (h : d.copy = .error p) :
    d.As name = .error p := by
  simp [Dataset.As, h]

/-- The method `FromSelf` on a Dataset with an alias: no copy of the Dataset is made. -/
theorem FromSelf_of_alias (d : Dataset) (h : d.clauses.Alias.isSome = true) :
    d.FromSelf = .ok (d.wrapping [.expr (.dataset d)]) := by
  have hb : Dataset.copy
      ⟨d.adapter, { zeroClauses with Select := some (cols [.expr Star]) }, d.database⟩
      = .ok ⟨d.adapter, { zeroClauses with Select := some (cols [.expr Star]) }, d.database⟩ :=
    rfl
  have hn : d.clauses.Alias.isNone = false := by
    cases hA : d.clauses.Alias with
    | none => simp [hA] at h
    | some _ => rfl
  simp only [Dataset.FromSelf, Dataset.From, hb, fromSourcesLoop, hn]
  rfl

/-- The method `FromSelf` on a Dataset without an alias whose copy completes. -/
theorem FromSelf_of_copy (d : Dataset) (h : d.clauses.Alias = none) (hc : d.copy = .ok d) :
    d.FromSelf = .ok (d.wrapping [.expr (.dataset (d.withAlias "t1"))]) := by
  have hb : Dataset.copy
      ⟨d.adapter, { zeroClauses with Select := some (cols [.expr Star]) }, d.database⟩
      = .ok ⟨d.adapter, { zeroClauses with Select := some (cols [.expr Star]) }, d.database⟩ :=
    rfl
  have ha : d.As (sourceAlias (0 + 1)) = .ok (d.withAlias "t1") := As_of_copy d _ hc
  simp only [Dataset.FromSelf, Dataset.From, hb, fromSourcesLoop, h, Option.isNone_none,
    ↓reduceIte, ha]
  rfl

/-- The method `FromSelf` on a Dataset without an alias whose copy panics. -/
theorem FromSelf_of_panic (d : Dataset) (p : Panic) (h : d.clauses.Alias = none)
    (hc : d.copy = .error p) : d.FromSelf = .error p := by
  have hb : Dataset.copy
      ⟨d.adapter, { zeroClauses with Select := some (cols [.expr Star]) }, d.database⟩
      = .ok ⟨d.adapter, { zeroClauses with Select := some (cols [.expr Star]) }, d.database⟩ :=
    rfl
  have ha : d.As (sourceAlias (0 + 1)) = .error p := As_of_panic d _ p hc
  simp only [Dataset.FromSelf, Dataset.From, hb, fromSourcesLoop, h, Option.isNone_none,
    ↓reduceIte, ha]

/-- C19: `FromSelf` on a Dataset `d` with an alias returns the Dataset with the adapter and
the database of `d`, the star projection, the one source `d` and no other clause set; on a
Dataset without an alias whose copy completes it returns that Dataset with, as its one source,
`d` under the alias `t1`, the other clauses of `d` unchanged; but on a Dataset without an
alias whose copy panics, as it does for a join clause without a condition, `FromSelf` panics
and returns no Dataset. -/
theorem FromSelf_wraps (d : Dataset) :
    (d.clauses.Alias.isSome = true → d.FromSelf = .ok (d.wrapping [.expr (.dataset d)]))
      ∧ (d.clauses.Alias = none → d.copy = .ok d →
        d.FromSelf = .ok (d.wrapping [.expr (.dataset (d.withAlias "t1"))]))
      ∧ (∀ p, d.clauses.Alias = none → d.copy = .error p → d.FromSelf = .error p) :=
  ⟨FromSelf_of_alias d, FromSelf_of_copy d, fun p h hc => FromSelf_of_panic d p h hc⟩

/-- C19 (witness): `From("t").As("x")` and `From("t")` are wrapped, the latter under the alias
`t1`; `From("t").NaturalJoin(I("u"))` is returned, and `FromSelf` panics on it. -/
theorem FromSelf_wraps_witness :
    (sampleFrom.withAlias "x").FromSelf
        = .ok ((sampleFrom.withAlias "x").wrapping [.expr (.dataset (sampleFrom.withAlias "x"))])
      ∧ sampleFrom.FromSelf
        = .ok (sampleFrom.wrapping [.expr (.dataset (sampleFrom.withAlias "t1"))])
      ∧ sampleFrom.NaturalJoin (some (I "u")) = .ok sampleNaturalJoin
      ∧ sampleNaturalJoin.FromSelf = .error .nilDereference :=
  ⟨(FromSelf_wraps (sampleFrom.withAlias "x")).1 rfl,
    (FromSelf_wraps sampleFrom).2.1 rfl rfl,
    rfl,
    (FromSelf_wraps sampleNaturalJoin).2.2 .nilDereference rfl rfl⟩

/-- C18 (counterexample): `From("t").Order()` has an Order that is set and has no column, and
no Limit; `CompoundFromSelf` wraps it: the result is the wrapping Dataset, not the Dataset
itself. -/
theorem CompoundFromSelf_empty_order_counterexample :
    sampleFrom.Order [] = .ok sampleEmptyOrder
      ∧ sampleEmptyOrder.clauses.Order = some []
      ∧ sampleEmptyOrder.clauses.Limit = .nil
      ∧ sampleEmptyOrder.CompoundFromSelf = sampleEmptyOrder.FromSelf
      ∧ sampleEmptyOrder.CompoundFromSelf
        = .ok (sampleEmptyOrder.wrapping [.expr (.dataset (sampleEmptyOrder.withAlias "t1"))])
      ∧ sampleEmptyOrder.CompoundFromSelf ≠ .ok sampleEmptyOrder := by
  refine ⟨rfl, rfl, rfl, rfl, rfl, ?_⟩
  intro h
  have h1 : sampleEmptyOrder.CompoundFromSelf
      = .ok (sampleEmptyOrder.wrapping [.expr (.dataset (sampleEmptyOrder.withAlias "t1"))]) :=
    rfl
  rw [h1] at h
  have h2 := congrArg (fun r => r.toOption.map (fun x => x.clauses.Order.isSome)) h
  simp [Except.toOption, Dataset.wrapping, sampleEmptyOrder] at h2

/-- C18 (amended): `CompoundFromSelf` of a Dataset is `FromSelf` of it when its Order is set,
with or without columns, or its Limit is set, and is the Dataset itself when neither is
set. -/
theorem CompoundFromSelf_iff_set (d : Dataset) :
    (d.clauses.Order ≠ none ∨ d.clauses.Limit ≠ .nil → d.CompoundFromSelf = d.FromSelf)
      ∧ (d.clauses.Order = none → d.clauses.Limit = .nil → d.CompoundFromSelf = .ok d) := by
  constructor
  · intro h
    rcases h with h | h
    · cases ho : d.clauses.Order with
      | none => exact absurd ho h
      | some o => simp [Dataset.CompoundFromSelf, ho]
    · have hl : d.clauses.Limit.isNil = false := by
        cases hv : d.clauses.Limit <;> first | exact absurd hv h | rfl
      simp [Dataset.CompoundFromSelf, hl]
  · intro ho hl
    simp [Dataset.CompoundFromSelf, ho, hl, GoValue.isNil]

/-- C18 (witness): `From("t").Order()` and a Dataset with a Limit are wrapped; `From("t")` is
not. -/
theorem CompoundFromSelf_iff_set_witness :
    sampleEmptyOrder.CompoundFromSelf = sampleEmptyOrder.FromSelf
      ∧ sampleFrom.Limit 3 = .ok sampleLimited
      ∧ sampleLimited.CompoundFromSelf = sampleLimited.FromSelf
      ∧ sampleFrom.CompoundFromSelf = .ok sampleFrom :=
  ⟨(CompoundFromSelf_iff_set sampleEmptyOrder).1 (Or.inl (fun h => by cases h)),
    rfl,
    (CompoundFromSelf_iff_set sampleLimited).1 (Or.inr (fun h => by cases h)),
    (CompoundFromSelf_iff_set sampleFrom).2 rfl rfl⟩

/-- C16: on a Dataset whose copy completes, `OrderAppend()` with no argument returns the
Dataset itself when its Order is set; but when its Order is not set it returns a Dataset whose
Order is set and has no column, a clause set other than that of the receiver, which
`CompoundFromSelf` wraps while it leaves the receiver (without a Limit) as it is. -/
theorem OrderAppend_nothing (d : Dataset) (hc : d.copy = .ok d) :
    (∀ o, d.clauses.Order = some o → d.OrderAppend [] = .ok d)
      ∧ (d.clauses.Order = none →
        d.OrderAppend [] = .ok (d.withOrder (some []))
          ∧ (d.withOrder (some [])).clauses ≠ d.clauses
          ∧ (d.withOrder (some [])).CompoundFromSelf = (d.withOrder (some [])).FromSelf
          ∧ (d.clauses.Limit = .nil → d.CompoundFromSelf = .ok d)) := by
  constructor
  · intro o ho
    simp [Dataset.OrderAppend, ho, hc, ColumnListAppend, Columns, orderList]
    cases d with
    | mk adapter cl database =>
      cases cl
      simp only at ho
      subst ho
      rfl
  · intro ho
    refine ⟨?_, ?_, ?_, ?_⟩
    · simp [Dataset.OrderAppend, ho, Dataset.Order, hc, orderList, Dataset.withOrder]
    · intro h
      have h2 := congrArg (fun c => c.Order) h
      simp [ho, Dataset.withOrder] at h2
    · simp [Dataset.CompoundFromSelf, Dataset.withOrder]
    · intro hl
      simp [Dataset.CompoundFromSelf, ho, hl, GoValue.isNil]

/-- C16 (witness): `From("t").OrderAppend()` is `From("t").Order()`, whose Order is set, and
`CompoundFromSelf` wraps it and does not wrap `From("t")`. -/
theorem OrderAppend_nothing_witness :
    sampleFrom.OrderAppend [] = .ok sampleEmptyOrder
      ∧ sampleEmptyOrder.clauses ≠ sampleFrom.clauses
      ∧ sampleEmptyOrder.CompoundFromSelf = sampleEmptyOrder.FromSelf
      ∧ sampleFrom.CompoundFromSelf = .ok sampleFrom
      ∧ sampleEmptyOrder.OrderAppend [] = .ok sampleEmptyOrder :=
  ⟨((OrderAppend_nothing sampleFrom rfl).2 rfl).1,
    ((OrderAppend_nothing sampleFrom rfl).2 rfl).2.1,
    ((OrderAppend_nothing sampleFrom rfl).2 rfl).2.2.1,
    ((OrderAppend_nothing sampleFrom rfl).2 rfl).2.2.2 rfl,
    (OrderAppend_nothing sampleEmptyOrder rfl).1 [] rfl⟩

/-- C15: `Where()` and `Having()` with no expression return the receiver; with a non-empty list
`es`, on a Dataset whose copy completes, `Where(es)` returns the Dataset whose where-clause is
`And(es)` when the receiver has none and the where-clause of the receiver with `es` added at
its end when it has one, every other clause that of the receiver, and `Having(es)` likewise
for the having-clause; but on a Dataset whose copy panics, as it does for a join clause without
a condition, `Where(es)` and `Having(es)` panic and return no Dataset. -/
theorem Where_Having_set_or_append (d : Dataset) :
    d.Where [] = .ok d ∧ d.Having [] = .ok d
      ∧ (∀ es, es ≠ [] → d.copy = .ok d →
        d.Where es = .ok { d with clauses := { d.clauses with
            Where := some (match d.clauses.Where with
              | none => And es
              | some w => { operator := w.operator, expressions := w.expressions ++ es }) } }
          ∧ d.Having es = .ok { d with clauses := { d.clauses with
            Having := some (match d.clauses.Having with
              | none => And es
              | some w => { operator := w.operator, expressions := w.expressions ++ es }) } })
      ∧ (∀ es p, es ≠ [] → d.copy = .error p → d.Where es = .error p ∧ d.Having es = .error p) := by
  refine ⟨rfl, rfl, ?_, ?_⟩
  · intro es hne hc
    have hlen : es.length > 0 := List.length_pos.2 hne
    constructor
    · simp only [Dataset.Where, hlen, ↓reduceIte, hc]
      cases d.clauses.Where <;> rfl
    · simp only [Dataset.Having, hlen, ↓reduceIte, hc]
      cases d.clauses.Having <;> rfl
  · intro es p hne hc
    have hlen : es.length > 0 := List.length_pos.2 hne
    constructor
    · simp only [Dataset.Where, hlen, ↓reduceIte, hc]
    · simp only [Dataset.Having, hlen, ↓reduceIte, hc]

/-- C15 (witness): `From("t").Where(a)` has the where-clause `And(a)`, a further `Where(b)` adds
`b` at its end, and `From("t").NaturalJoin(I("u")).Where(a)` panics. -/
theorem Where_Having_set_or_append_witness :
    sampleFrom.Where [I "a"] = .ok sampleWhere
      ∧ sampleWhere.Where [I "b"]
        = .ok { sampleFrom with clauses := { sampleFrom.clauses with
            Where := some { operator := .and, expressions := [I "a", I "b"] } } }
      ∧ sampleFrom.NaturalJoin (some (I "u")) = .ok sampleNaturalJoin
      ∧ sampleNaturalJoin.Where [I "a"] = .error .nilDereference
      ∧ sampleNaturalJoin.Having [I "a"] = .error .nilDereference :=
  ⟨((Where_Having_set_or_append sampleFrom).2.2.1 [I "a"] (by simp) rfl).1,
    ((Where_Having_set_or_append sampleWhere).2.2.1 [I "b"] (by simp) rfl).1,
    rfl,
    ((Where_Having_set_or_append sampleNaturalJoin).2.2.2 [I "a"] .nilDereference (by simp) rfl).1,
    ((Where_Having_set_or_append sampleNaturalJoin).2.2.2 [I "a"] .nilDereference (by simp)
      rfl).2⟩

/-! ## Automatic aliases -/

/-- A decimal digit stands for its number. -/
theorem digitChar_value (m : Nat) (h : m < 10) : (Nat.digitChar m).toNat - 48 = m := by
  interval_cases m <;> rfl

/-- The digits of a number stand for the number. -/
theorem toDigitsCore_value : ∀ (fuel n : Nat) (ds : List Char), n < fuel →
    digitsValue (Nat.toDigitsCore 10 fuel n ds) 0 = digitsValue ds n := by
  intro fuel
  induction fuel with
  | zero =>
    intro n ds h
    exact absurd h (Nat.not_lt_zero n)
  | succ fuel ih =>
    intro n ds h
    simp only [Nat.toDigitsCore]
    by_cases h0 : n / 10 = 0
    · simp only [h0, ↓reduceIte]
      have hn : n < 10 := by omega
      have hm : n % 10 = n := Nat.mod_eq_of_lt hn
      simp only [digitsValue, List.foldl_cons, hm, digitChar_value n hn]
      simp
    · simp only [h0, ↓reduceIte]
      rw [ih (n / 10) _ (by omega)]
      simp only [digitsValue, List.foldl_cons, digitChar_value (n % 10) (Nat.mod_lt n (by omega))]
      congr 1
      omega

/-- The decimal text of a number determines the number. -/
theorem repr_injective (a b : Nat) (h : Nat.repr a = Nat.repr b) : a = b := by
  have h2 := congrArg (fun s => digitsValue s.data 0) h
  simp only [Nat.repr, Nat.toDigits, List.asString] at h2
  rw [toDigitsCore_value (a + 1) a [] (Nat.lt_succ_self a),
    toDigitsCore_value (b + 1) b [] (Nat.lt_succ_self b)] at h2
  exact h2

/-- The alias `t<k>` determines `k`. -/
theorem sourceAlias_injective (a b : Nat) (h : "t" ++ toString a = "t" ++ toString b) : a = b := by
  apply repr_injective
  have h2 := congrArg String.data h
  simp only [String.data_append, List.append_cancel_left_eq] at h2
  exact String.ext h2

/-- The rank of a source after a first source. -/
theorem unaliasedUpTo_cons (s : GoValue) (rest : List GoValue) (i : Nat) :
    unaliasedUpTo (s :: rest) (i + 1)
      = (if s.isUnaliasedDataset then 1 else 0) + unaliasedUpTo rest i := by
  simp only [unaliasedUpTo, List.take_succ_cons, List.filter_cons]
  split <;> simp [Nat.add_comm]

/-- The rank at the first source. -/
theorem unaliasedUpTo_zero (s : GoValue) (rest : List GoValue) :
    unaliasedUpTo (s :: rest) 0 = if s.isUnaliasedDataset then 1 else 0 := by
  simp only [unaliasedUpTo, Nat.zero_add, List.take_succ_cons, List.take_zero, List.filter_cons,
    List.filter_nil]
  split <;> rfl

/-- The rank of a Dataset without an alias is positive. -/
theorem unaliasedUpTo_pos : ∀ (sources : List GoValue) (j : Nat) (s : GoValue),
    sources[j]? = some s → s.isUnaliasedDataset = true → 0 < unaliasedUpTo sources j := by
  intro sources
  induction sources with
  | nil =>
    intro j s h
    simp at h
  | cons x rest ih =>
    intro j s h hs
    cases j with
    | zero =>
      simp only [List.getElem?_cons_zero, Option.some.injEq] at h
      subst h
      simp [unaliasedUpTo_zero, hs]
    | succ j =>
      simp only [List.getElem?_cons_succ] at h
      rw [unaliasedUpTo_cons]
      have := ih j s h hs
      omega

/-- A later Dataset without an alias has a greater rank. -/
theorem unaliasedUpTo_lt : ∀ (sources : List GoValue) (i j : Nat) (s : GoValue),
    i < j → sources[j]? = some s → s.isUnaliasedDataset = true →
    unaliasedUpTo sources i < unaliasedUpTo sources j := by
  intro sources
  induction sources with
  | nil =>
    intro i j s _ h
    simp at h
  | cons x rest ih =>
    intro i j s hij h hs
    cases j with
    | zero => exact absurd hij (Nat.not_lt_zero i)
    | succ j =>
      simp only [List.getElem?_cons_succ] at h
      cases i with
      | zero =>
        rw [unaliasedUpTo_cons, unaliasedUpTo_zero]
        have := unaliasedUpTo_pos rest j s h hs
        omega
      | succ i =>
        rw [unaliasedUpTo_cons, unaliasedUpTo_cons]
        have := ih i j s (Nat.lt_of_succ_lt_succ hij) h hs
        omega

/-- The loop of `Dataset.From` over sources whose Datasets without an alias can be copied:
every source is passed on as `aliasedSource` says, under the rank counted from `numSources`. -/
theorem fromSourcesLoop_eq : ∀ (sources : List GoValue) (numSources : Nat),
    (∀ o : Dataset, GoValue.expr (.dataset o) ∈ sources → o.clauses.Alias = none →
      o.copy = .ok o) →
    fromSourcesLoop sources numSources
      = .ok (sources.mapIdx
          (fun i source => aliasedSource (numSources + unaliasedUpTo sources i) source)) := by
  intro sources
  induction sources with
  | nil =>
    intro n _
    rfl
  | cons s rest ih =>
    intro n h
    have hrest : ∀ o : Dataset, GoValue.expr (.dataset o) ∈ rest → o.clauses.Alias = none →
        o.copy = .ok o := fun o ho => h o (List.mem_cons_of_mem _ ho)
    have hshift : ∀ (b : Bool) (m : Nat),
        rest.mapIdx (fun i source =>
            aliasedSource (m + unaliasedUpTo (s :: rest) (i + 1)) source)
          = rest.mapIdx (fun i source =>
            aliasedSource (m + (if s.isUnaliasedDataset then 1 else 0) + unaliasedUpTo rest i)
              source) := by
      intro _ m
      congr 1
      funext i source
      rw [unaliasedUpTo_cons, Nat.add_assoc]
    rw [List.mapIdx_cons, hshift true n, unaliasedUpTo_zero]
    cases s with
    | expr e =>
      cases e with
      | dataset d =>
        cases hA : d.clauses.Alias with
        | none =>
          have hc : Dataset.copy d = .ok d := h d (List.mem_cons_self _ _) hA
          have ha := As_of_copy d (sourceAlias (n + 1)) hc
          simp only [sourceAlias] at ha
          simp [fromSourcesLoop, hA, ha, ih (n + 1) hrest, GoValue.isUnaliasedDataset,
            aliasedSource, sourceAlias, toString]
        | some name =>
          simp [fromSourcesLoop, hA, ih n hrest, GoValue.isUnaliasedDataset, aliasedSource]
      | _ => simp [fromSourcesLoop, ih n hrest, GoValue.isUnaliasedDataset, aliasedSource]
    | _ => simp [fromSourcesLoop, ih n hrest, GoValue.isUnaliasedDataset, aliasedSource]

/-- The loop of `Dataset.From` panics when a Dataset without an alias, the first of the
sources, cannot be copied. -/
theorem fromSourcesLoop_panic (o : Dataset) (rest : List GoValue) (numSources : Nat) (p : Panic)
    (hA : o.clauses.Alias = none) (hc : o.copy = .error p) :
    fromSourcesLoop (.expr (.dataset o) :: rest) numSources = .error p := by
  simp [fromSourcesLoop, hA, As_of_panic o _ p hc]

/-- C17: on a Dataset `d` whose copy completes, and sources whose Datasets without an alias
can be copied, `d.From(sources)` returns `d` with a from-clause of as many entries as there are
sources, in their order: the `k`-th Dataset without an alias, counted from 1, is that Dataset
under the alias `t<k>`, its other clauses unchanged, and every other source is the source
itself; the aliases given to two such Datasets differ; the clauses of `d` other than From are
unchanged. But when the copy of `d`, or of a first source that is a Dataset without an alias,
panics, as it does for a join clause without a condition, `d.From(sources)` panics and returns
no Dataset. -/
theorem From_auto_aliases (d : Dataset) (sources : List GoValue) :
    (d.copy = .ok d →
      (∀ o : Dataset, GoValue.expr (.dataset o) ∈ sources → o.clauses.Alias = none →
        o.copy = .ok o) →
      ∃ sources1 : List GoValue,
        d.From sources = .ok { d with clauses := { d.clauses with From := some sources1 } }
          ∧ sources1.length = sources.length
          ∧ (∀ i s, sources[i]? = some s →
            sources1[i]? = some (aliasedSource (unaliasedUpTo sources i) s))
          ∧ (∀ i j si sj, i < j → sources[i]? = some si → sources[j]? = some sj →
            si.isUnaliasedDataset = true → sj.isUnaliasedDataset = true →
            "t" ++ toString (unaliasedUpTo sources i)
              ≠ "t" ++ toString (unaliasedUpTo sources j)))
      ∧ (∀ p, d.copy = .error p → d.From sources = .error p)
      ∧ (∀ (o : Dataset) (rest : List GoValue) (p : Panic),
        sources = .expr (.dataset o) :: rest → d.copy = .ok d → o.clauses.Alias = none →
        o.copy = .error p → d.From sources = .error p) := by
  refine ⟨?_, ?_, ?_⟩
  · intro hc hsrc
    have hloop := fromSourcesLoop_eq sources 0 hsrc
    refine ⟨sources.mapIdx (fun i source => aliasedSource (0 + unaliasedUpTo sources i) source),
      ?_, List.length_mapIdx, ?_, ?_⟩
    · simp only [Dataset.From, hc, hloop, cols]
    · intro i s hs
      rw [List.getElem?_mapIdx, hs, Nat.zero_add]
      rfl
    · intro i j si sj hij _ hj _ hsj heq
      have := unaliasedUpTo_lt sources i j sj hij hj hsj
      have := sourceAlias_injective _ _ heq
      omega
  · intro p hc
    simp [Dataset.From, hc]
  · intro o rest p hs hc hA hoc
    subst hs
    simp [Dataset.From, hc, fromSourcesLoop_panic o rest 0 p hA hoc]

/-- C17 (witness): `From("t").From(From("a"), "b", From("c"))` has the sources `From("a")` under
the alias `t1`, `b`, and `From("c")` under the alias `t2`; a `From` on
`From("t").NaturalJoin(I("u"))`, or with that Dataset as a source, panics. -/
theorem From_auto_aliases_witness :
    sampleFrom.From sampleSources
        = .ok { sampleFrom with clauses := { sampleFrom.clauses with
            From := some [.expr (.dataset ((From [.string "a"]).withAlias "t1")), .string "b",
              .expr (.dataset ((From [.string "c"]).withAlias "t2"))] } }
      ∧ (∃ sources1 : List GoValue,
        sampleFrom.From sampleSources
            = .ok { sampleFrom with clauses := { sampleFrom.clauses with From := some sources1 } }
          ∧ sources1.length = sampleSources.length)
      ∧ sampleNaturalJoin.From [.string "x"] = .error .nilDereference
      ∧ sampleFrom.From [.expr (.dataset sampleNaturalJoin)] = .error .nilDereference := by
  refine ⟨rfl, ?_, (From_auto_aliases sampleNaturalJoin [.string "x"]).2.1 .nilDereference rfl,
    (From_auto_aliases sampleFrom [.expr (.dataset sampleNaturalJoin)]).2.2 sampleNaturalJoin []
      .nilDereference rfl rfl rfl rfl⟩
  obtain ⟨sources1, h1, h2, -⟩ := (From_auto_aliases sampleFrom sampleSources).1 rfl (by
    intro o ho _
    simp only [sampleSources, List.mem_cons, GoValue.expr.injEq, Expression.dataset.injEq,
      List.mem_singleton, List.not_mem_nil, or_false, false_or, reduceCtorEq] at ho
    rcases ho with rfl | rfl <;> rfl)
  exact ⟨sources1, h1, h2⟩

/-! ## The projection of a reachable Dataset -/

/-- A Dataset that `FromSelf` returns has the select columns set and the select-distinct
columns unset. -/
theorem FromSelf_oneProjection (d r : Dataset) (h : d.FromSelf = .ok r) : r.oneProjection := by
  have hb : Dataset.copy
      ⟨d.adapter, { zeroClauses with Select := some (cols [.expr Star]) }, d.database⟩
      = .ok ⟨d.adapter, { zeroClauses with Select := some (cols [.expr Star]) }, d.database⟩ :=
    rfl
  simp only [Dataset.FromSelf, Dataset.From, hb] at h
  cases hl : fromSourcesLoop [.expr (.dataset d)] 0 with
  | error p => simp [hl] at h
  | ok sources1 =>
    simp only [hl, Except.ok.injEq] at h
    subst h
    exact Or.inl ⟨rfl, rfl⟩

/-- A Dataset that `CompoundFromSelf` returns has one projection when the receiver has. -/
theorem CompoundFromSelf_oneProjection (d r : Dataset) (h : d.CompoundFromSelf = .ok r)
    (hd : d.oneProjection) : r.oneProjection := by
  simp only [Dataset.CompoundFromSelf] at h
  split at h
  · exact FromSelf_oneProjection d r h
  · simp only [Except.ok.injEq] at h
    subst h
    exact hd

/-- In every reachable Dataset exactly one of the two projections is set. -/
theorem Reachable_oneProjection (d : Dataset) (hd : Reachable d) : d.oneProjection := by
  induction hd with
  | constructed table => exact Or.inl ⟨rfl, rfl⟩
  | byCopy d r _ h ih =>
    rw [Dataset.copy_ok d r h]
    exact ih
  | byAs d r name _ h ih =>
    rcases copy_cases d with hc | ⟨p, hc⟩
    · simp only [Dataset.As, hc, Except.ok.injEq] at h
      subst h
      exact ih
    · simp [Dataset.As, hc] at h
  | byFrom d r sources _ h ih =>
    rcases copy_cases d with hc | ⟨p, hc⟩
    · simp only [Dataset.From, hc] at h
      cases hl : fromSourcesLoop sources 0 with
      | error p => simp [hl] at h
      | ok sources1 =>
        simp only [hl, Except.ok.injEq] at h
        subst h
        exact ih
    · simp [Dataset.From, hc] at h
  | byFromSelf d r _ h _ => exact FromSelf_oneProjection d r h
  | byReturning d r returning _ h ih =>
    rcases copy_cases d with hc | ⟨p, hc⟩
    · simp only [Dataset.Returning, hc, Except.ok.injEq] at h
      subst h
      exact ih
    · simp [Dataset.Returning, hc] at h
  | byJoinTable d r joinType table condition _ h ih =>
    rcases copy_cases d with hc | ⟨p, hc⟩
    · simp only [Dataset.JoinTable, hc, Except.ok.injEq] at h
      subst h
      exact ih
    · simp [Dataset.JoinTable, hc] at h
  | bySelect d r selects _ h _ =>
    rcases copy_cases d with hc | ⟨p, hc⟩
    · simp only [Dataset.Select, hc, Except.ok.injEq] at h
      subst h
      exact Or.inl ⟨rfl, rfl⟩
    · simp [Dataset.Select, hc] at h
  | bySelectDistinct d r selects _ h _ =>
    rcases copy_cases d with hc | ⟨p, hc⟩
    · simp only [Dataset.SelectDistinct, hc, Except.ok.injEq] at h
      subst h
      exact Or.inr ⟨rfl, rfl⟩
    · simp [Dataset.SelectDistinct, hc] at h
  | byClearSelect d r _ h _ =>
    rcases copy_cases d with hc | ⟨p, hc⟩
    · simp only [Dataset.ClearSelect, hc, Except.ok.injEq] at h
      subst h
      exact Or.inl ⟨rfl, rfl⟩
    · simp [Dataset.ClearSelect, hc] at h
  | bySelectAppend d r selects _ h ih =>
    rcases copy_cases d with hc | ⟨p, hc⟩
    · simp only [Dataset.SelectAppend, hc] at h
      rcases ih with ⟨h1, h2⟩ | ⟨h1, h2⟩
      · obtain ⟨s1, hs1⟩ := Option.isSome_iff_exists.1 h1
        simp only [h2, hs1, Except.ok.injEq] at h
        subst h
        exact Or.inl ⟨rfl, rfl⟩
      · obtain ⟨s2, hs2⟩ := Option.isSome_iff_exists.1 h2
        simp only [hs2, Except.ok.injEq] at h
        subst h
        exact Or.inr ⟨h1, rfl⟩
    · simp [Dataset.SelectAppend, hc] at h
  | byWhere d r expressions _ h ih =>
    rcases copy_cases d with hc | ⟨p, hc⟩
    · simp only [Dataset.Where, hc] at h
      split at h
      · cases hw : d.clauses.Where with
        | none =>
          simp only [hw, Except.ok.injEq] at h
          subst h
          exact ih
        | some w =>
          simp only [hw, Except.ok.injEq] at h
          subst h
          exact ih
      · simp only [Except.ok.injEq] at h
        subst h
        exact ih
    · simp only [Dataset.Where, hc] at h
      split at h
      · cases h
      · simp only [Except.ok.injEq] at h
        subst h
        exact ih
  | byClearWhere d r _ h ih =>
    rcases copy_cases d with hc | ⟨p, hc⟩
    · simp only [Dataset.ClearWhere, hc, Except.ok.injEq] at h
      subst h
      exact ih
    · simp [Dataset.ClearWhere, hc] at h
  | byGroupBy d r groupBy _ h ih =>
    rcases copy_cases d with hc | ⟨p, hc⟩
    · simp only [Dataset.GroupBy, hc, Except.ok.injEq] at h
      subst h
      exact ih
    · simp [Dataset.GroupBy, hc] at h
  | byHaving d r expressions _ h ih =>
    rcases copy_cases d with hc | ⟨p, hc⟩
    · simp only [Dataset.Having, hc] at h
      split at h
      · cases hw : d.clauses.Having with
        | none =>
          simp only [hw, Except.ok.injEq] at h
          subst h
          exact ih
        | some w =>
          simp only [hw, Except.ok.injEq] at h
          subst h
          exact ih
      · simp only [Except.ok.injEq] at h
        subst h
        exact ih
    · simp only [Dataset.Having, hc] at h
      split at h
      · cases h
      · simp only [Except.ok.injEq] at h
        subst h
        exact ih
  | byOrder d r order _ h ih =>
    rcases copy_cases d with hc | ⟨p, hc⟩
    · simp only [Dataset.Order, hc, Except.ok.injEq] at h
      subst h
      exact ih
    · simp [Dataset.Order, hc] at h
  | byOrderAppend d r order _ h ih =>
    rcases copy_cases d with hc | ⟨p, hc⟩
    · cases ho : d.clauses.Order with
      | none =>
        simp only [Dataset.OrderAppend, ho, Dataset.Order, hc, Except.ok.injEq] at h
        subst h
        exact ih
      | some o =>
        simp only [Dataset.OrderAppend, ho, hc, Except.ok.injEq] at h
        subst h
        exact ih
    · cases ho : d.clauses.Order with
      | none => simp [Dataset.OrderAppend, ho, Dataset.Order, hc] at h
      | some o => simp [Dataset.OrderAppend, ho, hc] at h
  | byClearOrder d r _ h ih =>
    rcases copy_cases d with hc | ⟨p, hc⟩
    · simp only [Dataset.ClearOrder, hc, Except.ok.injEq] at h
      subst h
      exact ih
    · simp [Dataset.ClearOrder, hc] at h
  | byLimit d r limit _ h ih =>
    rcases copy_cases d with hc | ⟨p, hc⟩
    · simp only [Dataset.Limit, hc] at h
      split at h
      · simp only [Except.ok.injEq] at h
        subst h
        exact ih
      · simp only [Except.ok.injEq] at h
        subst h
        exact ih
    · simp [Dataset.Limit, hc] at h
  | byLimitAll d r _ h ih =>
    rcases copy_cases d with hc | ⟨p, hc⟩
    · simp only [Dataset.LimitAll, hc, Except.ok.injEq] at h
      subst h
      exact ih
    · simp [Dataset.LimitAll, hc] at h
  | byOffset d r offset _ h ih =>
    rcases copy_cases d with hc | ⟨p, hc⟩
    · simp only [Dataset.Offset, hc, Except.ok.injEq] at h
      subst h
      exact ih
    · simp [Dataset.Offset, hc] at h
  | byCompoundFromSelf d r _ h ih => exact CompoundFromSelf_oneProjection d r h ih
  | byCompound d r t other _ h ih =>
    simp only [Dataset.compoundWith] at h
    cases h1 : d.CompoundFromSelf with
    | error p => simp [h1] at h
    | ok ret =>
      have hret := CompoundFromSelf_oneProjection d ret h1 ih
      cases h2 : Dataset.CompoundFromSelf other with
      | error p => simp [h1, h2] at h
      | ok rhs =>
        simp only [h1, h2, Except.ok.injEq] at h
        subst h
        exact hret

/-- C14: in every Dataset reachable from the constructor `From` by calls of the mutators that
return, exactly one of the select columns and the select-distinct columns is set. `Select(cs)`
returns exactly when the copy of the receiver completes, and then returns the receiver with the
select columns `cs` and no select-distinct columns; `SelectDistinct(cs)` likewise returns it
with the select-distinct columns `cs` and no select columns; and `SelectAppend(cs)` returns the
receiver with `cs` added at the end of the select-distinct columns when they are set, and of
the select columns when only these are set, the other list as it was. But on a Dataset whose
copy panics, as it does for a reachable Dataset with a join clause without a condition,
`Select`, `SelectDistinct` and `SelectAppend` panic and set nothing. -/
theorem reachable_one_projection :
    (∀ d : Dataset, Reachable d →
      (d.clauses.Select.isSome = true ∧ d.clauses.SelectDistinct = none)
        ∨ (d.clauses.Select = none ∧ d.clauses.SelectDistinct.isSome = true))
      ∧ (∀ (d r : Dataset) (cs : List GoValue),
        (d.Select cs = .ok r ↔
          d.copy = .ok d ∧ r = { d with clauses := { d.clauses with
            SelectDistinct := none, Select := some cs } })
        ∧ (d.SelectDistinct cs = .ok r ↔
          d.copy = .ok d ∧ r = { d with clauses := { d.clauses with
            Select := none, SelectDistinct := some cs } }))
      ∧ (∀ (d r : Dataset) (cs s : List GoValue), d.clauses.SelectDistinct = some s →
        (d.SelectAppend cs = .ok r ↔
          d.copy = .ok d ∧ r = { d with clauses := { d.clauses with
            SelectDistinct := some (s ++ cs) } }))
      ∧ (∀ (d r : Dataset) (cs s : List GoValue), d.clauses.SelectDistinct = none →
        d.clauses.Select = some s →
        (d.SelectAppend cs = .ok r ↔
          d.copy = .ok d ∧ r = { d with clauses := { d.clauses with
            Select := some (s ++ cs) } }))
      ∧ (∀ (d : Dataset) (cs : List GoValue) (p : Panic), d.copy = .error p →
        d.Select cs = .error p ∧ d.SelectDistinct cs = .error p
          ∧ d.SelectAppend cs = .error p) := by
  refine ⟨fun d hd => Reachable_oneProjection d hd, ?_, ?_, ?_, ?_⟩
  rotate_right
  · intro d cs p hc
    simp only [Dataset.Select, Dataset.SelectDistinct, Dataset.SelectAppend, hc, and_self]
  · intro d r cs
    rcases copy_cases d with hc | ⟨p, hc⟩
    · simp only [Dataset.Select, Dataset.SelectDistinct, hc, Except.ok.injEq, true_and, cols]
      exact ⟨eq_comm, eq_comm⟩
    · simp [Dataset.Select, Dataset.SelectDistinct, hc]
  · intro d r cs s hs
    rcases copy_cases d with hc | ⟨p, hc⟩
    · simp only [Dataset.SelectAppend, hc, hs, Except.ok.injEq, true_and, cols, Columns,
        ColumnListAppend]
      exact eq_comm
    · simp [Dataset.SelectAppend, hc]
  · intro d r cs s hn hs
    rcases copy_cases d with hc | ⟨p, hc⟩
    · simp only [Dataset.SelectAppend, hc, hs, hn, Except.ok.injEq, true_and, cols, Columns,
        ColumnListAppend]
      exact eq_comm
    · simp [Dataset.SelectAppend, hc]

/-- C14 (witness): `From("t").SelectDistinct("a")` is reachable and has the select-distinct
columns set and the select columns unset; `From("t").NaturalJoin(I("u"))` is reachable and has
the select columns set, and `Select`, `SelectDistinct` and `SelectAppend` panic on it. -/
theorem reachable_one_projection_witness :
    sampleFrom.SelectDistinct [.string "a"] = .ok sampleDistinct
      ∧ ((sampleDistinct.clauses.Select.isSome = true ∧ sampleDistinct.clauses.SelectDistinct = none)
        ∨ (sampleDistinct.clauses.Select = none
          ∧ sampleDistinct.clauses.SelectDistinct.isSome = true))
      ∧ sampleDistinct.clauses.SelectDistinct = some [.string "a"]
      ∧ ((sampleNaturalJoin.clauses.Select.isSome = true
          ∧ sampleNaturalJoin.clauses.SelectDistinct = none)
        ∨ (sampleNaturalJoin.clauses.Select = none
          ∧ sampleNaturalJoin.clauses.SelectDistinct.isSome = true))
      ∧ Reachable sampleNaturalJoin
      ∧ (sampleNaturalJoin.Select [.string "a"] = .error .nilDereference
        ∧ sampleNaturalJoin.SelectDistinct [.string "a"] = .error .nilDereference
        ∧ sampleNaturalJoin.SelectAppend [.string "a"] = .error .nilDereference) :=
  ⟨((reachable_one_projection.2.1 sampleFrom sampleDistinct [.string "a"]).2).2 ⟨rfl, rfl⟩,
    reachable_one_projection.1 sampleDistinct
      (Reachable.bySelectDistinct sampleFrom sampleDistinct [.string "a"]
        (Reachable.constructed [.string "t"]) rfl),
    rfl,
    reachable_one_projection.1 sampleNaturalJoin
      (Reachable.byJoinTable sampleFrom sampleNaturalJoin .natural_join (some (I "u")) none
        (Reachable.constructed [.string "t"]) rfl),
    Reachable.byJoinTable sampleFrom sampleNaturalJoin .natural_join (some (I "u")) none
      (Reachable.constructed [.string "t"]) rfl,
    reachable_one_projection.2.2.2.2 sampleNaturalJoin [.string "a"] .nilDereference rfl⟩

/-! ## Compounds in memory -/

/-- Writing the cell after the first `n` cells leaves these as they are. -/
theorem take_set_self {α : Type} (l : List α) (n : Nat) (a : α) :
    (l.set n a).take n = l.take n := by
  rw [List.set_take, List.set_eq_of_length_le (by simp)]

/-- The first `n + 1` cells after a write into cell `n`. -/
theorem take_succ_set_self {α : Type} (l : List α) (n : Nat) (a : α) (h : n < l.length) :
    (l.set n a).take (n + 1) = l.take n ++ [a] := by
  rw [List.take_succ, take_set_self, List.getElem?_set_self h]
  rfl

/-- A slice with room in its backing array names an array of the heap. -/
theorem array_lt_of_room (h : Heap) (s : compoundsSlice)
    (hroom : s.len < (h.getD s.array []).length) : s.array < h.length := by
  by_contra hge
  rw [List.getD_eq_default _ _ (not_lt.1 hge)] at hroom
  simp at hroom

/-- The slice `append` returns holds the elements of the slice and the new element. -/
theorem goAppend_elements (h : Heap) (s : compoundsSlice) (x : Expression)
    (hwf : s.cap ≤ (h.getD s.array []).length) :
    (goAppend h s x).2.elements (goAppend h s x).1 = h.elements s ++ [x] := by
  unfold goAppend
  by_cases hlt : s.len < s.cap
  · have hlen : s.len < (h.getD s.array []).length := lt_of_lt_of_le hlt hwf
    have hi : s.array < h.length := array_lt_of_room h s hlen
    simp only [hlt, ↓reduceIte, Heap.elements]
    rw [List.getD_eq_getElem?_getD (h.set s.array _), List.getElem?_set_self hi, Option.getD_some,
      take_succ_set_self _ _ _ hlen, List.reduceOption_append]
    rfl
  · simp only [hlt, ↓reduceIte]
    have hE : (h.elements s).length ≤ s.len := by
      unfold Heap.elements
      exact le_trans (List.reduceOption_length_le _) (by simp)
    generalize h.elements s = E at hE ⊢
    simp only [Heap.elements]
    rw [List.getD_append_right _ _ _ _ (le_refl _)]
    simp only [Nat.sub_self, List.getD_cons_zero]
    rw [List.append_assoc, List.take_append_eq_append_take, List.take_of_length_le (by
      simpa using Nat.le_succ_of_le hE)]
    have hk : s.len + 1 - (List.map some E).length = (s.len - E.length) + 1 := by
      simp only [List.length_map]
      omega
    rw [hk]
    simp only [List.singleton_append, List.take_succ_cons, List.reduceOption_append,
      List.reduceOption_cons_of_some, List.take_replicate]
    have hnone : ∀ k : Nat, (List.replicate k (none : Option Expression)).reduceOption = [] := by
      intro k
      induction k with
      | zero => rfl
      | succ k ih => simpa [List.replicate_succ, List.reduceOption_cons_of_none] using ih
    rw [hnone]
    have hmap : ∀ l : List Expression, (l.map some).reduceOption = l := by
      intro l
      induction l with
      | nil => rfl
      | cons a l ih => simp [List.reduceOption_cons_of_some, ih]
    rw [hmap]

/-- An `append` leaves the elements of the slice appended to as they are. -/
theorem goAppend_elements_receiver (h : Heap) (s : compoundsSlice) (x : Expression)
    (hlen : s.len ≤ s.cap) (hwf : s.cap ≤ (h.getD s.array []).length) :
    (goAppend h s x).2.elements s = h.elements s := by
  unfold goAppend
  by_cases hlt : s.len < s.cap
  · have hroom : s.len < (h.getD s.array []).length := lt_of_lt_of_le hlt hwf
    have hi : s.array < h.length := array_lt_of_room h s hroom
    simp only [hlt, ↓reduceIte, Heap.elements]
    rw [List.getD_eq_getElem?_getD (h.set s.array _), List.getElem?_set_self hi, Option.getD_some,
      take_set_self]
  · simp only [hlt, ↓reduceIte, Heap.elements]
    by_cases hi : s.array < h.length
    · rw [List.getD_append _ _ _ _ hi]
    · have h0 : s.len = 0 := by
        rw [List.getD_eq_default _ _ (not_lt.1 hi)] at hwf
        simp only [List.length_nil, Nat.le_zero_eq] at hwf
        omega
      simp [h0]

/-- A Dataset that `FromSelf` returns has no compounds. -/
theorem FromSelf_compounds (d r : Dataset) (h : d.FromSelf = .ok r) :
    r.clauses.Compounds = [] := by
  have hb : Dataset.copy
      ⟨d.adapter, { zeroClauses with Select := some (cols [.expr Star]) }, d.database⟩
      = .ok ⟨d.adapter, { zeroClauses with Select := some (cols [.expr Star]) }, d.database⟩ :=
    rfl
  simp only [Dataset.FromSelf, Dataset.From, hb] at h
  cases hl : fromSourcesLoop [.expr (.dataset d)] 0 with
  | error p => simp [hl] at h
  | ok sources1 =>
    simp only [hl, Except.ok.injEq] at h
    subst h
    rfl

/-- The methods `Union`, `UnionAll`, `Intersect` and `IntersectAll` in memory return, on a
slice within its backing array, the Dataset that the methods return by value. -/
theorem compoundWith_read (h : Heap) (me : StoredDataset) (t : CompoundType) (other : Dataset)
    (hwf : me.compounds.cap ≤ (h.getD me.compounds.array []).length) :
    (me.read h).compoundWith t other
      = (me.compoundWith h t other).map (fun r => r.1.read r.2) := by
  have hcond : ((me.read h).clauses.Order.isSome || !(me.read h).clauses.Limit.isNil)
      = (me.fields.clauses.Order.isSome || !me.fields.clauses.Limit.isNil) := rfl
  by_cases hc : (me.fields.clauses.Order.isSome || !me.fields.clauses.Limit.isNil) = true
  · have hv : (me.read h).CompoundFromSelf = (me.read h).FromSelf := by
      simp only [Dataset.CompoundFromSelf, hcond, hc, ↓reduceIte]
    cases hf : (me.read h).FromSelf with
    | error p =>
      have hm : me.CompoundFromSelf h = .error p := by
        simp only [StoredDataset.CompoundFromSelf, hc, ↓reduceIte, hf]
      simp only [Dataset.compoundWith, StoredDataset.compoundWith, hv, hm, hf]
      rfl
    | ok ret =>
      have hm : me.CompoundFromSelf h = .ok { fields := ret, compounds := nilSlice } := by
        simp only [StoredDataset.CompoundFromSelf, hc, ↓reduceIte, hf]
      have hnil := FromSelf_compounds _ ret hf
      cases ho : other.CompoundFromSelf with
      | error p =>
        simp only [Dataset.compoundWith, StoredDataset.compoundWith, hv, hm, hf, ho]
        rfl
      | ok rhs =>
        simp only [Dataset.compoundWith, StoredDataset.compoundWith, hv, hm, hf, ho, Except.map]
        simp only [StoredDataset.read]
        rw [goAppend_elements h nilSlice _ (Nat.zero_le _), hnil]
        rfl
  · have hv : (me.read h).CompoundFromSelf = .ok (me.read h) := by
      simp only [Dataset.CompoundFromSelf, hcond, hc, ↓reduceIte]
      rfl
    have hm : me.CompoundFromSelf h = .ok me := by
      simp only [StoredDataset.CompoundFromSelf, hc, ↓reduceIte]
      rfl
    cases ho : other.CompoundFromSelf with
    | error p =>
      simp only [Dataset.compoundWith, StoredDataset.compoundWith, hv, hm, ho]
      rfl
    | ok rhs =>
      simp only [Dataset.compoundWith, StoredDataset.compoundWith, hv, hm, ho, Except.map]
      simp only [StoredDataset.read]
      rw [goAppend_elements h me.compounds _ hwf]

/-- C13: from `d = From("t").Union(From("x1")).Union(From("x2")).Union(From("x3"))`, whose
compounds have length 3 in a backing array of capacity 4, `r1 = d.Union(From("a"))` ends with
the compound for `a` on return; after `r2 = d.Union(From("b"))` the compounds of `d` are as
they were, but the last compound of `r1` is the compound for `b`: both calls wrote the fourth
cell of the one array. -/
theorem Union_shares_backing_array :
    ∃ (d r1 r2 : StoredDataset) (h3 h4 h5 : Heap),
      threeUnions "t" = .ok (d, h3)
        ∧ d.compounds.len = 3 ∧ d.compounds.cap = 4
        ∧ d.Union h3 (From [.string "a"]) = .ok (r1, h4)
        ∧ d.Union h4 (From [.string "b"]) = .ok (r2, h5)
        ∧ (d.read h5).clauses.Compounds = (d.read h3).clauses.Compounds
        ∧ (r1.read h4).clauses.Compounds.getLast? = some (Compound .union (From [.string "a"]))
        ∧ (r1.read h5).clauses.Compounds.getLast? = some (Compound .union (From [.string "b"]))
        ∧ (r2.read h5).clauses.Compounds.getLast? = some (Compound .union (From [.string "b"]))
        ∧ Compound .union (From [.string "b"]) ≠ Compound .union (From [.string "a"]) :=
  ⟨_, _, _, _, _, _, rfl, rfl, rfl, rfl, rfl, rfl, rfl, rfl, rfl, by simp [Compound, From, cols]⟩

/-! ## Expression dispatch -/

/-- An error of an adapter is not the error for an unsupported expression. -/
theorem ofAdapter_ne_unsupported (r : AdapterResult) (e : Expression) :
    (ofAdapter r).2
      ≠ some (newGqlError (.lit "Unsupported expression type %T") [.value (.expr e)]) := by
  rcases r with ⟨text, _ | err⟩ <;> simp [ofAdapter, newGqlError]

/-- C21: `expressionSql` returns, for an expression of each of the twelve variants, the result
of the one operation of the adapter for that variant, text and error as the adapter gives
them: `BuilderSql` for a Dataset, `ColumnListSql` for a column list, `ExpressionListSql` for
an expression list, `LiteralExpressionSql` for a literal, `QuoteIdentifier` for an
identifier, `AliasedExpressionSql`, `BooleanExpressionSql`, `OrderedExpressionSql`,
`UpdateExpressionSql`, `SqlFunctionExpressionSql`, `CastExpressionSql` and
`CompoundExpressionSql` for the variants they are named after; for an expression of no such
variant it returns the empty string and the error `Unsupported expression type`, whatever the
adapter; and it returns that error for no expression of the twelve variants. -/
theorem expressionSql_dispatch (env : Env) (me : Dataset) :
    (∀ d, me.expressionSql env (.dataset d) = ofAdapter ((env me.adapter).BuilderSql d))
      ∧ (∀ c, me.expressionSql env (.columnList c) = ofAdapter ((env me.adapter).ColumnListSql c))
      ∧ (∀ l, me.expressionSql env (.expressionList l)
        = ofAdapter ((env me.adapter).ExpressionListSql l))
      ∧ (∀ text args, me.expressionSql env (.literal text args)
        = ofAdapter ((env me.adapter).LiteralExpressionSql (.literal text args)))
      ∧ (∀ name, me.expressionSql env (.identifier name)
        = ofAdapter ((env me.adapter).QuoteIdentifier (.identifier name)))
      ∧ (∀ e name, me.expressionSql env (.aliased e name)
        = ofAdapter ((env me.adapter).AliasedExpressionSql (.aliased e name)))
      ∧ (∀ op lhs rhs, me.expressionSql env (.boolean op lhs rhs)
        = ofAdapter ((env me.adapter).BooleanExpressionSql (.boolean op lhs rhs)))
      ∧ (∀ e direction, me.expressionSql env (.ordered e direction)
        = ofAdapter ((env me.adapter).OrderedExpressionSql (.ordered e direction)))
      ∧ (∀ col val, me.expressionSql env (.update col val)
        = ofAdapter ((env me.adapter).UpdateExpressionSql (.update col val)))
      ∧ (∀ name args, me.expressionSql env (.sqlFunction name args)
        = ofAdapter ((env me.adapter).SqlFunctionExpressionSql (.sqlFunction name args)))
      ∧ (∀ e typ, me.expressionSql env (.cast e typ)
        = ofAdapter ((env me.adapter).CastExpressionSql (.cast e typ)))
      ∧ (∀ t rhs, me.expressionSql env (.compound t rhs)
        = ofAdapter ((env me.adapter).CompoundExpressionSql (.compound t rhs)))
      ∧ (∀ typ, me.expressionSql env (.unknown typ)
        = ("", some (newGqlError (.lit "Unsupported expression type %T")
            [.value (.expr (.unknown typ))])))
      ∧ (∀ e, (me.expressionSql env e).2
          = some (newGqlError (.lit "Unsupported expression type %T") [.value (.expr e)])
        ↔ ∃ typ, e = .unknown typ) := by
  refine ⟨fun _ => rfl, fun _ => rfl, fun _ => rfl, fun _ _ => rfl, fun _ => rfl, fun _ _ => rfl,
    fun _ _ _ => rfl, fun _ _ => rfl, fun _ _ => rfl, fun _ _ => rfl, fun _ _ => rfl,
    fun _ _ => rfl, fun _ => rfl, ?_⟩
  intro e
  constructor
  · intro h
    cases e with
    | unknown typ => exact ⟨typ, rfl⟩
    | _ => exact absurd h (ofAdapter_ne_unsupported _ _)
  · rintro ⟨typ, rfl⟩
    rfl

/-! ## Cloning a join clause without a condition -/

/-- The clone of a join clause without a condition panics. -/
theorem joiningClause_Clone_no_condition (joinType : JoinType) (isConditioned : Bool)
    (table : Option Expression) :
    ∃ p, joiningClause.Clone ⟨joinType, isConditioned, table, none⟩ = .error p := by
  cases table with
  | none => exact ⟨.nilDereference, by simp [joiningClause.Clone, cloneUnguarded]⟩
  | some t =>
    cases ht : Expression.Clone t with
    | error p => exact ⟨p, by simp [joiningClause.Clone, cloneUnguarded, ht]⟩
    | ok t1 => exact ⟨.nilDereference, by simp [joiningClause.Clone, cloneUnguarded, ht]⟩

/-- The clone of a join clause without a condition whose table can be cloned panics with a
nil dereference. -/
theorem joiningClause_Clone_nil_condition (joinType : JoinType) (isConditioned : Bool)
    (t : Expression) (ht : Expression.Clone t = .ok t) :
    joiningClause.Clone ⟨joinType, isConditioned, some t, none⟩ = .error .nilDereference := by
  simp [joiningClause.Clone, cloneUnguarded, ht]

/-- The clone of join clauses that can be cloned, followed by one whose clone panics,
panics. -/
theorem joiningClauses_Clone_append_panic (jc : joiningClause) (p : Panic)
    (hjc : joiningClause.Clone jc = .error p) :
    ∀ l : joiningClauses, joiningClauses.Clone l = .ok l →
      joiningClauses.Clone (l ++ [jc]) = .error p := by
  intro l
  induction l with
  | nil =>
    intro _
    simp [joiningClauses.Clone, hjc]
  | cons x rest ih =>
    intro h
    simp only [joiningClauses.Clone] at h
    cases hx : joiningClause.Clone x with
    | error q => simp [hx] at h
    | ok x1 =>
      cases hr : joiningClauses.Clone rest with
      | error q => simp [hx, hr] at h
      | ok rest1 =>
        have hrest : joiningClauses.Clone rest = .ok rest := by
          rw [hr, cloneJoiningClauses_ok rest rest1 hr]
        simp [joiningClauses.Clone, hx, ih hrest]

/-- The copy of a Dataset clones its joins first. -/
theorem copy_clones_joins (d : Dataset) :
    (d.copy = .ok d → joiningClauses.Clone d.clauses.Joins = .ok d.clauses.Joins)
      ∧ (∀ p, joiningClauses.Clone d.clauses.Joins = .error p → d.copy = .error p) := by
  obtain ⟨adapter, cl, database⟩ := d
  obtain ⟨Select, SelectDistinct, From, Joins, Where, Alias, GroupBy, Having, Order, Limit,
    Offset, Returning, Compounds⟩ := cl
  constructor
  · intro h
    cases hj : joiningClauses.Clone Joins with
    | error p => simp [Dataset.copy, clauses.Clone, hj] at h
    | ok j1 => rw [cloneJoiningClauses_ok Joins j1 hj]
  · intro p hj
    simp [Dataset.copy, clauses.Clone, hj]

/-- The copy of a Dataset that can be copied, with a join clause without a condition added,
panics. -/
theorem copy_withJoin_no_condition (d : Dataset) (hc : d.copy = .ok d) (joinType : JoinType)
    (isConditioned : Bool) (table : Option Expression) :
    ∃ p, (d.withJoin ⟨joinType, isConditioned, table, none⟩).copy = .error p := by
  obtain ⟨p, hp⟩ := joiningClause_Clone_no_condition joinType isConditioned table
  exact ⟨p, (copy_clones_joins _).2 p
    (joiningClauses_Clone_append_panic _ p hp d.clauses.Joins ((copy_clones_joins d).1 hc))⟩

/-- C22: on a Dataset `d` whose copy completes, a join without a condition (`NaturalJoin`,
`NaturalLeftJoin`, `NaturalRightJoin`, `NaturalFullJoin` and `CrossJoin` are such calls of
`JoinTable`, with `isConditioned` false) returns `d` with the join clause added at the end of
its joins; but the copy of that Dataset panics, and with it every further mutator that copies
the receiver: `Where` with expressions, `Limit`, `Select` and another join return no Dataset.
The panic is the nil dereference when the table of the join can be cloned. -/
theorem unconditioned_join_breaks_copy (d : Dataset) (hc : d.copy = .ok d)
    (joinType : JoinType) (table : Option Expression) :
    d.JoinTable joinType table none
        = .ok (d.withJoin ⟨joinType, conditioned_join_types joinType, table, none⟩)
      ∧ (d.NaturalJoin table = d.JoinTable .natural_join table none
        ∧ d.NaturalLeftJoin table = d.JoinTable .natural_left_join table none
        ∧ d.NaturalRightJoin table = d.JoinTable .natural_right_join table none
        ∧ d.NaturalFullJoin table = d.JoinTable .natural_full_join table none
        ∧ d.CrossJoin table = d.JoinTable .cross_join table none
        ∧ conditioned_join_types .natural_join = false
        ∧ conditioned_join_types .natural_left_join = false
        ∧ conditioned_join_types .natural_right_join = false
        ∧ conditioned_join_types .natural_full_join = false
        ∧ conditioned_join_types .cross_join = false)
      ∧ ∃ p,
        (d.withJoin ⟨joinType, conditioned_join_types joinType, table, none⟩).copy = .error p
          ∧ (∀ es, es ≠ [] →
            (d.withJoin ⟨joinType, conditioned_join_types joinType, table, none⟩).Where es
              = .error p)
          ∧ (∀ n,
            (d.withJoin ⟨joinType, conditioned_join_types joinType, table, none⟩).Limit n
              = .error p)
          ∧ (∀ cs,
            (d.withJoin ⟨joinType, conditioned_join_types joinType, table, none⟩).Select cs
              = .error p)
          ∧ (∀ jt t c,
            (d.withJoin ⟨joinType, conditioned_join_types joinType, table, none⟩).JoinTable jt t c
              = .error p)
          ∧ (∀ t, table = some t → Expression.Clone t = .ok t → p = .nilDereference) := by
  refine ⟨?_, ⟨rfl, rfl, rfl, rfl, rfl, rfl, rfl, rfl, rfl, rfl⟩, ?_⟩
  · simp [Dataset.JoinTable, hc, Dataset.withJoin]
  · obtain ⟨p, hp⟩ := copy_withJoin_no_condition d hc joinType (conditioned_join_types joinType)
      table
    refine ⟨p, hp, ?_, ?_, ?_, ?_, ?_⟩
    · intro es hne
      have hlen : es.length > 0 := List.length_pos.2 hne
      simp only [Dataset.Where, hlen, ↓reduceIte, hp]
    · intro n
      simp only [Dataset.Limit, hp]
    · intro cs
      simp only [Dataset.Select, hp]
    · intro jt t c
      simp only [Dataset.JoinTable, hp]
    · intro t ht hclone
      subst ht
      have hnil := (copy_clones_joins
          (d.withJoin ⟨joinType, conditioned_join_types joinType, some t, none⟩)).2 .nilDereference
        (joiningClauses_Clone_append_panic _ .nilDereference
          (joiningClause_Clone_nil_condition joinType (conditioned_join_types joinType) t hclone)
          d.clauses.Joins ((copy_clones_joins d).1 hc))
      have heq : (Except.error p : Panics Dataset) = .error .nilDereference := by
        rw [← hp]
        exact hnil
      exact Except.error.inj heq

/-- C22 (witness): `From("t").NaturalJoin(I("u"))` is `From("t")` with the natural join added,
and `Where`, `Limit`, `Select` and a further `CrossJoin` on it panic with a nil
dereference. -/
theorem unconditioned_join_breaks_copy_witness :
    sampleFrom.NaturalJoin (some (I "u")) = .ok sampleNaturalJoin
      ∧ sampleNaturalJoin.Where [I "a"] = .error .nilDereference
      ∧ sampleNaturalJoin.Limit 1 = .error .nilDereference
      ∧ sampleNaturalJoin.Select [.string "a"] = .error .nilDereference
      ∧ sampleNaturalJoin.CrossJoin (some (I "v")) = .error .nilDereference
      ∧ ∃ p, sampleNaturalJoin.copy = .error p ∧ p = .nilDereference := by
  have h := unconditioned_join_breaks_copy sampleFrom rfl .natural_join (some (I "u"))
  obtain ⟨p, hp, -, -, -, -, hnil⟩ := h.2.2
  exact ⟨h.1, rfl, rfl, rfl, rfl, p, hp, hnil (I "u") rfl rfl⟩

/-! ## The result of a set operation -/

/-- An `interface{}` value is nil exactly when `isNil` says so. -/
theorem isNil_iff (v : GoValue) : v.isNil = true ↔ v = .nil := by
  cases v <;> simp [GoValue.isNil]

/-- A Dataset that `FromSelf` returns is a fresh Dataset that wraps its one source. -/
theorem FromSelf_shape (d r : Dataset) (h : d.FromSelf = .ok r) :
    ∃ sources, r = d.wrapping sources := by
  have hb : Dataset.copy
      ⟨d.adapter, { zeroClauses with Select := some (cols [.expr Star]) }, d.database⟩
      = .ok ⟨d.adapter, { zeroClauses with Select := some (cols [.expr Star]) }, d.database⟩ :=
    rfl
  simp only [Dataset.FromSelf, Dataset.From, hb] at h
  cases hl : fromSourcesLoop [.expr (.dataset d)] 0 with
  | error p => simp [hl] at h
  | ok sources1 =>
    simp only [hl, Except.ok.injEq] at h
    subst h
    exact ⟨sources1, rfl⟩

/-- `FromSelf` returns on a Dataset with an alias and on one whose copy completes. -/
theorem FromSelf_returns (d : Dataset) (h : d.clauses.Alias.isSome = true ∨ d.copy = .ok d) :
    ∃ r, d.FromSelf = .ok r := by
  cases hA : d.clauses.Alias with
  | some name => exact ⟨_, FromSelf_of_alias d (by simp [hA])⟩
  | none =>
    rcases h with h | h
    · simp [hA] at h
    · exact ⟨_, FromSelf_of_copy d hA h⟩

/-- A Dataset that `CompoundFromSelf` returns has no Order and no Limit: it is the receiver
when that has neither, and a fresh wrapping Dataset otherwise. -/
theorem CompoundFromSelf_shape (d r : Dataset) (h : d.CompoundFromSelf = .ok r) :
    r.clauses.Order = none ∧ r.clauses.Limit = .nil
      ∧ ((d.clauses.Order = none ∧ d.clauses.Limit = .nil ∧ r = d)
        ∨ ((d.clauses.Order ≠ none ∨ d.clauses.Limit ≠ .nil) ∧ ∃ sources, r = d.wrapping sources)) := by
  simp only [Dataset.CompoundFromSelf] at h
  by_cases hc : (d.clauses.Order.isSome || !d.clauses.Limit.isNil) = true
  · simp only [hc, ↓reduceIte] at h
    obtain ⟨sources, hr⟩ := FromSelf_shape d r h
    subst hr
    refine ⟨rfl, rfl, Or.inr ⟨?_, sources, rfl⟩⟩
    rcases Bool.or_eq_true_iff.1 hc with h1 | h1
    · left
      intro hn
      simp [hn] at h1
    · right
      intro hn
      simp [hn, GoValue.isNil] at h1
  · have hc2 : (d.clauses.Order.isSome || !d.clauses.Limit.isNil) = false := by
      simpa using hc
    simp only [hc2, Bool.false_eq_true, ↓reduceIte, Except.ok.injEq] at h
    subst h
    rw [Bool.or_eq_false_iff] at hc2
    have ho : d.clauses.Order = none := by
      cases hO : d.clauses.Order with
      | none => rfl
      | some o => simp [hO] at hc2
    have hl : d.clauses.Limit = .nil := by
      apply (isNil_iff _).1
      simpa using hc2.2
    exact ⟨ho, hl, Or.inl ⟨ho, hl, rfl⟩⟩

/-- `CompoundFromSelf` returns on a Dataset without Order and Limit, on one with an alias, and
on one whose copy completes. -/
theorem CompoundFromSelf_returns (d : Dataset)
    (h : (d.clauses.Order = none ∧ d.clauses.Limit = .nil) ∨ d.clauses.Alias.isSome = true
      ∨ d.copy = .ok d) :
    ∃ r, d.CompoundFromSelf = .ok r := by
  simp only [Dataset.CompoundFromSelf]
  by_cases hc : (d.clauses.Order.isSome || !d.clauses.Limit.isNil) = true
  · simp only [hc, ↓reduceIte]
    rcases h with ⟨ho, hl⟩ | h
    · simp [ho, hl, GoValue.isNil] at hc
    · exact FromSelf_returns d h
  · simp only [hc, ↓reduceIte]
    exact ⟨d, rfl⟩

/-- `CompoundFromSelf` panics on a Dataset with an Order or a Limit and without an alias whose
copy panics. -/
theorem CompoundFromSelf_panics (d : Dataset) (p : Panic)
    (h : d.clauses.Order ≠ none ∨ d.clauses.Limit ≠ .nil) (hA : d.clauses.Alias = none)
    (hc : d.copy = .error p) : d.CompoundFromSelf = .error p := by
  have hcond : (d.clauses.Order.isSome || !d.clauses.Limit.isNil) = true := by
    rcases h with h | h
    · cases hO : d.clauses.Order with
      | none => exact absurd hO h
      | some o => simp
    · have : d.clauses.Limit.isNil = false := by
        cases hv : d.clauses.Limit.isNil with
        | false => rfl
        | true => exact absurd ((isNil_iff _).1 hv) h
      simp [this]
  simp only [Dataset.CompoundFromSelf, hcond, ↓reduceIte]
  exact FromSelf_of_panic d p hA hc

/-- C23: `Union`, `UnionAll`, `Intersect` and `IntersectAll` are one method up to the set
operation. A Dataset that such a call `d.m(o)` returns has no Order and no Limit; the operand
held by the compound it adds is `o.CompoundFromSelf()`, which has no Order and no Limit; and
its compounds are those of `d.CompoundFromSelf()` followed by that one compound: the
compounds of `d` and the new one when `d` has neither Order nor Limit, the new one alone when
`d` has one of them. The call returns when each of `d` and `o` has neither Order nor Limit,
or has an alias, or can be copied; but for a `d` with an Order or a Limit and without an alias
whose copy panics, as it does for a join clause without a condition, the call panics and
returns no Dataset. -/
theorem compound_result_shape (d o : Dataset) (t : CompoundType) :
    (d.Union o = d.compoundWith .union o ∧ d.UnionAll o = d.compoundWith .unionAll o
        ∧ d.Intersect o = d.compoundWith .intersect o
        ∧ d.IntersectAll o = d.compoundWith .intersectAll o)
      ∧ (∀ r, d.compoundWith t o = .ok r →
        r.clauses.Order = none ∧ r.clauses.Limit = .nil
          ∧ ∃ ret rhs, d.CompoundFromSelf = .ok ret ∧ o.CompoundFromSelf = .ok rhs
            ∧ rhs.clauses.Order = none ∧ rhs.clauses.Limit = .nil
            ∧ r.clauses.Compounds = ret.clauses.Compounds ++ [Compound t rhs]
            ∧ (d.clauses.Order = none → d.clauses.Limit = .nil →
              r.clauses.Compounds = d.clauses.Compounds ++ [Compound t rhs])
            ∧ (d.clauses.Order ≠ none ∨ d.clauses.Limit ≠ .nil →
              r.clauses.Compounds = [Compound t rhs]))
      ∧ ((d.clauses.Order = none ∧ d.clauses.Limit = .nil) ∨ d.clauses.Alias.isSome = true
          ∨ d.copy = .ok d →
        (o.clauses.Order = none ∧ o.clauses.Limit = .nil) ∨ o.clauses.Alias.isSome = true
          ∨ o.copy = .ok o →
        ∃ r, d.compoundWith t o = .ok r)
      ∧ (∀ p, d.clauses.Order ≠ none ∨ d.clauses.Limit ≠ .nil → d.clauses.Alias = none →
        d.copy = .error p → d.compoundWith t o = .error p) := by
  refine ⟨⟨rfl, rfl, rfl, rfl⟩, ?_, ?_, ?_⟩
  · intro r h
    simp only [Dataset.compoundWith] at h
    cases h1 : d.CompoundFromSelf with
    | error p => simp [h1] at h
    | ok ret =>
      cases h2 : o.CompoundFromSelf with
      | error p => simp [h1, h2] at h
      | ok rhs =>
        simp only [h1, h2, Except.ok.injEq] at h
        subst h
        obtain ⟨hro, hrl, hcases⟩ := CompoundFromSelf_shape d ret h1
        obtain ⟨hoo, hol, -⟩ := CompoundFromSelf_shape o rhs h2
        refine ⟨hro, hrl, ret, rhs, rfl, rfl, hoo, hol, rfl, ?_, ?_⟩
        · intro ho hl
          rcases hcases with ⟨-, -, hrd⟩ | ⟨hset, -⟩
          · rw [hrd]
          · rcases hset with hset | hset
            · exact absurd ho hset
            · exact absurd hl hset
        · intro hset
          rcases hcases with ⟨ho, hl, -⟩ | ⟨-, sources, hw⟩
          · rcases hset with hset | hset
            · exact absurd ho hset
            · exact absurd hl hset
          · rw [hw]
            rfl
  · intro hd ho
    obtain ⟨ret, h1⟩ := CompoundFromSelf_returns d hd
    obtain ⟨rhs, h2⟩ := CompoundFromSelf_returns o ho
    refine ⟨{ ret with clauses := { ret.clauses with
      Compounds := ret.clauses.Compounds ++ [Compound t rhs] } }, ?_⟩
    simp only [Dataset.compoundWith, h1, h2]
  · intro p hset hA hc
    simp only [Dataset.compoundWith, CompoundFromSelf_panics d p hset hA hc]

/-- C23 (witness): `From("t").Union(From("t").Order(I("a").Asc()))` has no Order, no Limit and
the one compound whose operand is the wrapped second Dataset; the Dataset
`From("t").Order(I("a").Asc()).NaturalJoin(I("u"))` is returned, and its `Union` panics. -/
theorem compound_result_shape_witness :
    (∃ r, sampleFrom.Union sampleOrdered = .ok r
        ∧ r.clauses.Order = none ∧ r.clauses.Limit = .nil
        ∧ r.clauses.Compounds
          = [Compound .union (sampleOrdered.wrapping
              [.expr (.dataset (sampleOrdered.withAlias "t1"))])])
      ∧ sampleFrom.Order [.ordered (I "a") "ASC"] = .ok sampleOrdered
      ∧ sampleOrdered.NaturalJoin (some (I "u")) = .ok sampleOrderedJoin
      ∧ sampleOrderedJoin.Union sampleFrom = .error .nilDereference := by
  have h := compound_result_shape sampleFrom sampleOrdered .union
  obtain ⟨r, hr⟩ := h.2.2.1 (Or.inl ⟨rfl, rfl⟩) (Or.inr (Or.inr rfl))
  obtain ⟨ho, hl, -⟩ := h.2.1 r hr
  have hr2 : sampleFrom.Union sampleOrdered = .ok r := hr
  refine ⟨⟨r, hr2, ho, hl, ?_⟩, rfl, rfl,
    (compound_result_shape sampleOrderedJoin sampleFrom .union).2.2.2 .nilDereference
      (Or.inl (fun h => by cases h)) rfl rfl⟩
  have hconcrete : sampleFrom.Union sampleOrdered
      = .ok { sampleFrom with clauses := { sampleFrom.clauses with
          Compounds := [Compound .union (sampleOrdered.wrapping
            [.expr (.dataset (sampleOrdered.withAlias "t1"))])] } } := rfl
  rw [hconcrete] at hr2
  rw [← Except.ok.inj hr2]

end gql
